import Mathlib

/-!
# Bitstream extractor: NAL-unit filtering pass

A shallow embedding of `BitstreamExtractorApp::decode` and its writers
(`source/App/BitstreamExtractorApp/BitstreamExtractorApp.cpp`).

The byte-stream framer, the NAL header reader, the high-level syntax reader and
the SEI reader are collaborators whose code is not part of the two source files;
a `NalUnit` therefore carries what they deliver for one unit: the captured
bytes, the framing statistics, the header fields and the parsed record(s).
The high-level syntax writer is a parameter (`HLSWriter`).
-/

namespace BitstreamExtractor

/-! ## Data model -/

/-- NAL unit types that `decode` distinguishes; every other type is `NAL_UNIT_OTHER`. -/
inductive NalUnitType where
  | NAL_UNIT_VPS
  | NAL_UNIT_SPS
  | NAL_UNIT_PPS
  | NAL_UNIT_DCI
  | NAL_UNIT_EOB
  | NAL_UNIT_PREFIX_SEI
  | NAL_UNIT_OTHER (code : Nat)
  deriving DecidableEq, Repr

/-- SEI payload types that `decode` distinguishes. -/
inductive PayloadType where
  | BUFFERING_PERIOD
  | PICTURE_TIMING
  | DECODING_UNIT_INFO
  | SCALABLE_NESTING
  | OTHER (code : Nat)
  deriving DecidableEq, Repr

/-- One parsed SEI message. The nesting fields are those of `SEIScalableNesting`
and are read only when `payloadType` is `SCALABLE_NESTING`; `m_nestingOlsIdx` is
an array, read at index `i` as `nestingOlsIdx.getD i 0`. -/
structure SEI where
  payloadType : PayloadType
  m_nestingOlsFlag : Bool := false
  m_nestingNumOlssMinus1 : Nat := 0
  m_nestingOlsIdx : List Nat := []
  deriving DecidableEq, Repr

/-- Modelled from the spec: the `VPS` record (class `VPS`, declared outside the
two source files), reduced to the members `decode` touches: its id, the number
of output layer sets, and for each OLS the enumerated layer ids. -/
structure VPS where
  vpsId : Nat := 0
  numOutputLayerSets : Nat := 0
  numLayersInOls : List Nat := []
  layerIdInOls : List (List Nat) := []
  deriving DecidableEq, Repr

/-- Modelled from the spec: the `SPS` record: its id and the remaining syntax
elements as an uninterpreted body. -/
structure SPS where
  spsId : Nat := 0
  body : List Nat := []
  deriving DecidableEq, Repr

/-- Modelled from the spec: the `PPS` record: its id and the remaining syntax
elements as an uninterpreted body. -/
structure PPS where
  ppsId : Nat := 0
  body : List Nat := []
  deriving DecidableEq, Repr

/-- The fields of `AnnexBStats` that `decode` reads. -/
structure AnnexBStats where
  m_numLeadingZero8BitsBytes : Nat := 0
  m_numZeroByteBytes : Nat := 0
  m_numStartCodePrefixBytes : Nat := 3
  deriving DecidableEq, Repr

/-- One iteration's input: what `byteStreamNALUnit`, `read(nalu)` and the syntax
readers deliver. `fifo` is the captured payload; `vps`, `sps`, `pps`, `seis`
are the results of `parseVPS`, `parseSPS`, `parsePPS`, `parseSEImessage` on it
and are read only for a unit of the matching type. -/
structure NalUnit where
  fifo : List Nat
  stats : AnnexBStats := {}
  m_nalUnitType : NalUnitType
  m_nuhLayerId : Nat := 0
  m_temporalId : Nat := 0
  vps : VPS := {}
  sps : SPS := {}
  pps : PPS := {}
  seis : List SEI := []
  deriving DecidableEq, Repr

/-- Extraction target: `m_targetOlsIdx` and `m_maxTemporalLayer` (both `int`). -/
structure Config where
  m_targetOlsIdx : Int
  m_maxTemporalLayer : Int
  deriving DecidableEq, Repr

/-- Fatal conditions (`CHECK` failures) that abort the run. -/
inductive Fatal where
  | vpsTemporalId
  | spsTemporalId
  | onlyOneOls
  | olsRange
  | lookup
  deriving DecidableEq, Repr

/-! ## Parameter set store -/

/-- Modelled from the spec: the parameter set store (`ParameterSetManager`),
one id-keyed map per kind. -/
structure ParameterSetManager where
  vpsMap : List (Nat × VPS) := []
  spsMap : List (Nat × SPS) := []
  ppsMap : List (Nat × PPS) := []
  deriving DecidableEq, Repr

/-- Modelled from the spec: `store(kind, record)` registers the record under its
id, replacing any prior record with the same id. -/
def storePS {α : Type} (m : List (Nat × α)) (psId : Nat) (ps : α) : List (Nat × α) :=
  (psId, ps) :: m.filter (fun e => e.1 != psId)

/-- Modelled from the spec: `getByKindAndId`, absent when nothing was stored
under the id. -/
def getPS {α : Type} (m : List (Nat × α)) (psId : Nat) : Option α :=
  m.lookup psId

def ParameterSetManager.storeVPS (m : ParameterSetManager) (vps : VPS) : ParameterSetManager :=
  { m with vpsMap := storePS m.vpsMap vps.vpsId vps }

def ParameterSetManager.getVPS (m : ParameterSetManager) (vpsId : Nat) : Option VPS :=
  getPS m.vpsMap vpsId

def ParameterSetManager.storeSPS (m : ParameterSetManager) (sps : SPS) : ParameterSetManager :=
  { m with spsMap := storePS m.spsMap sps.spsId sps }

def ParameterSetManager.getSPS (m : ParameterSetManager) (spsId : Nat) : Option SPS :=
  getPS m.spsMap spsId

def ParameterSetManager.storePPS (m : ParameterSetManager) (pps : PPS) : ParameterSetManager :=
  { m with ppsMap := storePS m.ppsMap pps.ppsId pps }

def ParameterSetManager.getPPS (m : ParameterSetManager) (ppsId : Nat) : Option PPS :=
  getPS m.ppsMap ppsId

/-! ## VPS accessors -/

/-- Array write `a[i] = v`, growing the array with `d` when it is shorter. -/
def writeAt {α : Type} (d : α) : List α → Nat → α → List α
  | [], 0, v => [v]
  | [], n + 1, v => d :: writeAt d [] n v
  | _ :: xs, 0, v => v :: xs
  | x :: xs, n + 1, v => x :: writeAt d xs n v

def VPS.getNumOutputLayerSets (vps : VPS) : Nat := vps.numOutputLayerSets

def VPS.setNumLayersInOls (vps : VPS) (olsIdx numLayers : Nat) : VPS :=
  { vps with numLayersInOls := writeAt 0 vps.numLayersInOls olsIdx numLayers }

def VPS.setLayerIdInOls (vps : VPS) (olsIdx layerIdx layerId : Nat) : VPS :=
  { vps with layerIdInOls :=
      writeAt [] vps.layerIdInOls olsIdx (writeAt 0 (vps.layerIdInOls.getD olsIdx []) layerIdx layerId) }

def VPS.getLayerIdsInOls (vps : VPS) (targetOlsIdx : Nat) : List Nat :=
  vps.layerIdInOls.getD targetOlsIdx []

/-! ## Writers -/

/-- The high-level syntax writer and the NAL packer, taken as parameters:
`codeVPS` / `codeSPS` / `codePPS` give the record's payload, `nalUnitEBSP`
packs a payload with its NAL header (type, layer id, temporal id) and
emulation prevention. -/
structure HLSWriter where
  codeVPS : VPS → List Nat
  codeSPS : SPS → List Nat
  codePPS : PPS → List Nat
  nalUnitEBSP : NalUnitType → Nat → Nat → List Nat → List Nat

/-- Modelled from the spec: `writeAnnexB` on a one-unit access unit writes the
4-byte start code `00 00 00 01` and then the unit. -/
def writeAnnexB (nal : List Nat) : List Nat := [0, 0, 0, 1] ++ nal

/-- Function `xWriteVPS`: fatal unless `temporalId` is 0, else the re-serialized unit. -/
def xWriteVPS (w : HLSWriter) (vps : VPS) (layerId temporalId : Nat) : Except Fatal (List Nat) :=
  if temporalId ≠ 0 then .error Fatal.vpsTemporalId
  else .ok (writeAnnexB (w.nalUnitEBSP NalUnitType.NAL_UNIT_VPS layerId temporalId (w.codeVPS vps)))

/-- Function `xWriteSPS`: fatal unless `temporalId` is 0, else the re-serialized unit. -/
def xWriteSPS (w : HLSWriter) (sps : SPS) (layerId temporalId : Nat) : Except Fatal (List Nat) :=
  if temporalId ≠ 0 then .error Fatal.spsTemporalId
  else .ok (writeAnnexB (w.nalUnitEBSP NalUnitType.NAL_UNIT_SPS layerId temporalId (w.codeSPS sps)))

/-- Function `xWritePPS`: the re-serialized unit (no temporal id check). -/
def xWritePPS (w : HLSWriter) (pps : PPS) (layerId temporalId : Nat) : List Nat :=
  writeAnnexB (w.nalUnitEBSP NalUnitType.NAL_UNIT_PPS layerId temporalId (w.codePPS pps))

/-! ## The per-unit pass -/

/-- Running state across units: `m_vpsId` (-1 until a VPS unit is seen), the
parameter set store and `unitCnt`. -/
structure State where
  m_vpsId : Int := -1
  m_parameterSetManager : ParameterSetManager := {}
  unitCnt : Nat := 0
  deriving DecidableEq, Repr

/-- The state of a fresh `BitstreamExtractorApp` at the start of `decode`. -/
def State.init : State := {}

/-- Line 191: the temporal predicate. -/
def temporalKeep (cfg : Config) (nalu : NalUnit) : Bool :=
  decide (cfg.m_maxTemporalLayer < 0) || decide ((nalu.m_temporalId : Int) ≤ cfg.m_maxTemporalLayer)

/-- Lines 193-215: a VPS unit is parsed, stored, fetched back, made the active
VPS, and written when the flag is still set. Yields the state, the flag and
the bytes written. -/
def vpsBlock (w : HLSWriter) (st : State) (nalu : NalUnit) (writeFlag : Bool) :
    Except Fatal (State × Bool × List Nat) :=
  if nalu.m_nalUnitType = NalUnitType.NAL_UNIT_VPS then
    let psm := st.m_parameterSetManager.storeVPS nalu.vps
    match psm.getVPS nalu.vps.vpsId with
    | none => .error Fatal.lookup
    | some vps =>
      let st1 : State := { st with m_parameterSetManager := psm, m_vpsId := (vps.vpsId : Int) }
      if writeFlag then
        match xWriteVPS w vps nalu.m_nuhLayerId nalu.m_temporalId with
        | .error e => .error e
        | .ok bytes => .ok (st1, false, bytes)
      else .ok (st1, writeFlag, [])
  else .ok (st, writeFlag, [])

/-- Lines 218-241: with `m_targetOlsIdx >= 0`, either the synthetic one-layer
VPS of the current unit (no VPS seen; fatal unless the target is 0) or the
range check and the layer membership test against the active VPS. Yields the
flag and the `vps` pointer later handed to the SEI reader. -/
def olsBlock (cfg : Config) (st : State) (nalu : NalUnit) (writeFlag : Bool) :
    Except Fatal (Bool × Option VPS) :=
  if cfg.m_targetOlsIdx ≥ 0 then
    if st.m_vpsId = -1 then
      if cfg.m_targetOlsIdx ≠ 0 then .error Fatal.onlyOneOls
      else
        let vps : VPS := {}
        let vps := vps.setNumLayersInOls 0 1
        let vps := vps.setLayerIdInOls 0 0 nalu.m_nuhLayerId
        .ok (writeFlag, some vps)
    else
      let t := nalu.m_nalUnitType
      let isSpecialNalTypes : Bool :=
        decide (t = NalUnitType.NAL_UNIT_VPS) || decide (t = NalUnitType.NAL_UNIT_DCI)
          || decide (t = NalUnitType.NAL_UNIT_EOB)
      match st.m_parameterSetManager.getVPS st.m_vpsId.toNat with
      | none => .error Fatal.lookup
      | some vps =>
        let numOlss := vps.getNumOutputLayerSets
        if cfg.m_targetOlsIdx < 0 ∨ cfg.m_targetOlsIdx ≥ (numOlss : Int) then .error Fatal.olsRange
        else
          let LayerIdInOls := vps.getLayerIdsInOls cfg.m_targetOlsIdx.toNat
          let isIncludedInTargetOls : Bool := decide (nalu.m_nuhLayerId ∈ LayerIdInOls)
          .ok (writeFlag && (isSpecialNalTypes || isIncludedInTargetOls), some vps)
  else .ok (writeFlag, none)

/-- Lines 243-263: an SPS unit is parsed, stored, fetched back, and written when
the flag is still set. -/
def spsBlock (w : HLSWriter) (st : State) (nalu : NalUnit) (writeFlag : Bool) :
    Except Fatal (State × Bool × List Nat) :=
  if nalu.m_nalUnitType = NalUnitType.NAL_UNIT_SPS then
    let psm := st.m_parameterSetManager.storeSPS nalu.sps
    match psm.getSPS nalu.sps.spsId with
    | none => .error Fatal.lookup
    | some sps =>
      let st1 : State := { st with m_parameterSetManager := psm }
      if writeFlag then
        match xWriteSPS w sps nalu.m_nuhLayerId nalu.m_temporalId with
        | .error e => .error e
        | .ok bytes => .ok (st1, false, bytes)
      else .ok (st1, writeFlag, [])
  else .ok (st, writeFlag, [])

/-- Lines 265-285: a PPS unit is parsed, stored, fetched back, and written when
the flag is still set. -/
def ppsBlock (w : HLSWriter) (st : State) (nalu : NalUnit) (writeFlag : Bool) :
    Except Fatal (State × Bool × List Nat) :=
  if nalu.m_nalUnitType = NalUnitType.NAL_UNIT_PPS then
    let psm := st.m_parameterSetManager.storePPS nalu.pps
    match psm.getPPS nalu.pps.ppsId with
    | none => .error Fatal.lookup
    | some pps =>
      let st1 : State := { st with m_parameterSetManager := psm }
      if writeFlag then
        .ok (st1, false, xWritePPS w pps nalu.m_nuhLayerId nalu.m_temporalId)
      else .ok (st1, writeFlag, [])
  else .ok (st, writeFlag, [])

/-- Lines 303-311: does `m_targetOlsIdx` occur among entries `0 .. m_nestingNumOlssMinus1`
of `m_nestingOlsIdx`. -/
def targetOlsIdxInNestingAppliedOls (sei : SEI) (targetOlsIdx : Int) : Bool :=
  (List.range (sei.m_nestingNumOlssMinus1 + 1)).any
    (fun i => decide (((sei.m_nestingOlsIdx.getD i 0 : Nat) : Int) = targetOlsIdx))

/-- Lines 297-320: the body of the loop over the SEI messages of a unit. -/
def seiStep (cfg : Config) (writeFlag : Bool) (sei : SEI) : Bool :=
  let w1 : Bool :=
    if sei.payloadType = PayloadType.SCALABLE_NESTING then
      if sei.m_nestingOlsFlag = true then
        writeFlag && targetOlsIdxInNestingAppliedOls sei cfg.m_targetOlsIdx
      else writeFlag
    else writeFlag
  if sei.payloadType = PayloadType.BUFFERING_PERIOD ∨ sei.payloadType = PayloadType.PICTURE_TIMING
      ∨ sei.payloadType = PayloadType.DECODING_UNIT_INFO then
    let targetOlsIdxGreaterThanZero : Bool := decide (cfg.m_targetOlsIdx > 0)
    w1 && !targetOlsIdxGreaterThanZero
  else w1

/-- Lines 287-322: SEI gating, only for a prefix SEI unit and `m_targetOlsIdx >= 0`. -/
def seiBlock (cfg : Config) (nalu : NalUnit) (writeFlag : Bool) : Bool :=
  if cfg.m_targetOlsIdx ≥ 0 then
    if nalu.m_nalUnitType = NalUnitType.NAL_UNIT_PREFIX_SEI then
      nalu.seis.foldl (seiStep cfg) writeFlag
    else writeFlag
  else writeFlag

/-- Lines 333-343: the start code rebuilt from the framing statistics, then the
captured bytes. (`numZeros` is an `int`; when the three counts sum to 0 it is
-1 and the loop writes nothing, as does the truncated subtraction here.) -/
def passThrough (nalu : NalUnit) : List Nat :=
  let numZeros := nalu.stats.m_numLeadingZero8BitsBytes + nalu.stats.m_numZeroByteBytes
    + nalu.stats.m_numStartCodePrefixBytes - 1
  List.replicate numZeros 0 ++ [1] ++ nalu.fifo

/-- What one loop iteration leaves behind: the bytes it appended to the output
and either the next running state or the fatal condition that aborted the run. -/
structure Outcome where
  emitted : List Nat
  next : Except Fatal State

/-- Lines 169-345: one iteration of the loop of `decode`. -/
def decodeUnit (w : HLSWriter) (cfg : Config) (st : State) (nalu : NalUnit) : Outcome :=
  if nalu.fifo = [] then ⟨[], .ok st⟩
  else
    match vpsBlock w st nalu (temporalKeep cfg nalu) with
    | .error e => ⟨[], .error e⟩
    | .ok (st1, f1, out1) =>
      match olsBlock cfg st1 nalu f1 with
      | .error e => ⟨out1, .error e⟩
      | .ok (f2, _) =>
        match spsBlock w st1 nalu f2 with
        | .error e => ⟨out1, .error e⟩
        | .ok (st2, f3, out2) =>
          match ppsBlock w st2 nalu f3 with
          | .error e => ⟨out1 ++ out2, .error e⟩
          | .ok (st3, f4, out3) =>
            let f5 := seiBlock cfg nalu f4
            ⟨out1 ++ out2 ++ out3 ++ (if f5 then passThrough nalu else []),
              .ok { st3 with unitCnt := st3.unitCnt + 1 }⟩

/-! ## The run -/

/-- A run of `decode`: for every unit processed (the aborting one included) the
bytes appended while processing it, and the fatal condition, if any. -/
structure Run where
  trace : List (List Nat)
  fatal : Option Fatal
  deriving DecidableEq, Repr

/-- Lines 167-346: the loop over the units of the input, from a given state. -/
def decodeLoop (w : HLSWriter) (cfg : Config) : State → List NalUnit → Run
  | _, [] => ⟨[], none⟩
  | st, nalu :: rest =>
    match (decodeUnit w cfg st nalu).next with
    | .error e => ⟨[(decodeUnit w cfg st nalu).emitted], some e⟩
    | .ok st1 =>
      let r := decodeLoop w cfg st1 rest
      ⟨(decodeUnit w cfg st nalu).emitted :: r.trace, r.fatal⟩

/-- The running state after the given units, or the fatal condition met. -/
def runState (w : HLSWriter) (cfg : Config) : State → List NalUnit → Except Fatal State
  | st, [] => .ok st
  | st, nalu :: rest =>
    match (decodeUnit w cfg st nalu).next with
    | .error e => .error e
    | .ok st1 => runState w cfg st1 rest

/-- Function `decode()` on the units of the input file. -/
def decode (w : HLSWriter) (cfg : Config) (units : List NalUnit) : Run :=
  decodeLoop w cfg State.init units

/-- The output file: the bytes appended by the processed units, in order. -/
def Run.output (r : Run) : List Nat := r.trace.flatten

/-- Bytes that the run appended while processing the unit at position `i`
(none when the run aborted before reaching it). -/
def emittedAt (w : HLSWriter) (cfg : Config) (units : List NalUnit) (i : Nat) : List Nat :=
  (decode w cfg units).trace.getD i []

/-- The unit at position `i` is written to the output by the run. -/
def written (w : HLSWriter) (cfg : Config) (units : List NalUnit) (i : Nat) : Prop :=
  emittedAt w cfg units i ≠ []

instance (w : HLSWriter) (cfg : Config) (units : List NalUnit) (i : Nat) :
    Decidable (written w cfg units i) := by
  unfold written; infer_instance

/-- A writer used for concrete runs: payloads are the record id, the NAL
packer prepends the layer id and the temporal id. -/
def demoWriter : HLSWriter where
  codeVPS := fun v => [v.vpsId]
  codeSPS := fun s => [s.spsId]
  codePPS := fun p => [p.ppsId]
  nalUnitEBSP := fun _ l t bs => [l, t] ++ bs

/-! ## Definitions used to state the properties -/

/-- The state a VPS unit leaves for the rest of its iteration. -/
def afterVps (st : State) (nalu : NalUnit) : State :=
  { st with m_parameterSetManager := st.m_parameterSetManager.storeVPS nalu.vps,
            m_vpsId := (nalu.vps.vpsId : Int) }


/-- The running state after an iteration that did not abort: an empty unit
leaves it alone; otherwise a VPS, SPS or PPS unit is stored under its id, a VPS
becomes the active one, and the unit counter advances. -/
def nextState (st : State) (nalu : NalUnit) : State :=
  if nalu.fifo = [] then st
  else if nalu.m_nalUnitType = NalUnitType.NAL_UNIT_VPS then
    { afterVps st nalu with unitCnt := st.unitCnt + 1 }
  else if nalu.m_nalUnitType = NalUnitType.NAL_UNIT_SPS then
    { st with m_parameterSetManager := st.m_parameterSetManager.storeSPS nalu.sps,
              unitCnt := st.unitCnt + 1 }
  else if nalu.m_nalUnitType = NalUnitType.NAL_UNIT_PPS then
    { st with m_parameterSetManager := st.m_parameterSetManager.storePPS nalu.pps,
              unitCnt := st.unitCnt + 1 }
  else { st with unitCnt := st.unitCnt + 1 }

/-- The VPS that `m_vpsId` designates in the store, if a VPS unit has been seen. -/
def activeVps (st : State) : Option VPS :=
  if st.m_vpsId = -1 then none else st.m_parameterSetManager.getVPS st.m_vpsId.toNat

/-- Unit types exempt from the layer membership test (line 233). -/
def isSpecialNalTypes (t : NalUnitType) : Bool :=
  decide (t = NalUnitType.NAL_UNIT_VPS) || decide (t = NalUnitType.NAL_UNIT_DCI)
    || decide (t = NalUnitType.NAL_UNIT_EOB)

/-- The stream holds a non-empty VPS unit. -/
def hasVps (units : List NalUnit) : Prop :=
  ∃ v ∈ units, v.fifo ≠ [] ∧ v.m_nalUnitType = NalUnitType.NAL_UNIT_VPS

instance (units : List NalUnit) : Decidable (hasVps units) := by
  unfold hasVps; infer_instance

/-- Number of empty units at the head of the stream, i.e. the position of the
first non-empty unit. -/
def leadingEmpty (units : List NalUnit) : Nat :=
  (units.takeWhile (fun u => decide (u.fifo = []))).length

/-- The state in which a unit reaches the OLS block: a VPS unit has already been
stored and made active by then. -/
def olsState (st : State) (nalu : NalUnit) : State :=
  if nalu.m_nalUnitType = NalUnitType.NAL_UNIT_VPS then afterVps st nalu else st

/-- The keep verdict of the filtering policy as the specification words it:
the conjunction of the temporal predicate, the OLS membership predicate and the
SEI applicability predicate, all evaluated before any decision; a fatal
condition of the OLS predicate leaves no verdict. -/
def keepVerdict (cfg : Config) (st : State) (nalu : NalUnit) : Except Fatal Bool :=
  match olsBlock cfg (olsState st nalu) nalu true with
  | .error e => .error e
  | .ok (b, _) => .ok (temporalKeep cfg nalu && b && seiBlock cfg nalu true)

/-- A parameter-set unit re-serialized from the record that the given store
holds under the unit's id, in a 4-byte start code; nothing for other units. -/
def rewritten (w : HLSWriter) (psm : ParameterSetManager) (nalu : NalUnit) : List Nat :=
  if nalu.m_nalUnitType = NalUnitType.NAL_UNIT_VPS then
    match psm.getVPS nalu.vps.vpsId with
    | some r => writeAnnexB (w.nalUnitEBSP NalUnitType.NAL_UNIT_VPS nalu.m_nuhLayerId
        nalu.m_temporalId (w.codeVPS r))
    | none => []
  else if nalu.m_nalUnitType = NalUnitType.NAL_UNIT_SPS then
    match psm.getSPS nalu.sps.spsId with
    | some r => writeAnnexB (w.nalUnitEBSP NalUnitType.NAL_UNIT_SPS nalu.m_nuhLayerId
        nalu.m_temporalId (w.codeSPS r))
    | none => []
  else if nalu.m_nalUnitType = NalUnitType.NAL_UNIT_PPS then
    match psm.getPPS nalu.pps.ppsId with
    | some r => writeAnnexB (w.nalUnitEBSP NalUnitType.NAL_UNIT_PPS nalu.m_nuhLayerId
        nalu.m_temporalId (w.codePPS r))
    | none => []
  else []

/-- The unit is a VPS, SPS or PPS. -/
def isParameterSet (t : NalUnitType) : Bool :=
  decide (t = NalUnitType.NAL_UNIT_VPS) || decide (t = NalUnitType.NAL_UNIT_SPS)
    || decide (t = NalUnitType.NAL_UNIT_PPS)

/-- The unit is a VPS or SPS unit whose flag is still set when its block is
reached, so that `xWriteVPS` (flag = temporal predicate) or `xWriteSPS` (flag =
temporal predicate and OLS block) is called for it. -/
def reachesWriter (cfg : Config) (st : State) (nalu : NalUnit) : Prop :=
  (nalu.m_nalUnitType = NalUnitType.NAL_UNIT_VPS ∧ temporalKeep cfg nalu = true) ∨
  (nalu.m_nalUnitType = NalUnitType.NAL_UNIT_SPS ∧ temporalKeep cfg nalu = true
    ∧ ∃ v, olsBlock cfg st nalu true = .ok (true, v))

/-! ## The evaluate-all-then-decide reference of the specification -/

/-- Reference, predicate 1 (temporal cutoff): no cutoff, or the unit's temporal
id is at most the cutoff. -/
def refTemporal (cfg : Config) (nalu : NalUnit) : Bool :=
  decide (cfg.m_maxTemporalLayer < 0) || decide ((nalu.m_temporalId : Int) ≤ cfg.m_maxTemporalLayer)

/-- Reference, predicate 2 (OLS layer membership, only when a target OLS is
set): VPS, DCI and EOB units are members whatever their layer; other units are
members when their layer id is in the target OLS's layer list of the active
VPS. Without a VPS the synthetic one-layer VPS of the unit stands in and the
target must be 0; a target outside the VPS's range is fatal. -/
def refOlsMembership (cfg : Config) (st : State) (nalu : NalUnit) : Except Fatal Bool :=
  if cfg.m_targetOlsIdx < 0 then .ok true
  else
    match activeVps (olsState st nalu) with
    | none =>
      if cfg.m_targetOlsIdx = 0 then
        .ok (isSpecialNalTypes nalu.m_nalUnitType || decide (nalu.m_nuhLayerId ∈
          ((({} : VPS).setNumLayersInOls 0 1).setLayerIdInOls 0 0 nalu.m_nuhLayerId).getLayerIdsInOls 0))
      else .error Fatal.onlyOneOls
    | some vps =>
      if (vps.numOutputLayerSets : Int) ≤ cfg.m_targetOlsIdx then .error Fatal.olsRange
      else .ok (isSpecialNalTypes nalu.m_nalUnitType
        || decide (nalu.m_nuhLayerId ∈ vps.getLayerIdsInOls cfg.m_targetOlsIdx.toNat))

/-- Reference, contribution of one SEI message: a scalable-nesting message with
OLS flag set passes only if the target OLS is among its listed indices; a
buffering-period, picture-timing or decoding-unit-info message passes only if the
target OLS is not above 0. -/
def refSeiMessage (cfg : Config) (sei : SEI) : Bool :=
  (if sei.payloadType = PayloadType.SCALABLE_NESTING ∧ sei.m_nestingOlsFlag = true then
      targetOlsIdxInNestingAppliedOls sei cfg.m_targetOlsIdx
    else true)
  && (if sei.payloadType = PayloadType.BUFFERING_PERIOD ∨ sei.payloadType = PayloadType.PICTURE_TIMING
        ∨ sei.payloadType = PayloadType.DECODING_UNIT_INFO then
      !decide (cfg.m_targetOlsIdx > 0)
    else true)

/-- Reference, predicate 3 (SEI applicability, only for a prefix SEI unit when a
target OLS is set): the conjunction over the unit's messages. -/
def refSei (cfg : Config) (nalu : NalUnit) : Bool :=
  if cfg.m_targetOlsIdx ≥ 0 ∧ nalu.m_nalUnitType = NalUnitType.NAL_UNIT_PREFIX_SEI then
    nalu.seis.all (refSeiMessage cfg)
  else true

/-- The reference: evaluate the three predicates, then decide: nothing when
`keep` is false, the re-serialized stored record for a VPS, SPS or PPS, the
pass-through framing and payload otherwise. -/
def referenceEmit (w : HLSWriter) (cfg : Config) (st : State) (nalu : NalUnit) :
    Except Fatal (List Nat) :=
  match refOlsMembership cfg st nalu with
  | .error e => .error e
  | .ok member =>
    let keep := refTemporal cfg nalu && member && refSei cfg nalu
    .ok (if keep then
        (if isParameterSet nalu.m_nalUnitType then
          rewritten w (nextState st nalu).m_parameterSetManager nalu
        else passThrough nalu)
      else [])

/-! ## Concrete units and streams -/

/-- A coded slice unit (type TRAIL, code 0) of the given layer and temporal id. -/
def sliceUnit (layerId temporalId : Nat) : NalUnit :=
  { fifo := [layerId, temporalId + 1, 128], m_nalUnitType := NalUnitType.NAL_UNIT_OTHER 0,
    m_nuhLayerId := layerId, m_temporalId := temporalId }

/-- A VPS unit carrying the given record. -/
def vpsUnit (vps : VPS) (layerId temporalId : Nat) : NalUnit :=
  { fifo := [layerId, 112 + temporalId + 1, vps.vpsId], m_nalUnitType := NalUnitType.NAL_UNIT_VPS,
    m_nuhLayerId := layerId, m_temporalId := temporalId, vps := vps }

/-- An SPS unit with the given id. -/
def spsUnit (spsId layerId temporalId : Nat) : NalUnit :=
  { fifo := [layerId, 120 + temporalId + 1, spsId], m_nalUnitType := NalUnitType.NAL_UNIT_SPS,
    m_nuhLayerId := layerId, m_temporalId := temporalId, sps := { spsId := spsId } }

/-- A prefix SEI unit carrying the given messages. -/
def seiUnit (seis : List SEI) (layerId temporalId : Nat) : NalUnit :=
  { fifo := [layerId, 184 + temporalId + 1, seis.length], m_nalUnitType := NalUnitType.NAL_UNIT_PREFIX_SEI,
    m_nuhLayerId := layerId, m_temporalId := temporalId, seis := seis }

/-- A unit of one of the remaining types (DCI, EOB, PPS, other). -/
def plainUnit (t : NalUnitType) (layerId temporalId : Nat) : NalUnit :=
  { fifo := [layerId, temporalId + 1], m_nalUnitType := t,
    m_nuhLayerId := layerId, m_temporalId := temporalId }

/-- A VPS with three output layer sets: layers 0, then 0 and 1, then 0, 1 and 2. -/
def vps3 : VPS :=
  { vpsId := 1, numOutputLayerSets := 3, numLayersInOls := [1, 2, 3],
    layerIdInOls := [[0], [0, 1], [0, 1, 2]] }

/-- A buffering-period message. -/
def bufferingPeriod : SEI := { payloadType := PayloadType.BUFFERING_PERIOD }

/-- An empty unit, as delivered for two back-to-back start codes. -/
def emptyUnit : NalUnit := { fifo := [], m_nalUnitType := NalUnitType.NAL_UNIT_OTHER 0 }

/-- A scalable-nesting message with OLS flag set and applicable-OLS list 1. -/
def nesting1 : SEI :=
  { payloadType := PayloadType.SCALABLE_NESTING, m_nestingOlsFlag := true,
    m_nestingNumOlssMinus1 := 0, m_nestingOlsIdx := [1] }

/-- A prefix SEI unit with a scalable-nesting message for OLS 1 first and a
buffering period second. -/
def seiPair : NalUnit := seiUnit [nesting1, bufferingPeriod] 0 0

/-- A second VPS with the id of `vps3` and two output layer sets: layer 1, then
layers 1 and 2. -/
def vps3b : VPS :=
  { vpsId := 1, numOutputLayerSets := 2, numLayersInOls := [1, 2], layerIdInOls := [[1], [1, 2]] }

/-- A VPS with id 2 and one output layer set holding layer 0. -/
def vps2 : VPS :=
  { vpsId := 2, numOutputLayerSets := 1, numLayersInOls := [1], layerIdInOls := [[0]] }

end BitstreamExtractor

/-!
# Picture: slice lossless flags, film grain padding, downsampling filters

A shallow embedding of three pieces of `source/Lib/CommonLib/Picture.cpp`.
-/

namespace Picture

/-- The `CHECK`s of `fillSliceLossyLosslessArray` that can fail. -/
inductive CheckFailure where
  | emptyLosslessArray
  | indexOutOfBound
  | sizeLessThanSlices
  deriving DecidableEq, Repr

/-- Lines 304-308: the loop over the lossless slice indices; an index at or
above `numSlices` fails the `CHECK` (an index is unsigned, so never below 0),
otherwise the entry is set. -/
def markLossless (numSlices : Nat) : List Nat → List Bool → Except CheckFailure (List Bool)
  | [], arr => .ok arr
  | idx :: rest, arr =>
    if idx ≥ numSlices then .error CheckFailure.indexOutOfBound
    else markLossless numSlices rest (arr.set idx true)

/-- Function `Picture::fillSliceLossyLosslessArray`, yielding the final
`m_lossylosslessSliceArray`; `numSlices` is `pps->getNumSlicesInPic()`. The
element count is the list's size cast to `uint16_t`. -/
def fillSliceLossyLosslessArray (numSlices : Nat) (sliceLosslessIndexArray : List Nat)
    (mixedLossyLossless : Bool) : Except CheckFailure (List Bool) :=
  let numElementsinsliceLosslessIndexArray := sliceLosslessIndexArray.length % 65536
  let filled : Except CheckFailure (List Bool) :=
    if mixedLossyLossless then
      if numElementsinsliceLosslessIndexArray = 0 then .error CheckFailure.emptyLosslessArray
      else markLossless numSlices
        (sliceLosslessIndexArray.take numElementsinsliceLosslessIndexArray)
        (List.replicate numSlices false)
    else .ok (List.replicate numSlices true)
  match filled with
  | .error e => .error e
  | .ok arr => if arr.length < numSlices then .error CheckFailure.sizeLessThanSlices else .ok arr

/-- A value of type `int`: the 32-bit two's complement representative. -/
def wrapInt32 (z : Int) : Int := (z + 2147483648) % 4294967296 - 2147483648

/-- Lines 1239-1240 of `createGrainSynthesizer`: `((x - 1) | 0x3F) + 1 - x` in `int`. -/
def fgsPadding (x : Int) : Int :=
  wrapInt32 (wrapInt32 (Int.lor (wrapInt32 (x - 1)) 63 + 1) - x)

/-- Line 1241: `m_padValue`, from the width and the height of the picture. -/
def padValue (width height : Int) : Int :=
  let paddedWdFGS := fgsPadding width
  let paddedHtFGS := fgsPadding height
  if paddedWdFGS > paddedHtFGS then paddedWdFGS else paddedHtFGS

/-- The table `DownsamplingFilterSRC[8][16][12]` (lines 340-490). -/
def DownsamplingFilterSRC : List (List (List Int)) :=
[
  [[0, 0, 0, 0, 0, 128, 0, 0, 0, 0, 0, 0],
   [0, 0, 0, 2, -6, 127, 7, -2, 0, 0, 0, 0],
   [0, 0, 0, 3, -12, 125, 16, -5, 1, 0, 0, 0],
   [0, 0, 0, 4, -16, 120, 26, -7, 1, 0, 0, 0],
   [0, 0, 0, 5, -18, 114, 36, -10, 1, 0, 0, 0],
   [0, 0, 0, 5, -20, 107, 46, -12, 2, 0, 0, 0],
   [0, 0, 0, 5, -21, 99, 57, -15, 3, 0, 0, 0],
   [0, 0, 0, 5, -20, 89, 68, -18, 4, 0, 0, 0],
   [0, 0, 0, 4, -19, 79, 79, -19, 4, 0, 0, 0],
   [0, 0, 0, 4, -18, 68, 89, -20, 5, 0, 0, 0],
   [0, 0, 0, 3, -15, 57, 99, -21, 5, 0, 0, 0],
   [0, 0, 0, 2, -12, 46, 107, -20, 5, 0, 0, 0],
   [0, 0, 0, 1, -10, 36, 114, -18, 5, 0, 0, 0],
   [0, 0, 0, 1, -7, 26, 120, -16, 4, 0, 0, 0],
   [0, 0, 0, 1, -5, 16, 125, -12, 3, 0, 0, 0],
   [0, 0, 0, 0, -2, 7, 127, -6, 2, 0, 0, 0]],
  [[0, 2, 0, -14, 33, 86, 33, -14, 0, 2, 0, 0],
   [0, 1, 1, -14, 29, 85, 38, -13, -1, 2, 0, 0],
   [0, 1, 2, -14, 24, 84, 43, -12, -2, 2, 0, 0],
   [0, 1, 2, -13, 19, 83, 48, -11, -3, 2, 0, 0],
   [0, 0, 3, -13, 15, 81, 53, -10, -4, 3, 0, 0],
   [0, 0, 3, -12, 11, 79, 57, -8, -5, 3, 0, 0],
   [0, 0, 3, -11, 7, 76, 62, -5, -7, 3, 0, 0],
   [0, 0, 3, -10, 3, 73, 65, -2, -7, 3, 0, 0],
   [0, 0, 3, -9, 0, 70, 70, 0, -9, 3, 0, 0],
   [0, 0, 3, -7, -2, 65, 73, 3, -10, 3, 0, 0],
   [0, 0, 3, -7, -5, 62, 76, 7, -11, 3, 0, 0],
   [0, 0, 3, -5, -8, 57, 79, 11, -12, 3, 0, 0],
   [0, 0, 3, -4, -10, 53, 81, 15, -13, 3, 0, 0],
   [0, 0, 2, -3, -11, 48, 83, 19, -13, 2, 1, 0],
   [0, 0, 2, -2, -12, 43, 84, 24, -14, 2, 1, 0],
   [0, 0, 2, -1, -13, 38, 85, 29, -14, 1, 1, 0]],
  [[0, 5, -6, -10, 37, 76, 37, -10, -6, 5, 0, 0],
   [0, 5, -4, -11, 33, 76, 40, -9, -7, 5, 0, 0],
   [-1, 5, -3, -12, 29, 75, 45, -7, -8, 5, 0, 0],
   [-1, 4, -2, -13, 25, 75, 48, -5, -9, 5, 1, 0],
   [-1, 4, -1, -13, 22, 73, 52, -3, -10, 4, 1, 0],
   [-1, 4, 0, -13, 18, 72, 55, -1, -11, 4, 2, -1],
   [-1, 4, 1, -13, 14, 70, 59, 2, -12, 3, 2, -1],
   [-1, 3, 1, -13, 11, 68, 62, 5, -12, 3, 2, -1],
   [-1, 3, 2, -13, 8, 65, 65, 8, -13, 2, 3, -1],
   [-1, 2, 3, -12, 5, 62, 68, 11, -13, 1, 3, -1],
   [-1, 2, 3, -12, 2, 59, 70, 14, -13, 1, 4, -1],
   [-1, 2, 4, -11, -1, 55, 72, 18, -13, 0, 4, -1],
   [0, 1, 4, -10, -3, 52, 73, 22, -13, -1, 4, -1],
   [0, 1, 5, -9, -5, 48, 75, 25, -13, -2, 4, -1],
   [0, 0, 5, -8, -7, 45, 75, 29, -12, -3, 5, -1],
   [0, 0, 5, -7, -9, 40, 76, 33, -11, -4, 5, 0]],
  [[2, -3, -9, 6, 39, 58, 39, 6, -9, -3, 2, 0],
   [2, -3, -9, 4, 38, 58, 43, 7, -9, -4, 1, 0],
   [2, -2, -9, 2, 35, 58, 44, 9, -8, -4, 1, 0],
   [1, -2, -9, 1, 34, 58, 46, 11, -8, -5, 1, 0],
   [1, -1, -8, -1, 31, 57, 47, 13, -7, -5, 1, 0],
   [1, -1, -8, -2, 29, 56, 49, 15, -7, -6, 1, 1],
   [1, 0, -8, -3, 26, 55, 51, 17, -7, -6, 1, 1],
   [1, 0, -7, -4, 24, 54, 52, 19, -6, -7, 1, 1],
   [1, 0, -7, -5, 22, 53, 53, 22, -5, -7, 0, 1],
   [1, 1, -7, -6, 19, 52, 54, 24, -4, -7, 0, 1],
   [1, 1, -6, -7, 17, 51, 55, 26, -3, -8, 0, 1],
   [1, 1, -6, -7, 15, 49, 56, 29, -2, -8, -1, 1],
   [0, 1, -5, -7, 13, 47, 57, 31, -1, -8, -1, 1],
   [0, 1, -5, -8, 11, 46, 58, 34, 1, -9, -2, 1],
   [0, 1, -4, -8, 9, 44, 58, 35, 2, -9, -2, 2],
   [0, 1, -4, -9, 7, 43, 58, 38, 4, -9, -3, 2]],
  [[-2, -7, 0, 17, 35, 43, 35, 17, 0, -7, -5, 2],
   [-2, -7, -1, 16, 34, 43, 36, 18, 1, -7, -5, 2],
   [-1, -7, -1, 14, 33, 43, 36, 19, 1, -6, -5, 2],
   [-1, -7, -2, 13, 32, 42, 37, 20, 3, -6, -5, 2],
   [0, -7, -3, 12, 31, 42, 38, 21, 3, -6, -5, 2],
   [0, -7, -3, 11, 30, 42, 39, 23, 4, -6, -6, 1],
   [0, -7, -4, 10, 29, 42, 40, 24, 5, -6, -6, 1],
   [1, -7, -4, 9, 27, 41, 40, 25, 6, -5, -6, 1],
   [1, -6, -5, 7, 26, 41, 41, 26, 7, -5, -6, 1],
   [1, -6, -5, 6, 25, 40, 41, 27, 9, -4, -7, 1],
   [1, -6, -6, 5, 24, 40, 42, 29, 10, -4, -7, 0],
   [1, -6, -6, 4, 23, 39, 42, 30, 11, -3, -7, 0],
   [2, -5, -6, 3, 21, 38, 42, 31, 12, -3, -7, 0],
   [2, -5, -6, 3, 20, 37, 42, 32, 13, -2, -7, -1],
   [2, -5, -6, 1, 19, 36, 43, 33, 14, -1, -7, -1],
   [2, -5, -7, 1, 18, 36, 43, 34, 16, -1, -7, -2]],
  [[-6, -3, 5, 19, 31, 36, 31, 19, 5, -3, -6, 0],
   [-6, -4, 4, 18, 31, 37, 32, 20, 6, -3, -6, -1],
   [-6, -4, 4, 17, 30, 36, 33, 21, 7, -3, -6, -1],
   [-5, -5, 3, 16, 30, 36, 33, 22, 8, -2, -6, -2],
   [-5, -5, 2, 15, 29, 36, 34, 23, 9, -2, -6, -2],
   [-5, -5, 2, 15, 28, 36, 34, 24, 10, -2, -6, -3],
   [-4, -5, 1, 14, 27, 36, 35, 24, 10, -1, -6, -3],
   [-4, -5, 0, 13, 26, 35, 35, 25, 11, 0, -5, -3],
   [-4, -6, 0, 12, 26, 36, 36, 26, 12, 0, -6, -4],
   [-3, -5, 0, 11, 25, 35, 35, 26, 13, 0, -5, -4],
   [-3, -6, -1, 10, 24, 35, 36, 27, 14, 1, -5, -4],
   [-3, -6, -2, 10, 24, 34, 36, 28, 15, 2, -5, -5],
   [-2, -6, -2, 9, 23, 34, 36, 29, 15, 2, -5, -5],
   [-2, -6, -2, 8, 22, 33, 36, 30, 16, 3, -5, -5],
   [-1, -6, -3, 7, 21, 33, 36, 30, 17, 4, -4, -6],
   [-1, -6, -3, 6, 20, 32, 37, 31, 18, 4, -4, -6]],
  [[-9, 0, 9, 20, 28, 32, 28, 20, 9, 0, -9, 0],
   [-9, 0, 8, 19, 28, 32, 29, 20, 10, 0, -4, -5],
   [-9, -1, 8, 18, 28, 32, 29, 21, 10, 1, -4, -5],
   [-9, -1, 7, 18, 27, 32, 30, 22, 11, 1, -4, -6],
   [-8, -2, 6, 17, 27, 32, 30, 22, 12, 2, -4, -6],
   [-8, -2, 6, 16, 26, 32, 31, 23, 12, 2, -4, -6],
   [-8, -2, 5, 16, 26, 31, 31, 23, 13, 3, -3, -7],
   [-8, -3, 5, 15, 25, 31, 31, 24, 14, 4, -3, -7],
   [-7, -3, 4, 14, 25, 31, 31, 25, 14, 4, -3, -7],
   [-7, -3, 4, 14, 24, 31, 31, 25, 15, 5, -3, -8],
   [-7, -3, 3, 13, 23, 31, 31, 26, 16, 5, -2, -8],
   [-6, -4, 2, 12, 23, 31, 32, 26, 16, 6, -2, -8],
   [-6, -4, 2, 12, 22, 30, 32, 27, 17, 6, -2, -8],
   [-6, -4, 1, 11, 22, 30, 32, 27, 18, 7, -1, -9],
   [-5, -4, 1, 10, 21, 29, 32, 28, 18, 8, -1, -9],
   [-5, -4, 0, 10, 20, 29, 32, 28, 19, 8, 0, -9]],
  [[-8, 7, 13, 18, 22, 24, 22, 18, 13, 7, 2, -10],
   [-8, 7, 13, 18, 22, 23, 22, 19, 13, 7, 2, -10],
   [-8, 6, 12, 18, 22, 23, 22, 19, 14, 8, 2, -10],
   [-9, 6, 12, 17, 22, 23, 23, 19, 14, 8, 3, -10],
   [-9, 6, 12, 17, 21, 23, 23, 19, 14, 9, 3, -10],
   [-9, 5, 11, 17, 21, 23, 23, 20, 15, 9, 3, -10],
   [-9, 5, 11, 16, 21, 23, 23, 20, 15, 9, 4, -10],
   [-9, 5, 10, 16, 21, 23, 23, 20, 15, 10, 4, -10],
   [-10, 5, 10, 16, 20, 23, 23, 20, 16, 10, 5, -10],
   [-10, 4, 10, 15, 20, 23, 23, 21, 16, 10, 5, -9],
   [-10, 4, 9, 15, 20, 23, 23, 21, 16, 11, 5, -9],
   [-10, 3, 9, 15, 20, 23, 23, 21, 17, 11, 5, -9],
   [-10, 3, 9, 14, 19, 23, 23, 21, 17, 12, 6, -9],
   [-10, 3, 8, 14, 19, 23, 23, 22, 17, 12, 6, -9],
   [-10, 2, 8, 14, 19, 22, 23, 22, 18, 12, 6, -8],
   [-10, 2, 7, 13, 19, 22, 23, 22, 18, 13, 7, -8]]]

/-- The 12 taps `f = filter + frac * filterLength` of `DownsamplingFilterSRC[filterIdx]`. -/
def filterRow (filterIdx frac : Nat) : List Int :=
  (DownsamplingFilterSRC.getD filterIdx []).getD frac []

/-- The inner loop of either pass of `sampleRateConv` with `filterLength = 12`
(lines 609-613 and 633-637): the sum over the taps of `f[k]` times the sample at
the clamped position, in `int`. -/
def filterSum (f : List Int) (sample : Int → Int) (integer size : Int) : Int :=
  (List.range 12).foldl
    (fun sum k => wrapInt32 (sum + wrapInt32 (f.getD k 0
      * sample (min (max 0 (integer + (k : Int) - 12 / 2 + 1)) (size - 1))))) 0

/-- One output sample of `sampleRateConv` when downsampling (`filterLength = 12`,
`log2Norm = 14`): the horizontal pass into `buf`, the vertical pass over `buf`,
then rounding, shift and clipping to `[0, maxVal]` (line 639). `integerX`,
`integerY` are the integer parts of the reference position. -/
def sampleRateConvSample (filterHor filterVer : List Int) (org : Int → Int → Int)
    (orgWidth orgHeight integerX integerY maxVal : Int) : Int :=
  let buf : Int → Int := fun j => filterSum filterHor (fun x => org x j) integerX orgWidth
  let sum := filterSum filterVer buf integerY orgHeight
  min (max 0 (wrapInt32 (sum + 8192) >>> (14 : Nat))) maxVal

end Picture

namespace BitstreamExtractor

/-! ## Store and block lemmas -/

theorem getPS_storePS {α : Type} (m : List (Nat × α)) (psId : Nat) (ps : α) :
    getPS (storePS m psId ps) psId = some ps := by
  simp [getPS, storePS, List.lookup]

theorem getVPS_storeVPS (m : ParameterSetManager) (vps : VPS) :
    (m.storeVPS vps).getVPS vps.vpsId = some vps := by
  simp [ParameterSetManager.getVPS, ParameterSetManager.storeVPS, getPS_storePS]

theorem getSPS_storeSPS (m : ParameterSetManager) (sps : SPS) :
    (m.storeSPS sps).getSPS sps.spsId = some sps := by
  simp [ParameterSetManager.getSPS, ParameterSetManager.storeSPS, getPS_storePS]

theorem getPPS_storePPS (m : ParameterSetManager) (pps : PPS) :
    (m.storePPS pps).getPPS pps.ppsId = some pps := by
  simp [ParameterSetManager.getPPS, ParameterSetManager.storePPS, getPS_storePS]

/-- The VPS block, case by case. -/
theorem vpsBlock_eq (w : HLSWriter) (st : State) (nalu : NalUnit) (f : Bool) :
    vpsBlock w st nalu f =
      if nalu.m_nalUnitType = NalUnitType.NAL_UNIT_VPS then
        if f = true then
          if nalu.m_temporalId ≠ 0 then .error Fatal.vpsTemporalId
          else .ok ({ st with m_parameterSetManager := st.m_parameterSetManager.storeVPS nalu.vps,
                              m_vpsId := (nalu.vps.vpsId : Int) }, false,
                    writeAnnexB (w.nalUnitEBSP NalUnitType.NAL_UNIT_VPS nalu.m_nuhLayerId
                      nalu.m_temporalId (w.codeVPS nalu.vps)))
        else .ok ({ st with m_parameterSetManager := st.m_parameterSetManager.storeVPS nalu.vps,
                            m_vpsId := (nalu.vps.vpsId : Int) }, false, [])
      else .ok (st, f, []) := by
  simp only [vpsBlock, getVPS_storeVPS, xWriteVPS]
  by_cases h1 : nalu.m_nalUnitType = NalUnitType.NAL_UNIT_VPS
  · by_cases h2 : nalu.m_temporalId = 0 <;> cases f <;> simp [h1, h2]
  · simp [h1]

/-- The SPS block, case by case. -/
theorem spsBlock_eq (w : HLSWriter) (st : State) (nalu : NalUnit) (f : Bool) :
    spsBlock w st nalu f =
      if nalu.m_nalUnitType = NalUnitType.NAL_UNIT_SPS then
        if f = true then
          if nalu.m_temporalId ≠ 0 then .error Fatal.spsTemporalId
          else .ok ({ st with m_parameterSetManager := st.m_parameterSetManager.storeSPS nalu.sps },
                    false,
                    writeAnnexB (w.nalUnitEBSP NalUnitType.NAL_UNIT_SPS nalu.m_nuhLayerId
                      nalu.m_temporalId (w.codeSPS nalu.sps)))
        else .ok ({ st with m_parameterSetManager := st.m_parameterSetManager.storeSPS nalu.sps },
                  false, [])
      else .ok (st, f, []) := by
  simp only [spsBlock, getSPS_storeSPS, xWriteSPS]
  by_cases h1 : nalu.m_nalUnitType = NalUnitType.NAL_UNIT_SPS
  · by_cases h2 : nalu.m_temporalId = 0 <;> cases f <;> simp [h1, h2]
  · simp [h1]

/-- The PPS block, case by case. -/
theorem ppsBlock_eq (w : HLSWriter) (st : State) (nalu : NalUnit) (f : Bool) :
    ppsBlock w st nalu f =
      if nalu.m_nalUnitType = NalUnitType.NAL_UNIT_PPS then
        if f = true then
          .ok ({ st with m_parameterSetManager := st.m_parameterSetManager.storePPS nalu.pps },
                false, xWritePPS w nalu.pps nalu.m_nuhLayerId nalu.m_temporalId)
        else .ok ({ st with m_parameterSetManager := st.m_parameterSetManager.storePPS nalu.pps },
                  false, [])
      else .ok (st, f, []) := by
  simp only [ppsBlock, getPPS_storePPS]
  by_cases h1 : nalu.m_nalUnitType = NalUnitType.NAL_UNIT_PPS
  · cases f <;> simp [h1]
  · simp [h1]

/-- One SEI message can only clear the flag. -/
theorem seiStep_eq (cfg : Config) (f : Bool) (sei : SEI) :
    seiStep cfg f sei = (f && seiStep cfg true sei) := by
  cases f <;> simp [seiStep]

theorem foldl_seiStep (cfg : Config) (seis : List SEI) (f : Bool) :
    seis.foldl (seiStep cfg) f = (f && seis.all (fun sei => seiStep cfg true sei)) := by
  induction seis generalizing f with
  | nil => simp
  | cons sei rest ih =>
    rw [List.foldl_cons, ih, seiStep_eq]
    simp [Bool.and_assoc]

/-- The SEI block clears the flag or leaves it. -/
theorem seiBlock_eq (cfg : Config) (nalu : NalUnit) (f : Bool) :
    seiBlock cfg nalu f = (f && seiBlock cfg nalu true) := by
  unfold seiBlock
  split
  · split
    · rw [foldl_seiStep, foldl_seiStep]; simp
    · simp
  · simp

/-- The OLS block clears the flag or leaves it; whether it aborts does not depend on the flag. -/
theorem olsBlock_eq (cfg : Config) (st : State) (nalu : NalUnit) (f : Bool) :
    olsBlock cfg st nalu f =
      match olsBlock cfg st nalu true with
      | .error e => .error e
      | .ok (b, v) => .ok (f && b, v) := by
  simp only [olsBlock]
  by_cases h1 : cfg.m_targetOlsIdx ≥ 0
  · by_cases h2 : st.m_vpsId = -1
    · have h1' : 0 ≤ cfg.m_targetOlsIdx := h1
      by_cases h3 : cfg.m_targetOlsIdx = 0 <;> simp [h2, h3, h1']
    · cases h4 : st.m_parameterSetManager.getVPS st.m_vpsId.toNat with
      | none => simp [h1, h2]
      | some vps =>
        by_cases h5 : cfg.m_targetOlsIdx < 0 ∨ cfg.m_targetOlsIdx ≥ (vps.getNumOutputLayerSets : Int)
        · simp only [h1, h2, h5, if_true, if_false]
        · simp only [h1, h2, h5, if_true, if_false, Bool.true_and]
  · simp [h1]

/-! ## One iteration in closed form -/

/-- An empty unit: nothing written, state unchanged. -/
theorem decodeUnit_empty (w : HLSWriter) (cfg : Config) (st : State) (nalu : NalUnit)
    (h0 : nalu.fifo = []) : decodeUnit w cfg st nalu = ⟨[], .ok st⟩ := by
  simp [decodeUnit, h0]

/-- A non-empty unit that is not a VPS. -/
theorem decodeUnit_nonVps (w : HLSWriter) (cfg : Config) (st : State) (nalu : NalUnit)
    (h0 : nalu.fifo ≠ []) (hv : nalu.m_nalUnitType ≠ NalUnitType.NAL_UNIT_VPS) :
    decodeUnit w cfg st nalu =
      match olsBlock cfg st nalu true with
      | .error e => ⟨[], .error e⟩
      | .ok (b, _) =>
        if nalu.m_nalUnitType = NalUnitType.NAL_UNIT_SPS then
          if (temporalKeep cfg nalu && b) = true then
            if nalu.m_temporalId ≠ 0 then ⟨[], .error Fatal.spsTemporalId⟩
            else ⟨writeAnnexB (w.nalUnitEBSP NalUnitType.NAL_UNIT_SPS nalu.m_nuhLayerId
                    nalu.m_temporalId (w.codeSPS nalu.sps)),
                  .ok { st with m_parameterSetManager := st.m_parameterSetManager.storeSPS nalu.sps,
                                unitCnt := st.unitCnt + 1 }⟩
          else ⟨[], .ok { st with m_parameterSetManager := st.m_parameterSetManager.storeSPS nalu.sps,
                                  unitCnt := st.unitCnt + 1 }⟩
        else if nalu.m_nalUnitType = NalUnitType.NAL_UNIT_PPS then
          if (temporalKeep cfg nalu && b) = true then
            ⟨xWritePPS w nalu.pps nalu.m_nuhLayerId nalu.m_temporalId,
              .ok { st with m_parameterSetManager := st.m_parameterSetManager.storePPS nalu.pps,
                            unitCnt := st.unitCnt + 1 }⟩
          else ⟨[], .ok { st with m_parameterSetManager := st.m_parameterSetManager.storePPS nalu.pps,
                                  unitCnt := st.unitCnt + 1 }⟩
        else
          ⟨if (temporalKeep cfg nalu && b && seiBlock cfg nalu true) = true then passThrough nalu
            else [],
            .ok { st with unitCnt := st.unitCnt + 1 }⟩ := by
  simp only [decodeUnit, h0, if_false, vpsBlock_eq, hv]
  rw [olsBlock_eq]
  cases hO : olsBlock cfg st nalu true with
  | error e => rfl
  | ok p =>
    obtain ⟨b, v⟩ := p
    simp only [spsBlock_eq]
    by_cases hs : nalu.m_nalUnitType = NalUnitType.NAL_UNIT_SPS
    · have hp : nalu.m_nalUnitType ≠ NalUnitType.NAL_UNIT_PPS := by rw [hs]; decide
      by_cases hf : (temporalKeep cfg nalu && b) = true
      · by_cases ht : nalu.m_temporalId = 0
        · simp [hs, hf, ht, ppsBlock_eq, seiBlock_eq cfg nalu false]
        · simp [hs, hf, ht]
      · simp [hs, hf, ppsBlock_eq, hp]
        simp at hf
        rw [seiBlock_eq]; simp [hf]
    · simp only [hs, if_false, ppsBlock_eq]
      by_cases hp : nalu.m_nalUnitType = NalUnitType.NAL_UNIT_PPS
      · by_cases hf : (temporalKeep cfg nalu && b) = true
        · simp [hp, hf, seiBlock_eq cfg nalu false]
        · simp [hp, hf]
          simp at hf
          rw [seiBlock_eq]; simp [hf]
      · simp only [hp, if_false]
        rw [seiBlock_eq]
        simp

/-- A non-empty VPS unit. -/
theorem decodeUnit_vps (w : HLSWriter) (cfg : Config) (st : State) (nalu : NalUnit)
    (h0 : nalu.fifo ≠ []) (hv : nalu.m_nalUnitType = NalUnitType.NAL_UNIT_VPS) :
    decodeUnit w cfg st nalu =
      if temporalKeep cfg nalu = true then
        if nalu.m_temporalId ≠ 0 then ⟨[], .error Fatal.vpsTemporalId⟩
        else
          match olsBlock cfg (afterVps st nalu) nalu true with
          | .error e =>
            ⟨writeAnnexB (w.nalUnitEBSP NalUnitType.NAL_UNIT_VPS nalu.m_nuhLayerId
                nalu.m_temporalId (w.codeVPS nalu.vps)), .error e⟩
          | .ok _ =>
            ⟨writeAnnexB (w.nalUnitEBSP NalUnitType.NAL_UNIT_VPS nalu.m_nuhLayerId
                nalu.m_temporalId (w.codeVPS nalu.vps)),
              .ok { afterVps st nalu with unitCnt := st.unitCnt + 1 }⟩
      else
        match olsBlock cfg (afterVps st nalu) nalu true with
        | .error e => ⟨[], .error e⟩
        | .ok _ => ⟨[], .ok { afterVps st nalu with unitCnt := st.unitCnt + 1 }⟩ := by
  have hs : nalu.m_nalUnitType ≠ NalUnitType.NAL_UNIT_SPS := by rw [hv]; decide
  have hp : nalu.m_nalUnitType ≠ NalUnitType.NAL_UNIT_PPS := by rw [hv]; decide
  have hE := olsBlock_eq cfg (afterVps st nalu) nalu false
  simp only [decodeUnit, h0, if_false, vpsBlock_eq, hv, if_true]
  by_cases hf : temporalKeep cfg nalu = true
  · by_cases ht : nalu.m_temporalId = 0
    · simp only [hf, ht, if_true, ne_eq, not_true_eq_false, if_false]
      cases hO : olsBlock cfg (afterVps st nalu) nalu true with
      | error e =>
        rw [hO] at hE
        simp only [afterVps] at hE
        simp [hE]
      | ok p =>
        obtain ⟨b, v⟩ := p
        rw [hO] at hE
        simp only [afterVps] at hE
        simp [hE, spsBlock_eq, ppsBlock_eq, hv, seiBlock_eq cfg nalu false, afterVps]
    · simp [hf, ht]
  · simp only [hf, if_false]
    cases hO : olsBlock cfg (afterVps st nalu) nalu true with
    | error e =>
      rw [hO] at hE
      simp only [afterVps] at hE
      simp [hE]
    | ok p =>
      obtain ⟨b, v⟩ := p
      rw [hO] at hE
      simp only [afterVps] at hE
      simp [hE, spsBlock_eq, ppsBlock_eq, hv, seiBlock_eq cfg nalu false, afterVps]

/-! ## The run, unit by unit -/

/-- Every trace entry is what one iteration emitted from the state the run had
reached before that unit. -/
theorem trace_getElem_some (w : HLSWriter) (cfg : Config) :
    ∀ (units : List NalUnit) (st : State) (i : Nat) (bs : List Nat),
      (decodeLoop w cfg st units).trace[i]? = some bs →
      ∃ u st1, units[i]? = some u ∧ runState w cfg st (units.take i) = .ok st1 ∧
        bs = (decodeUnit w cfg st1 u).emitted := by
  intro units
  induction units with
  | nil => intro st i bs h; simp [decodeLoop] at h
  | cons nalu rest ih =>
    intro st i bs h
    cases i with
    | zero =>
      refine ⟨nalu, st, by simp, by simp [runState], ?_⟩
      unfold decodeLoop at h
      split at h <;> simp at h <;> exact h.symm
    | succ j =>
      unfold decodeLoop at h
      split at h
      · simp at h
      · rename_i st1 hst
        simp only [List.getElem?_cons_succ] at h
        obtain ⟨u, st2, h1, h2, h3⟩ := ih st1 j bs h
        exact ⟨u, st2, by simpa using h1, by simp [runState, hst, h2], h3⟩

/-- The unit right after a prefix that did not abort gets its trace entry. -/
theorem trace_after (w : HLSWriter) (cfg : Config) :
    ∀ (pre : List NalUnit) (st st1 : State) (u : NalUnit) (post : List NalUnit),
      runState w cfg st pre = .ok st1 →
      (decodeLoop w cfg st (pre ++ u :: post)).trace[pre.length]? =
        some (decodeUnit w cfg st1 u).emitted := by
  intro pre
  induction pre with
  | nil =>
    intro st st1 u post h
    simp only [runState, Except.ok.injEq] at h
    subst h
    simp only [List.nil_append, List.length_nil]
    unfold decodeLoop
    split <;> simp
  | cons nalu rest ih =>
    intro st st1 u post h
    unfold runState at h
    simp only [List.cons_append, List.length_cons]
    unfold decodeLoop
    split
    · rename_i e he; simp [he] at h
    · rename_i st2 he
      simp only [he] at h
      simp only [List.getElem?_cons_succ]
      exact ih st2 st1 u post h

theorem emittedAt_after (w : HLSWriter) (cfg : Config) (pre : List NalUnit) (st : State)
    (u : NalUnit) (post : List NalUnit) (h : runState w cfg State.init pre = .ok st) :
    emittedAt w cfg (pre ++ u :: post) pre.length = (decodeUnit w cfg st u).emitted := by
  simp [emittedAt, decode, List.getD_eq_getElem?_getD, trace_after w cfg pre State.init st u post h]

theorem emittedAt_ne_nil (w : HLSWriter) (cfg : Config) (units : List NalUnit) (i : Nat)
    (h : emittedAt w cfg units i ≠ []) :
    ∃ u st, units[i]? = some u ∧ runState w cfg State.init (units.take i) = .ok st ∧
      emittedAt w cfg units i = (decodeUnit w cfg st u).emitted := by
  unfold emittedAt at h ⊢
  rw [List.getD_eq_getElem?_getD] at h ⊢
  cases hg : (decode w cfg units).trace[i]? with
  | none => simp [hg] at h
  | some bs =>
    obtain ⟨u, st, h1, h2, h3⟩ := trace_getElem_some w cfg units State.init i bs hg
    exact ⟨u, st, h1, h2, by simpa using h3⟩

/-- The run reports no fatal condition exactly when the final state is reached. -/
theorem decodeLoop_fatal (w : HLSWriter) (cfg : Config) :
    ∀ (units : List NalUnit) (st : State),
      (decodeLoop w cfg st units).fatal =
        match runState w cfg st units with
        | .error e => some e
        | .ok _ => none := by
  intro units
  induction units with
  | nil => intro st; simp [decodeLoop, runState]
  | cons nalu rest ih =>
    intro st
    unfold decodeLoop runState
    split
    · rfl
    · exact ih _

/-! ## Temporal cutoff -/

/-- Whatever one iteration writes, the unit is non-empty and passed the temporal predicate. -/
theorem emitted_temporalKeep (w : HLSWriter) (cfg : Config) (st : State) (nalu : NalUnit)
    (h : (decodeUnit w cfg st nalu).emitted ≠ []) :
    nalu.fifo ≠ [] ∧ temporalKeep cfg nalu = true := by
  by_cases h0 : nalu.fifo = []
  · simp [decodeUnit_empty w cfg st nalu h0] at h
  refine ⟨h0, ?_⟩
  by_contra hf
  apply h
  by_cases hv : nalu.m_nalUnitType = NalUnitType.NAL_UNIT_VPS
  · rw [decodeUnit_vps w cfg st nalu h0 hv, if_neg hf]
    split <;> rfl
  · rw [decodeUnit_nonVps w cfg st nalu h0 hv]
    simp only [Bool.not_eq_true] at hf
    split
    · rfl
    · simp only [hf, Bool.false_and]
      split
      · simp
      · split <;> simp

/-- C1: with a temporal cutoff `k >= 0`, every unit that the run writes to the
output (passed through or re-serialized) has `temporalId <= k`. -/
theorem C1_written_temporalId_le (w : HLSWriter) (cfg : Config) (units : List NalUnit) (i : Nat)
    (hk : 0 ≤ cfg.m_maxTemporalLayer) (h : written w cfg units i) :
    ∃ u, units[i]? = some u ∧ (u.m_temporalId : Int) ≤ cfg.m_maxTemporalLayer := by
  obtain ⟨u, st, hu, _, he⟩ := emittedAt_ne_nil w cfg units i h
  refine ⟨u, hu, ?_⟩
  have h1 : (decodeUnit w cfg st u).emitted ≠ [] := by rw [← he]; exact h
  have h2 := (emitted_temporalKeep w cfg st u h1).2
  simp only [temporalKeep, Bool.or_eq_true, decide_eq_true_eq] at h2
  rcases h2 with h2 | h2
  · omega
  · exact h2

/-- C1 at a concrete run: cutoff 1, a slice of temporal id 1 is written. -/
theorem C1_written_temporalId_le_witness :
    ∃ u, [sliceUnit 0 0, sliceUnit 0 1, sliceUnit 0 2][1]? = some u ∧ (u.m_temporalId : Int) ≤ 1 :=
  C1_written_temporalId_le demoWriter ⟨-1, 1⟩ [sliceUnit 0 0, sliceUnit 0 1, sliceUnit 0 2] 1
    (by decide) (by decide)

/-! ## The running state does not depend on the verdict -/

/-- When an iteration does not abort, the state it leaves is `nextState`,
whatever the configuration and the verdict. -/
theorem next_eq_nextState (w : HLSWriter) (cfg : Config) (st st1 : State) (nalu : NalUnit)
    (h : (decodeUnit w cfg st nalu).next = .ok st1) : st1 = nextState st nalu := by
  by_cases h0 : nalu.fifo = []
  · rw [decodeUnit_empty w cfg st nalu h0] at h
    simp only [Except.ok.injEq] at h
    simp [nextState, h0, h]
  by_cases hv : nalu.m_nalUnitType = NalUnitType.NAL_UNIT_VPS
  · rw [decodeUnit_vps w cfg st nalu h0 hv] at h
    simp only [nextState, h0, hv, if_true, if_false]
    split at h
    · split at h
      · simp at h
      · split at h
        · simp at h
        · simp only [Except.ok.injEq] at h; exact h.symm
    · split at h
      · simp at h
      · simp only [Except.ok.injEq] at h; exact h.symm
  · rw [decodeUnit_nonVps w cfg st nalu h0 hv] at h
    simp only [nextState, h0, hv, if_false]
    split at h
    · simp at h
    · split at h
      · rename_i hs
        simp only [hs, if_true]
        split at h
        · split at h
          · simp at h
          · simp only [Except.ok.injEq] at h; exact h.symm
        · simp only [Except.ok.injEq] at h; exact h.symm
      · rename_i hs
        simp only [hs, if_false]
        split at h
        · rename_i hp
          simp only [hp, if_true]
          split at h <;> (simp only [Except.ok.injEq] at h; exact h.symm)
        · rename_i hp
          simp only [hp, if_false]
          simp only [Except.ok.injEq] at h; exact h.symm

/-- Two runs over the same units that both get through them end in the same state. -/
theorem runState_unique (w : HLSWriter) (cfg cfg1 : Config) :
    ∀ (units : List NalUnit) (st s1 s2 : State),
      runState w cfg st units = .ok s1 → runState w cfg1 st units = .ok s2 → s1 = s2 := by
  intro units
  induction units with
  | nil =>
    intro st s1 s2 h1 h2
    simp only [runState, Except.ok.injEq] at h1 h2
    rw [← h1, ← h2]
  | cons nalu rest ih =>
    intro st s1 s2 h1 h2
    unfold runState at h1 h2
    split at h1
    · simp at h1
    · rename_i a ha
      split at h2
      · simp at h2
      · rename_i b hb
        have e1 := next_eq_nextState w cfg st a nalu ha
        have e2 := next_eq_nextState w cfg1 st b nalu hb
        rw [e1] at h1
        rw [e2] at h2
        exact ih _ s1 s2 h1 h2

/-- Raising the cutoff keeps the temporal predicate. -/
theorem temporalKeep_mono (t k k1 : Int) (nalu : NalUnit) (hk : 0 ≤ k) (hkk : k < k1)
    (h : temporalKeep ⟨t, k⟩ nalu = true) : temporalKeep ⟨t, k1⟩ nalu = true := by
  simp only [temporalKeep, Bool.or_eq_true, decide_eq_true_eq] at h ⊢
  omega

/-- From one state, what an iteration writes at cutoff `k` it writes at any larger cutoff. -/
theorem emitted_mono (w : HLSWriter) (t k k1 : Int) (st : State) (nalu : NalUnit)
    (hk : 0 ≤ k) (hkk : k < k1) (h : (decodeUnit w ⟨t, k⟩ st nalu).emitted ≠ []) :
    (decodeUnit w ⟨t, k1⟩ st nalu).emitted = (decodeUnit w ⟨t, k⟩ st nalu).emitted := by
  obtain ⟨h0, hf⟩ := emitted_temporalKeep w ⟨t, k⟩ st nalu h
  have hf1 := temporalKeep_mono t k k1 nalu hk hkk hf
  have hO : ∀ s, olsBlock ⟨t, k1⟩ s nalu true = olsBlock ⟨t, k⟩ s nalu true := fun _ => rfl
  have hS : seiBlock ⟨t, k1⟩ nalu true = seiBlock ⟨t, k⟩ nalu true := rfl
  by_cases hv : nalu.m_nalUnitType = NalUnitType.NAL_UNIT_VPS
  · rw [decodeUnit_vps w _ st nalu h0 hv, decodeUnit_vps w _ st nalu h0 hv, hf, hf1, hO]
  · rw [decodeUnit_nonVps w _ st nalu h0 hv, decodeUnit_nonVps w _ st nalu h0 hv, hf, hf1, hO, hS]

/-- C2 (amended): at cutoffs `0 <= k < k1`, every unit written by the run with
cutoff `k` is also written by the run with cutoff `k1`, provided that run has
not aborted before reaching the unit. -/
theorem C2_monotone_unless_aborted (w : HLSWriter) (t k k1 : Int) (units : List NalUnit) (i : Nat)
    (hk : 0 ≤ k) (hkk : k < k1) (hw : written w ⟨t, k⟩ units i)
    (hr : i < (decode w ⟨t, k1⟩ units).trace.length) : written w ⟨t, k1⟩ units i := by
  obtain ⟨u, st, hu, hst, he⟩ := emittedAt_ne_nil w ⟨t, k⟩ units i hw
  have hg : (decode w ⟨t, k1⟩ units).trace[i]? = some ((decode w ⟨t, k1⟩ units).trace[i]) :=
    List.getElem?_eq_getElem hr
  obtain ⟨u1, st1, hu1, hst1, he1⟩ := trace_getElem_some w ⟨t, k1⟩ units State.init i _ hg
  have huu : u1 = u := by rw [hu] at hu1; exact (Option.some.inj hu1).symm
  have hss : st = st1 := runState_unique w ⟨t, k⟩ ⟨t, k1⟩ (units.take i) State.init st st1 hst hst1
  subst huu; subst hss
  have hne : (decodeUnit w ⟨t, k⟩ st u1).emitted ≠ [] := by rw [← he]; exact hw
  have hm := emitted_mono w t k k1 st u1 hk hkk hne
  unfold written emittedAt
  rw [List.getD_eq_getElem?_getD, hg, Option.getD_some, he1, hm]
  exact hne

/-- C2 as stated fails: at cutoff 0 the SPS unit of temporal id 1 is dropped and
the slice after it is written; at cutoff 1 the SPS unit reaches `xWriteSPS`,
whose check aborts the run, and the slice is never written. -/
theorem C2_counterexample :
    (0 : Int) ≤ 0 ∧ (0 : Int) < 1 ∧
    written demoWriter ⟨-1, 0⟩ [spsUnit 0 0 1, sliceUnit 0 0] 1 ∧
    ¬ written demoWriter ⟨-1, 1⟩ [spsUnit 0 0 1, sliceUnit 0 0] 1 ∧
    (decode demoWriter ⟨-1, 1⟩ [spsUnit 0 0 1, sliceUnit 0 0]).fatal = some Fatal.spsTemporalId := by
  decide

/-- C2 (amended) at a concrete run: a slice written at cutoff 0 is written at cutoff 1. -/
theorem C2_monotone_unless_aborted_witness :
    written demoWriter ⟨-1, 1⟩ [spsUnit 0 0 0, sliceUnit 0 0] 1 :=
  C2_monotone_unless_aborted demoWriter (-1) 0 1 [spsUnit 0 0 0, sliceUnit 0 0] 1
    (by decide) (by decide) (by decide) (by decide)

/-! ## The active VPS -/

theorem activeVps_nextState_vps (st : State) (nalu : NalUnit) (h0 : nalu.fifo ≠ [])
    (hv : nalu.m_nalUnitType = NalUnitType.NAL_UNIT_VPS) :
    activeVps (nextState st nalu) = some nalu.vps := by
  have h : ((nalu.vps.vpsId : Int) = -1) = False := by
    simp only [eq_iff_iff, iff_false]; omega
  simp [activeVps, nextState, h0, hv, afterVps, h, getVPS_storeVPS]

theorem activeVps_nextState_other (st : State) (nalu : NalUnit)
    (h : nalu.fifo = [] ∨ nalu.m_nalUnitType ≠ NalUnitType.NAL_UNIT_VPS) :
    activeVps (nextState st nalu) = activeVps st := by
  by_cases h0 : nalu.fifo = []
  · simp [nextState, h0]
  · have hv : nalu.m_nalUnitType ≠ NalUnitType.NAL_UNIT_VPS := by
      rcases h with h | h
      · exact absurd h h0
      · exact h
    simp only [nextState, h0, hv, if_false]
    split
    · rfl
    · split <;> rfl

/-- Once a VPS unit has been processed there is an active VPS for the rest of the run. -/
theorem activeVps_isSome (w : HLSWriter) (cfg : Config) :
    ∀ (pre : List NalUnit) (st0 st : State),
      runState w cfg st0 pre = .ok st →
      ((activeVps st0).isSome = true ∨ hasVps pre) → (activeVps st).isSome = true := by
  intro pre
  induction pre with
  | nil =>
    intro st0 st h hs
    simp only [runState, Except.ok.injEq] at h
    subst h
    rcases hs with hs | ⟨v, hv, _⟩
    · exact hs
    · simp at hv
  | cons nalu rest ih =>
    intro st0 st h hs
    unfold runState at h
    split at h
    · simp at h
    · rename_i st1 hn
      have e := next_eq_nextState w cfg st0 st1 nalu hn
      subst e
      apply ih _ st h
      by_cases hv : nalu.fifo ≠ [] ∧ nalu.m_nalUnitType = NalUnitType.NAL_UNIT_VPS
      · left
        rw [activeVps_nextState_vps st0 nalu hv.1 hv.2]; rfl
      · have hv1 : nalu.fifo = [] ∨ nalu.m_nalUnitType ≠ NalUnitType.NAL_UNIT_VPS := by
          by_cases h0 : nalu.fifo = []
          · exact Or.inl h0
          · exact Or.inr (fun hh => hv ⟨h0, hh⟩)
        rcases hs with hs | ⟨v, hmem, hv2⟩
        · left
          rw [activeVps_nextState_other st0 nalu hv1]; exact hs
        · rcases List.mem_cons.mp hmem with hm | hm
          · subst hm
            exact absurd hv2 hv
          · exact Or.inr ⟨v, hm, hv2⟩

/-- The OLS block when a VPS is active and the target OLS is set. -/
theorem olsBlock_active (cfg : Config) (st : State) (nalu : NalUnit) (vps : VPS)
    (ht : 0 ≤ cfg.m_targetOlsIdx) (ha : activeVps st = some vps) :
    olsBlock cfg st nalu true =
      if (vps.numOutputLayerSets : Int) ≤ cfg.m_targetOlsIdx then .error Fatal.olsRange
      else .ok (isSpecialNalTypes nalu.m_nalUnitType
            || decide (nalu.m_nuhLayerId ∈ vps.getLayerIdsInOls cfg.m_targetOlsIdx.toNat), some vps) := by
  unfold activeVps at ha
  split at ha
  · simp at ha
  · rename_i hne
    have hlt : ¬ cfg.m_targetOlsIdx < 0 := by omega
    simp only [olsBlock, ge_iff_le, ht, hne, if_true, if_false, ha, hlt, false_or,
      VPS.getNumOutputLayerSets, Bool.true_and, isSpecialNalTypes]

/-- C3: with a target OLS set and a VPS unit already processed, there is an
active VPS, and a unit that is not a VPS, DCI or EOB and whose layer id is not
in that VPS's layer list for the target OLS is not written. -/
theorem C3_outside_ols_not_written (w : HLSWriter) (cfg : Config) (pre post : List NalUnit)
    (u : NalUnit) (st : State) (ht : 0 ≤ cfg.m_targetOlsIdx) (hobs : hasVps pre)
    (hst : runState w cfg State.init pre = .ok st)
    (hty : isSpecialNalTypes u.m_nalUnitType = false) :
    ∃ vps, activeVps st = some vps ∧
      (u.m_nuhLayerId ∉ vps.getLayerIdsInOls cfg.m_targetOlsIdx.toNat →
        ¬ written w cfg (pre ++ u :: post) pre.length) := by
  have hsome := activeVps_isSome w cfg pre State.init st hst (Or.inr hobs)
  obtain ⟨vps, ha⟩ := Option.isSome_iff_exists.mp hsome
  refine ⟨vps, ha, ?_⟩
  intro hl hw
  apply hw
  rw [emittedAt_after w cfg pre st u post hst]
  by_cases h0 : u.fifo = []
  · rw [decodeUnit_empty w cfg st u h0]
  have hv : u.m_nalUnitType ≠ NalUnitType.NAL_UNIT_VPS := by
    intro hv; simp [isSpecialNalTypes, hv] at hty
  rw [decodeUnit_nonVps w cfg st u h0 hv, olsBlock_active cfg st u vps ht ha]
  split
  · rename_i e he
    rfl
  · rename_i b v he
    split at he
    · simp at he
    · simp only [hty, hl, decide_False, Bool.or_self, Except.ok.injEq, Prod.mk.injEq] at he
      rw [← he.1]
      simp only [Bool.and_false, Bool.false_and]
      split
      · simp
      · split <;> simp

/-- C3 at a concrete run: after the VPS, a slice of layer 2 is dropped under OLS 0. -/
theorem C3_outside_ols_not_written_witness :
    ∃ vps, activeVps (nextState State.init (vpsUnit vps3 0 0)) = some vps ∧
      ((sliceUnit 2 0).m_nuhLayerId ∉ vps.getLayerIdsInOls (0 : Int).toNat →
        ¬ written demoWriter ⟨0, -1⟩ ([vpsUnit vps3 0 0] ++ sliceUnit 2 0 :: []) 1) :=
  C3_outside_ols_not_written demoWriter ⟨0, -1⟩ [vpsUnit vps3 0 0] [] (sliceUnit 2 0)
    (nextState State.init (vpsUnit vps3 0 0)) (by decide)
    ⟨vpsUnit vps3 0 0, by simp, by decide, by decide⟩ (by rfl) (by decide)

/-! ## Layer membership -/

theorem writeAnnexB_ne_nil (nal : List Nat) : writeAnnexB nal ≠ [] := by
  simp [writeAnnexB]

theorem xWritePPS_ne_nil (w : HLSWriter) (pps : PPS) (l t : Nat) : xWritePPS w pps l t ≠ [] := by
  simp [xWritePPS, writeAnnexB]

theorem passThrough_ne_nil (nalu : NalUnit) : passThrough nalu ≠ [] := by
  simp [passThrough]

/-- SEI gating leaves every unit that is not a prefix SEI alone. -/
theorem seiBlock_other (cfg : Config) (nalu : NalUnit)
    (h : nalu.m_nalUnitType ≠ NalUnitType.NAL_UNIT_PREFIX_SEI) : seiBlock cfg nalu true = true := by
  simp [seiBlock, h]

/-- A non-empty unit that is not a VPS, on which the run does not abort, is
written exactly when the three predicates hold. -/
theorem written_iff_nonVps (w : HLSWriter) (cfg : Config) (st st1 : State) (nalu : NalUnit)
    (b : Bool) (v : Option VPS) (h0 : nalu.fifo ≠ [])
    (hv : nalu.m_nalUnitType ≠ NalUnitType.NAL_UNIT_VPS)
    (hO : olsBlock cfg st nalu true = .ok (b, v))
    (hok : (decodeUnit w cfg st nalu).next = .ok st1) :
    (decodeUnit w cfg st nalu).emitted ≠ [] ↔
      (temporalKeep cfg nalu = true ∧ b = true ∧ seiBlock cfg nalu true = true) := by
  rw [decodeUnit_nonVps w cfg st nalu h0 hv, hO] at hok ⊢
  simp only at hok ⊢
  by_cases hs : nalu.m_nalUnitType = NalUnitType.NAL_UNIT_SPS
  · have hsei := seiBlock_other cfg nalu (by rw [hs]; decide)
    simp only [hs, if_true] at hok ⊢
    by_cases hf : (temporalKeep cfg nalu && b) = true
    · simp only [hf, if_true] at hok ⊢
      by_cases hz : nalu.m_temporalId = 0
      · simp only [Bool.and_eq_true] at hf
        simp [hz, writeAnnexB_ne_nil, hf.1, hf.2, hsei]
      · simp [hz] at hok
    · simp only [hf, if_false]
      simp only [Bool.and_eq_true] at hf
      simp only [ne_eq, not_true_eq_false, false_iff]
      tauto
  · by_cases hp : nalu.m_nalUnitType = NalUnitType.NAL_UNIT_PPS
    · have hsei := seiBlock_other cfg nalu (by rw [hp]; decide)
      simp only [hs, hp, if_true, if_false] at hok ⊢
      by_cases hf : (temporalKeep cfg nalu && b) = true
      · simp only [hf, if_true]
        simp only [Bool.and_eq_true] at hf
        simp [xWritePPS_ne_nil, hf.1, hf.2, hsei]
      · simp only [hf, if_false]
        simp only [Bool.and_eq_true] at hf
        simp only [ne_eq, not_true_eq_false, false_iff]
        tauto
    · simp only [hs, hp, if_false]
      by_cases hf : (temporalKeep cfg nalu && b && seiBlock cfg nalu true) = true
      · simp only [hf, if_true]
        simp only [Bool.and_eq_true] at hf
        simp [passThrough_ne_nil, hf.1.1, hf.1.2, hf.2]
      · simp only [hf, if_false]
        simp only [Bool.and_eq_true] at hf
        simp only [ne_eq, not_true_eq_false, false_iff]
        tauto

theorem temporalKeep_noCutoff (cfg : Config) (nalu : NalUnit) (hk : cfg.m_maxTemporalLayer < 0) :
    temporalKeep cfg nalu = true := by
  simp [temporalKeep, hk]

/-- C4 (amended): with no temporal cutoff, a target OLS set and a VPS active, a
non-empty unit that is not a VPS, DCI or EOB and on which the run does not
abort is written exactly when its layer id is in the active VPS's layer list for
the target OLS and, for a prefix SEI unit, its messages pass the SEI gating. -/
theorem C4_membership_exact (w : HLSWriter) (cfg : Config) (pre post : List NalUnit)
    (u : NalUnit) (st st1 : State) (vps : VPS)
    (ht : 0 ≤ cfg.m_targetOlsIdx) (hk : cfg.m_maxTemporalLayer < 0)
    (hst : runState w cfg State.init pre = .ok st) (ha : activeVps st = some vps)
    (h0 : u.fifo ≠ []) (hty : isSpecialNalTypes u.m_nalUnitType = false)
    (hok : (decodeUnit w cfg st u).next = .ok st1) :
    written w cfg (pre ++ u :: post) pre.length ↔
      (u.m_nuhLayerId ∈ vps.getLayerIdsInOls cfg.m_targetOlsIdx.toNat
        ∧ seiBlock cfg u true = true) := by
  have hv : u.m_nalUnitType ≠ NalUnitType.NAL_UNIT_VPS := by
    intro hv; simp [isSpecialNalTypes, hv] at hty
  have hO := olsBlock_active cfg st u vps ht ha
  by_cases hr : (vps.numOutputLayerSets : Int) ≤ cfg.m_targetOlsIdx
  · rw [if_pos hr] at hO
    rw [decodeUnit_nonVps w cfg st u h0 hv, hO] at hok
    simp at hok
  · rw [if_neg hr, hty, Bool.false_or] at hO
    unfold written
    rw [emittedAt_after w cfg pre st u post hst,
      written_iff_nonVps w cfg st st1 u _ _ h0 hv hO hok]
    simp [temporalKeep_noCutoff cfg u hk]

/-- C4 as stated fails in three ways: a prefix SEI unit of a layer in OLS 1
carrying a buffering-period message is dropped under target OLS 1; a slice of
layer 2 that precedes the VPS is written under target OLS 0 although layer 2 is
not in that OLS; an SPS unit of a layer in the OLS with temporal id 1 aborts the
run and is not written. -/
theorem C4_counterexample :
    ((seiUnit [bufferingPeriod] 0 0).m_nuhLayerId ∈ vps3.getLayerIdsInOls 1 ∧
      ¬ written demoWriter ⟨1, -1⟩ [vpsUnit vps3 0 0, seiUnit [bufferingPeriod] 0 0] 1) ∧
    ((sliceUnit 2 0).m_nuhLayerId ∉ vps3.getLayerIdsInOls 0 ∧
      written demoWriter ⟨0, -1⟩ [sliceUnit 2 0, vpsUnit vps3 0 0] 0) ∧
    ((spsUnit 0 0 1).m_nuhLayerId ∈ vps3.getLayerIdsInOls 0 ∧
      ¬ written demoWriter ⟨0, -1⟩ [vpsUnit vps3 0 0, spsUnit 0 0 1] 1) := by
  decide

/-- C4 (amended) at a concrete run: after the VPS, under target OLS 1, a slice of layer 1. -/
theorem C4_membership_exact_witness :
    written demoWriter ⟨1, -1⟩ ([vpsUnit vps3 0 0] ++ sliceUnit 1 0 :: []) 1 ↔
      ((sliceUnit 1 0).m_nuhLayerId ∈ vps3.getLayerIdsInOls (1 : Int).toNat
        ∧ seiBlock ⟨1, -1⟩ (sliceUnit 1 0) true = true) :=
  C4_membership_exact demoWriter ⟨1, -1⟩ [vpsUnit vps3 0 0] [] (sliceUnit 1 0)
    (nextState State.init (vpsUnit vps3 0 0))
    (nextState (nextState State.init (vpsUnit vps3 0 0)) (sliceUnit 1 0)) vps3
    (by decide) (by decide) (by rfl) (by rfl) (by decide) (by decide) (by rfl)

/-! ## VPS, DCI and EOB units -/

/-- The OLS block never clears the flag of a VPS, DCI or EOB unit. -/
theorem olsBlock_special (cfg : Config) (st : State) (nalu : NalUnit) (b : Bool) (v : Option VPS)
    (hty : isSpecialNalTypes nalu.m_nalUnitType = true)
    (hO : olsBlock cfg st nalu true = .ok (b, v)) : b = true := by
  simp only [olsBlock] at hO
  split at hO
  · split at hO
    · split at hO
      · simp at hO
      · simp only [Except.ok.injEq, Prod.mk.injEq] at hO; exact hO.1.symm
    · split at hO
      · simp at hO
      · split at hO
        · simp at hO
        · simp only [isSpecialNalTypes] at hty
          simp only [hty, Bool.true_or, Bool.and_self, Except.ok.injEq, Prod.mk.injEq] at hO
          exact hO.1.symm
  · simp only [Except.ok.injEq, Prod.mk.injEq] at hO; exact hO.1.symm

/-- C5 (amended): with no temporal cutoff, every non-empty VPS, DCI or EOB unit
on which the run does not abort is written, whatever its layer id. -/
theorem C5_special_units_written (w : HLSWriter) (cfg : Config) (pre post : List NalUnit)
    (u : NalUnit) (st st1 : State) (hk : cfg.m_maxTemporalLayer < 0)
    (hst : runState w cfg State.init pre = .ok st)
    (h0 : u.fifo ≠ []) (hty : isSpecialNalTypes u.m_nalUnitType = true)
    (hok : (decodeUnit w cfg st u).next = .ok st1) :
    written w cfg (pre ++ u :: post) pre.length := by
  unfold written
  rw [emittedAt_after w cfg pre st u post hst]
  have hT := temporalKeep_noCutoff cfg u hk
  by_cases hv : u.m_nalUnitType = NalUnitType.NAL_UNIT_VPS
  · rw [decodeUnit_vps w cfg st u h0 hv, if_pos hT] at hok ⊢
    by_cases hz : u.m_temporalId = 0
    · simp only [hz, ne_eq, not_true_eq_false, if_false] at hok ⊢
      split
      · rename_i e he; simp [he] at hok
      · exact writeAnnexB_ne_nil _
    · simp [hz] at hok
  · cases hO : olsBlock cfg st u true with
    | error e =>
      rw [decodeUnit_nonVps w cfg st u h0 hv, hO] at hok
      simp at hok
    | ok p =>
      obtain ⟨b, v⟩ := p
      have hb := olsBlock_special cfg st u b v hty hO
      have hsei : seiBlock cfg u true = true := by
        apply seiBlock_other
        intro hh; simp [isSpecialNalTypes, hh] at hty
      exact (written_iff_nonVps w cfg st st1 u b v h0 hv hO hok).mpr ⟨hT, hb, hsei⟩

/-- C5 as stated fails: the stream holds a VPS with three output layer sets,
target OLS 0 is valid and there is no temporal cutoff, yet the VPS unit has
temporal id 1, `xWriteVPS` aborts on it and nothing is written. -/
theorem C5_counterexample :
    hasVps [vpsUnit vps3 0 1] ∧ (0 : Int) < vps3.numOutputLayerSets ∧
    isSpecialNalTypes (vpsUnit vps3 0 1).m_nalUnitType = true ∧
    ¬ written demoWriter ⟨0, -1⟩ [vpsUnit vps3 0 1] 0 ∧
    (decode demoWriter ⟨0, -1⟩ [vpsUnit vps3 0 1]).fatal = some Fatal.vpsTemporalId := by
  refine ⟨⟨vpsUnit vps3 0 1, by simp, by decide, by decide⟩, by decide, by decide, by decide, by decide⟩

/-- C5 (amended) at a concrete run: an EOB unit of layer 7 under target OLS 0. -/
theorem C5_special_units_written_witness :
    written demoWriter ⟨0, -1⟩
      ([vpsUnit vps3 5 0] ++ plainUnit NalUnitType.NAL_UNIT_EOB 7 0 :: []) 1 :=
  C5_special_units_written demoWriter ⟨0, -1⟩ [vpsUnit vps3 5 0] []
    (plainUnit NalUnitType.NAL_UNIT_EOB 7 0) (nextState State.init (vpsUnit vps3 5 0))
    (nextState (nextState State.init (vpsUnit vps3 5 0)) (plainUnit NalUnitType.NAL_UNIT_EOB 7 0))
    (by decide) (by rfl) (by decide) (by decide) (by rfl)

/-! ## No VPS in the stream -/

/-- The OLS block when no VPS has been seen. -/
theorem olsBlock_noVps (cfg : Config) (st : State) (nalu : NalUnit) (ht : 0 ≤ cfg.m_targetOlsIdx)
    (hs : st.m_vpsId = -1) :
    olsBlock cfg st nalu true =
      if cfg.m_targetOlsIdx ≠ 0 then .error Fatal.onlyOneOls
      else .ok (true, some ((({} : VPS).setNumLayersInOls 0 1).setLayerIdInOls 0 0 nalu.m_nuhLayerId)) := by
  simp only [olsBlock, ge_iff_le, ht, hs, if_true]

/-- With no VPS seen and a target OLS above 0, a run aborts on its first
non-empty unit, having written nothing. -/
theorem decodeLoop_onlyOneOls (w : HLSWriter) (cfg : Config) (ht : 0 < cfg.m_targetOlsIdx) :
    ∀ (units : List NalUnit) (st : State), st.m_vpsId = -1 → ¬ hasVps units →
      (∃ u ∈ units, u.fifo ≠ []) →
      decodeLoop w cfg st units =
        ⟨List.replicate (leadingEmpty units + 1) [], some Fatal.onlyOneOls⟩ := by
  intro units
  induction units with
  | nil => intro st _ _ h; simp at h
  | cons nalu rest ih =>
    intro st hs hno hne
    by_cases h0 : nalu.fifo = []
    · have hno1 : ¬ hasVps rest := by
        intro ⟨v, hv, hv1⟩
        exact hno ⟨v, List.mem_cons_of_mem _ hv, hv1⟩
      have hne1 : ∃ u ∈ rest, u.fifo ≠ [] := by
        obtain ⟨u, hu, hu1⟩ := hne
        rcases List.mem_cons.mp hu with h | h
        · subst h; exact absurd h0 hu1
        · exact ⟨u, h, hu1⟩
      unfold decodeLoop
      rw [decodeUnit_empty w cfg st nalu h0]
      simp only [ih st hs hno1 hne1, leadingEmpty, List.takeWhile_cons, h0, decide_True, if_true,
        List.length_cons, List.replicate_succ]
    · have hv : nalu.m_nalUnitType ≠ NalUnitType.NAL_UNIT_VPS := by
        intro hv
        exact hno ⟨nalu, List.mem_cons_self _ _, h0, hv⟩
      have hO := olsBlock_noVps cfg st nalu (le_of_lt ht) hs
      rw [if_pos (ne_of_gt ht)] at hO
      unfold decodeLoop
      rw [decodeUnit_nonVps w cfg st nalu h0 hv, hO]
      simp [leadingEmpty, List.takeWhile_cons, h0]

/-- C6: for a stream with no VPS unit and at least one non-empty unit, and a
target OLS above 0, the run aborts with the "only one OLS and one layer exist"
error while processing the first non-empty unit, and the output is empty. -/
theorem C6_no_vps_positive_ols_aborts (w : HLSWriter) (cfg : Config) (units : List NalUnit)
    (ht : 0 < cfg.m_targetOlsIdx) (hno : ¬ hasVps units) (hne : ∃ u ∈ units, u.fifo ≠ []) :
    (decode w cfg units).fatal = some Fatal.onlyOneOls ∧
    (decode w cfg units).trace.length = leadingEmpty units + 1 ∧
    (decode w cfg units).output = [] := by
  have h := decodeLoop_onlyOneOls w cfg ht units State.init rfl hno hne
  unfold decode
  rw [h]
  refine ⟨rfl, by simp, ?_⟩
  simp only [Run.output]
  generalize leadingEmpty units + 1 = n
  induction n with
  | zero => rfl
  | succ n ih => simp [List.replicate_succ]

/-- C6 at a concrete run: an empty unit, then two slices, target OLS 1. -/
theorem C6_no_vps_positive_ols_aborts_witness :
    (decode demoWriter ⟨1, -1⟩ [emptyUnit, sliceUnit 0 0, sliceUnit 0 0]).fatal
      = some Fatal.onlyOneOls ∧
    (decode demoWriter ⟨1, -1⟩ [emptyUnit, sliceUnit 0 0, sliceUnit 0 0]).trace.length
      = leadingEmpty [emptyUnit, sliceUnit 0 0, sliceUnit 0 0] + 1 ∧
    (decode demoWriter ⟨1, -1⟩ [emptyUnit, sliceUnit 0 0, sliceUnit 0 0]).output = [] :=
  C6_no_vps_positive_ols_aborts demoWriter ⟨1, -1⟩ [emptyUnit, sliceUnit 0 0, sliceUnit 0 0]
    (by decide) (by decide) ⟨sliceUnit 0 0, by simp, by decide⟩

/-- SEI gating under target OLS 0: only a scalable-nesting message with OLS
flag set whose listed indices lack 0 clears the flag. -/
theorem seiBlock_zero (cfg : Config) (nalu : NalUnit) (ht : cfg.m_targetOlsIdx = 0) :
    seiBlock cfg nalu true = true ↔
      (nalu.m_nalUnitType = NalUnitType.NAL_UNIT_PREFIX_SEI →
        ∀ sei ∈ nalu.seis, sei.payloadType = PayloadType.SCALABLE_NESTING →
          sei.m_nestingOlsFlag = true → targetOlsIdxInNestingAppliedOls sei 0 = true) := by
  simp only [seiBlock, ht, ge_iff_le, le_refl, if_true]
  by_cases hp : nalu.m_nalUnitType = NalUnitType.NAL_UNIT_PREFIX_SEI
  · simp only [hp, if_true, foldl_seiStep, Bool.true_and, List.all_eq_true, true_implies]
    constructor
    · intro h sei hs hn hf
      have := h sei hs
      simpa [seiStep, hn, hf, ht] using this
    · intro h sei hs
      by_cases hn : sei.payloadType = PayloadType.SCALABLE_NESTING
      · by_cases hf : sei.m_nestingOlsFlag = true
        · have := h sei hs hn hf
          simpa [seiStep, hn, hf, ht] using this
        · simp [seiStep, hn, hf]
      · simp [seiStep, hn, ht]
  · simp [hp]

/-- With no VPS seen and target OLS 0, a unit that is not a VPS does not abort
the run unless it is an SPS with a non-zero temporal id, and `m_vpsId` stays unset. -/
theorem decodeUnit_noVps_ok (w : HLSWriter) (cfg : Config) (st : State) (nalu : NalUnit)
    (ht : cfg.m_targetOlsIdx = 0) (hk : cfg.m_maxTemporalLayer < 0) (hs : st.m_vpsId = -1)
    (hv : nalu.fifo ≠ [] → nalu.m_nalUnitType ≠ NalUnitType.NAL_UNIT_VPS)
    (hsps : nalu.fifo ≠ [] → nalu.m_nalUnitType = NalUnitType.NAL_UNIT_SPS → nalu.m_temporalId = 0) :
    (decodeUnit w cfg st nalu).next = .ok (nextState st nalu) ∧ (nextState st nalu).m_vpsId = -1 := by
  by_cases h0 : nalu.fifo = []
  · rw [decodeUnit_empty w cfg st nalu h0]
    simp [nextState, h0, hs]
  · have hv1 := hv h0
    have hO := olsBlock_noVps cfg st nalu (le_of_eq ht.symm) hs
    simp only [ht, ne_eq, not_true_eq_false, if_false] at hO
    have hT := temporalKeep_noCutoff cfg nalu hk
    rw [decodeUnit_nonVps w cfg st nalu h0 hv1, hO]
    simp only [nextState, h0, hv1, if_false, hT, Bool.and_self, if_true]
    by_cases hsp : nalu.m_nalUnitType = NalUnitType.NAL_UNIT_SPS
    · simp [hsp, hsps h0 hsp, hs]
    · by_cases hp : nalu.m_nalUnitType = NalUnitType.NAL_UNIT_PPS
      · simp [hp, hs]
      · simp [hsp, hp, hs]

/-- A stream with no VPS unit and no SPS unit of non-zero temporal id is
processed to its end under target OLS 0 and no cutoff, with `m_vpsId` unset. -/
theorem runState_noVps (w : HLSWriter) (cfg : Config) (ht : cfg.m_targetOlsIdx = 0)
    (hk : cfg.m_maxTemporalLayer < 0) :
    ∀ (units : List NalUnit) (st : State), st.m_vpsId = -1 → ¬ hasVps units →
      (∀ u ∈ units, u.fifo ≠ [] → u.m_nalUnitType = NalUnitType.NAL_UNIT_SPS → u.m_temporalId = 0) →
      ∃ st1, runState w cfg st units = .ok st1 ∧ st1.m_vpsId = -1 := by
  intro units
  induction units with
  | nil => intro st hs _ _; exact ⟨st, rfl, hs⟩
  | cons nalu rest ih =>
    intro st hs hno hsps
    have hv : nalu.fifo ≠ [] → nalu.m_nalUnitType ≠ NalUnitType.NAL_UNIT_VPS :=
      fun h0 hv => hno ⟨nalu, List.mem_cons_self _ _, h0, hv⟩
    obtain ⟨h1, h2⟩ := decodeUnit_noVps_ok w cfg st nalu ht hk hs hv
      (hsps nalu (List.mem_cons_self _ _))
    have hno1 : ¬ hasVps rest := fun ⟨v, hv, hv1⟩ => hno ⟨v, List.mem_cons_of_mem _ hv, hv1⟩
    obtain ⟨st1, h3, h4⟩ := ih (nextState st nalu) h2 hno1
      (fun u hu => hsps u (List.mem_cons_of_mem _ hu))
    exact ⟨st1, by simp only [runState, h1, h3], h4⟩

/-- What the run writes for the unit at position `i`, given the state it
reached before that unit. -/
theorem emittedAt_of_getElem (w : HLSWriter) (cfg : Config) (units : List NalUnit) (i : Nat)
    (u : NalUnit) (st : State) (hu : units[i]? = some u)
    (hst : runState w cfg State.init (units.take i) = .ok st) :
    emittedAt w cfg units i = (decodeUnit w cfg st u).emitted := by
  obtain ⟨hi, hget⟩ := List.getElem?_eq_some_iff.mp hu
  have hsplit : units = units.take i ++ u :: units.drop (i + 1) := by
    rw [← hget, ← List.drop_eq_getElem_cons hi, List.take_append_drop]
  have hlen : (units.take i).length = i := by
    rw [List.length_take]; omega
  have := emittedAt_after w cfg (units.take i) st u (units.drop (i + 1)) hst
  rw [← hsplit, hlen] at this
  exact this

/-- C7 (amended): for a stream with no VPS unit and no SPS unit of non-zero
temporal id, the run with target OLS 0 and no temporal cutoff completes without
a fatal error and writes every non-empty unit, whatever its layer id, except a
prefix SEI unit carrying a scalable-nesting message with OLS flag set whose
listed OLS indices do not include 0. -/
theorem C7_synthetic_fallback (w : HLSWriter) (cfg : Config) (units : List NalUnit)
    (ht : cfg.m_targetOlsIdx = 0) (hk : cfg.m_maxTemporalLayer < 0) (hno : ¬ hasVps units)
    (hsps : ∀ u ∈ units, u.fifo ≠ [] → u.m_nalUnitType = NalUnitType.NAL_UNIT_SPS →
      u.m_temporalId = 0) :
    (decode w cfg units).fatal = none ∧
    ∀ (i : Nat) (u : NalUnit), units[i]? = some u → u.fifo ≠ [] →
      (written w cfg units i ↔
        (u.m_nalUnitType = NalUnitType.NAL_UNIT_PREFIX_SEI →
          ∀ sei ∈ u.seis, sei.payloadType = PayloadType.SCALABLE_NESTING →
            sei.m_nestingOlsFlag = true → targetOlsIdxInNestingAppliedOls sei 0 = true)) := by
  constructor
  · obtain ⟨st1, h1, _⟩ := runState_noVps w cfg ht hk units State.init rfl hno hsps
    unfold decode
    rw [decodeLoop_fatal, h1]
  · intro i u hu h0
    have hmem : u ∈ units := List.getElem?_mem hu
    have hno1 : ¬ hasVps (units.take i) :=
      fun ⟨v, hv, hv1⟩ => hno ⟨v, List.mem_of_mem_take hv, hv1⟩
    obtain ⟨st, hst, hs⟩ := runState_noVps w cfg ht hk (units.take i) State.init rfl hno1
      (fun v hv => hsps v (List.mem_of_mem_take hv))
    have hv : u.m_nalUnitType ≠ NalUnitType.NAL_UNIT_VPS := fun hv => hno ⟨u, hmem, h0, hv⟩
    obtain ⟨hok, _⟩ := decodeUnit_noVps_ok w cfg st u ht hk hs (fun _ => hv) (hsps u hmem)
    have hO := olsBlock_noVps cfg st u (le_of_eq ht.symm) hs
    simp only [ht, ne_eq, not_true_eq_false, if_false] at hO
    unfold written
    rw [emittedAt_of_getElem w cfg units i u st hu hst,
      written_iff_nonVps w cfg st _ u _ _ h0 hv hO hok, ← seiBlock_zero cfg u ht]
    simp [temporalKeep_noCutoff cfg u hk]

/-- C7 as stated fails in two ways, each on a one-unit stream of layer 0 with
no VPS, target OLS 0 and no cutoff: a prefix SEI unit whose scalable-nesting
message applies to OLS 1 only is dropped although the run succeeds; an SPS unit
of temporal id 1 aborts the run. -/
theorem C7_counterexample :
    (¬ hasVps [seiUnit [nesting1] 0 0] ∧ (seiUnit [nesting1] 0 0).m_nuhLayerId = 0 ∧
      (decode demoWriter ⟨0, -1⟩ [seiUnit [nesting1] 0 0]).fatal = none ∧
      ¬ written demoWriter ⟨0, -1⟩ [seiUnit [nesting1] 0 0] 0) ∧
    (¬ hasVps [spsUnit 0 0 1] ∧ (spsUnit 0 0 1).m_nuhLayerId = 0 ∧
      (decode demoWriter ⟨0, -1⟩ [spsUnit 0 0 1]).fatal = some Fatal.spsTemporalId ∧
      ¬ written demoWriter ⟨0, -1⟩ [spsUnit 0 0 1] 0) := by
  decide

/-- C7 (amended) at a concrete run: slices of layers 3 and 4 and an SPS, no VPS. -/
theorem C7_synthetic_fallback_witness :
    (decode demoWriter ⟨0, -1⟩ [sliceUnit 3 0, spsUnit 0 3 0, sliceUnit 4 2]).fatal = none ∧
    ∀ (i : Nat) (u : NalUnit), [sliceUnit 3 0, spsUnit 0 3 0, sliceUnit 4 2][i]? = some u →
      u.fifo ≠ [] →
      (written demoWriter ⟨0, -1⟩ [sliceUnit 3 0, spsUnit 0 3 0, sliceUnit 4 2] i ↔
        (u.m_nalUnitType = NalUnitType.NAL_UNIT_PREFIX_SEI →
          ∀ sei ∈ u.seis, sei.payloadType = PayloadType.SCALABLE_NESTING →
            sei.m_nestingOlsFlag = true → targetOlsIdxInNestingAppliedOls sei 0 = true)) :=
  C7_synthetic_fallback demoWriter ⟨0, -1⟩ [sliceUnit 3 0, spsUnit 0 3 0, sliceUnit 4 2]
    (by decide) (by decide) (by decide) (by decide)

/-- Units that are not VPS units leave `m_vpsId` alone. -/
theorem nextState_vpsId (st : State) (nalu : NalUnit)
    (h : nalu.fifo ≠ [] → nalu.m_nalUnitType ≠ NalUnitType.NAL_UNIT_VPS) :
    (nextState st nalu).m_vpsId = st.m_vpsId := by
  by_cases h0 : nalu.fifo = []
  · simp [nextState, h0]
  · simp only [nextState, h0, h h0, if_false]
    split
    · rfl
    · split <;> rfl

/-- As long as no VPS unit is processed `m_vpsId` keeps its value. -/
theorem runState_vpsId (w : HLSWriter) (cfg : Config) :
    ∀ (pre : List NalUnit) (st0 st : State), runState w cfg st0 pre = .ok st → ¬ hasVps pre →
      st.m_vpsId = st0.m_vpsId := by
  intro pre
  induction pre with
  | nil =>
    intro st0 st h _
    simp only [runState, Except.ok.injEq] at h
    rw [h]
  | cons nalu rest ih =>
    intro st0 st h hno
    unfold runState at h
    split at h
    · simp at h
    · rename_i st1 hn
      have e := next_eq_nextState w cfg st0 st1 nalu hn
      subst e
      have hno1 : ¬ hasVps rest := fun ⟨v, hv, hv1⟩ => hno ⟨v, List.mem_cons_of_mem _ hv, hv1⟩
      rw [ih _ st h hno1]
      exact nextState_vpsId st0 nalu (fun h0 hv => hno ⟨nalu, List.mem_cons_self _ _, h0, hv⟩)

/-- C8 (amended): under target OLS 0, for a non-empty unit that is not a VPS and
is processed before any VPS unit, the synthetic VPS is built for that unit, its
OLS 0 holding exactly one layer, the unit's own layer id; the flag is left as
it was, so no layer membership test is made: if the run does not abort on the
unit, it is written exactly when the temporal and SEI predicates hold, whatever
its layer id. -/
theorem C8_synthetic_vps_per_unit (w : HLSWriter) (cfg : Config) (pre post : List NalUnit)
    (u : NalUnit) (st : State) (ht : cfg.m_targetOlsIdx = 0) (hno : ¬ hasVps pre)
    (hst : runState w cfg State.init pre = .ok st) (h0 : u.fifo ≠ [])
    (hv : u.m_nalUnitType ≠ NalUnitType.NAL_UNIT_VPS) :
    (∃ vps, olsBlock cfg st u true = .ok (true, some vps) ∧
      vps.numLayersInOls = [1] ∧ vps.layerIdInOls = [[u.m_nuhLayerId]]) ∧
    (∀ st1, (decodeUnit w cfg st u).next = .ok st1 →
      (written w cfg (pre ++ u :: post) pre.length ↔
        (temporalKeep cfg u = true ∧ seiBlock cfg u true = true))) := by
  have hs : st.m_vpsId = -1 := runState_vpsId w cfg pre State.init st hst hno
  have hO := olsBlock_noVps cfg st u (le_of_eq ht.symm) hs
  simp only [ht, ne_eq, not_true_eq_false, if_false] at hO
  refine ⟨⟨_, hO, rfl, rfl⟩, ?_⟩
  intro st1 hok
  unfold written
  rw [emittedAt_after w cfg pre st u post hst, written_iff_nonVps w cfg st st1 u _ _ h0 hv hO hok]
  simp

/-- C8 as stated fails: with no VPS and target OLS 0, the second slice has layer
id 1 while the first unit of the stream has layer id 0, yet it is written; the
synthetic VPS built for it lists layer 1, not the first unit's layer 0. -/
theorem C8_counterexample :
    (¬ hasVps [sliceUnit 0 0, sliceUnit 1 0] ∧
      isSpecialNalTypes (sliceUnit 1 0).m_nalUnitType = false ∧
      (sliceUnit 1 0).m_nuhLayerId ≠ (sliceUnit 0 0).m_nuhLayerId ∧
      written demoWriter ⟨0, -1⟩ [sliceUnit 0 0, sliceUnit 1 0] 1) ∧
    olsBlock ⟨0, -1⟩ (nextState State.init (sliceUnit 0 0)) (sliceUnit 1 0) true
      = .ok (true, some { numLayersInOls := [1], layerIdInOls := [[1]] }) :=
  ⟨by decide, by rfl⟩

/-- C8 (amended) at a concrete run: after a slice of layer 0, a slice of layer 1. -/
theorem C8_synthetic_vps_per_unit_witness :
    (∃ vps, olsBlock ⟨0, -1⟩ (nextState State.init (sliceUnit 0 0)) (sliceUnit 1 0) true
        = .ok (true, some vps) ∧
      vps.numLayersInOls = [1] ∧ vps.layerIdInOls = [[(sliceUnit 1 0).m_nuhLayerId]]) ∧
    (∀ st1, (decodeUnit demoWriter ⟨0, -1⟩ (nextState State.init (sliceUnit 0 0))
        (sliceUnit 1 0)).next = .ok st1 →
      (written demoWriter ⟨0, -1⟩ ([sliceUnit 0 0] ++ sliceUnit 1 0 :: []) [sliceUnit 0 0].length ↔
        (temporalKeep ⟨0, -1⟩ (sliceUnit 1 0) = true ∧ seiBlock ⟨0, -1⟩ (sliceUnit 1 0) true = true))) :=
  C8_synthetic_vps_per_unit demoWriter ⟨0, -1⟩ [sliceUnit 0 0] [] (sliceUnit 1 0)
    (nextState State.init (sliceUnit 0 0)) (by decide) (by decide) (by rfl) (by decide) (by decide)

/-! ## SEI gating -/

/-- Whatever a non-VPS iteration writes, the unit passed all three predicates. -/
theorem emitted_nonVps_imp (w : HLSWriter) (cfg : Config) (st : State) (nalu : NalUnit)
    (hv : nalu.m_nalUnitType ≠ NalUnitType.NAL_UNIT_VPS)
    (h : (decodeUnit w cfg st nalu).emitted ≠ []) :
    ∃ v, olsBlock cfg st nalu true = .ok (true, v) ∧ temporalKeep cfg nalu = true
      ∧ seiBlock cfg nalu true = true := by
  obtain ⟨h0, hT⟩ := emitted_temporalKeep w cfg st nalu h
  rw [decodeUnit_nonVps w cfg st nalu h0 hv] at h
  cases hO : olsBlock cfg st nalu true with
  | error e => simp [hO] at h
  | ok p =>
    obtain ⟨b, v⟩ := p
    simp only [hO, hT, Bool.true_and] at h
    by_cases hs : nalu.m_nalUnitType = NalUnitType.NAL_UNIT_SPS
    · have hsei := seiBlock_other cfg nalu (by rw [hs]; decide)
      cases b
      · simp [hs] at h
      · exact ⟨v, rfl, hT, hsei⟩
    · by_cases hp : nalu.m_nalUnitType = NalUnitType.NAL_UNIT_PPS
      · have hsei := seiBlock_other cfg nalu (by rw [hp]; decide)
        cases b
        · simp [hs, hp] at h
        · exact ⟨v, rfl, hT, hsei⟩
      · simp only [hs, hp, if_false] at h
        cases b
        · simp at h
        · cases hsei : seiBlock cfg nalu true
          · simp [hsei] at h
          · exact ⟨v, rfl, hT, rfl⟩

/-- A prefix SEI unit never aborts the run once the OLS block has passed. -/
theorem decodeUnit_sei_ok (w : HLSWriter) (cfg : Config) (st : State) (nalu : NalUnit)
    (b : Bool) (v : Option VPS) (h0 : nalu.fifo ≠ [])
    (hp : nalu.m_nalUnitType = NalUnitType.NAL_UNIT_PREFIX_SEI)
    (hO : olsBlock cfg st nalu true = .ok (b, v)) :
    (decodeUnit w cfg st nalu).next = .ok { st with unitCnt := st.unitCnt + 1 } := by
  rw [decodeUnit_nonVps w cfg st nalu h0 (by rw [hp]; decide), hO]
  simp [hp]

/-- A timing-related message clears the flag under a target OLS above 0. -/
theorem seiStep_timing (cfg : Config) (sei : SEI) (ht : 0 < cfg.m_targetOlsIdx)
    (hm : sei.payloadType = PayloadType.BUFFERING_PERIOD
      ∨ sei.payloadType = PayloadType.PICTURE_TIMING
      ∨ sei.payloadType = PayloadType.DECODING_UNIT_INFO) :
    seiStep cfg true sei = false := by
  simp only [seiStep, hm, if_true]
  simp [ht]

/-- C10: under a target OLS above 0, a prefix SEI unit that carries at least one
buffering-period, picture-timing or decoding-unit-info message is never written,
whatever its layer id, temporal id and other messages. -/
theorem C10_timing_sei_dropped (w : HLSWriter) (cfg : Config) (units : List NalUnit) (i : Nat)
    (u : NalUnit) (ht : 0 < cfg.m_targetOlsIdx) (hu : units[i]? = some u)
    (hp : u.m_nalUnitType = NalUnitType.NAL_UNIT_PREFIX_SEI)
    (hm : ∃ sei ∈ u.seis, sei.payloadType = PayloadType.BUFFERING_PERIOD
      ∨ sei.payloadType = PayloadType.PICTURE_TIMING
      ∨ sei.payloadType = PayloadType.DECODING_UNIT_INFO) :
    ¬ written w cfg units i := by
  intro hw
  obtain ⟨u1, st, hu1, _, he⟩ := emittedAt_ne_nil w cfg units i hw
  have huu : u1 = u := by rw [hu] at hu1; exact (Option.some.inj hu1).symm
  subst huu
  have hne : (decodeUnit w cfg st u1).emitted ≠ [] := by rw [← he]; exact hw
  have hv : u1.m_nalUnitType ≠ NalUnitType.NAL_UNIT_VPS := by rw [hp]; decide
  obtain ⟨_, _, _, hsei⟩ := emitted_nonVps_imp w cfg st u1 hv hne
  have ht1 : cfg.m_targetOlsIdx ≥ 0 := le_of_lt ht
  simp only [seiBlock, ht1, hp, if_true, foldl_seiStep, Bool.true_and, List.all_eq_true] at hsei
  obtain ⟨sei, hmem, hty⟩ := hm
  have h1 := hsei sei hmem
  rw [seiStep_timing cfg sei ht hty] at h1
  exact absurd h1 (by decide)

/-- C10 at a concrete run: under target OLS 1, a prefix SEI unit of a member
layer whose messages are a scalable-nesting SEI and a buffering period. -/
theorem C10_timing_sei_dropped_witness :
    ¬ written demoWriter ⟨1, -1⟩
      [vpsUnit vps3 0 0, seiUnit [nesting1, bufferingPeriod] 0 0, sliceUnit 0 0] 1 :=
  C10_timing_sei_dropped demoWriter ⟨1, -1⟩
    [vpsUnit vps3 0 0, seiUnit [nesting1, bufferingPeriod] 0 0, sliceUnit 0 0] 1
    (seiUnit [nesting1, bufferingPeriod] 0 0) (by decide) (by rfl) (by rfl)
    ⟨bufferingPeriod, by simp [seiUnit], Or.inl rfl⟩

/-- The contribution of a buffering-period message. -/
theorem seiStep_bufferingPeriod (cfg : Config) (sei : SEI)
    (hb : sei.payloadType = PayloadType.BUFFERING_PERIOD) :
    seiStep cfg true sei = !decide (cfg.m_targetOlsIdx > 0) := by
  simp [seiStep, hb]

/-- C11: under a configured target OLS (`m_targetOlsIdx >= 0`), a non-empty
prefix SEI unit whose messages are buffering-period SEIs and which passes the
temporal and the layer predicate is written if and only if the target OLS is 0. -/
theorem C11_buffering_period_gate (w : HLSWriter) (cfg : Config) (pre post : List NalUnit)
    (u : NalUnit) (st : State) (v : Option VPS) (ht : 0 ≤ cfg.m_targetOlsIdx)
    (hst : runState w cfg State.init pre = .ok st) (h0 : u.fifo ≠ [])
    (hp : u.m_nalUnitType = NalUnitType.NAL_UNIT_PREFIX_SEI)
    (hne : u.seis ≠ [])
    (hbp : ∀ sei ∈ u.seis, sei.payloadType = PayloadType.BUFFERING_PERIOD)
    (hT : temporalKeep cfg u = true) (hO : olsBlock cfg st u true = .ok (true, v)) :
    written w cfg (pre ++ u :: post) pre.length ↔ cfg.m_targetOlsIdx = 0 := by
  have hv : u.m_nalUnitType ≠ NalUnitType.NAL_UNIT_VPS := by rw [hp]; decide
  have hok := decodeUnit_sei_ok w cfg st u true v h0 hp hO
  have ht1 : cfg.m_targetOlsIdx ≥ 0 := ht
  have hS : seiBlock cfg u true = u.seis.all (fun sei => seiStep cfg true sei) := by
    simp only [seiBlock, ht1, hp, if_true, foldl_seiStep, Bool.true_and]
  unfold written
  rw [emittedAt_after w cfg pre st u post hst,
    written_iff_nonVps w cfg st _ u true v h0 hv hO hok, hS]
  simp only [hT, true_and, List.all_eq_true]
  constructor
  · intro h
    obtain ⟨sei, hmem⟩ := List.exists_mem_of_ne_nil _ hne
    have h1 := h sei hmem
    rw [seiStep_bufferingPeriod cfg sei (hbp sei hmem)] at h1
    simp only [gt_iff_lt, Bool.not_eq_true', decide_eq_false_iff_not, not_lt] at h1
    omega
  · intro h sei hmem
    rw [seiStep_bufferingPeriod cfg sei (hbp sei hmem), h]
    decide

/-- C11 at a concrete run: after a VPS with three output layer sets, a
buffering-period SEI unit of layer 0 under target OLS 0. -/
theorem C11_buffering_period_gate_witness :
    written demoWriter ⟨0, -1⟩ ([vpsUnit vps3 0 0] ++ seiUnit [bufferingPeriod] 0 0 :: [])
      [vpsUnit vps3 0 0].length ↔ (0 : Int) = 0 :=
  C11_buffering_period_gate demoWriter ⟨0, -1⟩ [vpsUnit vps3 0 0] []
    (seiUnit [bufferingPeriod] 0 0) (nextState State.init (vpsUnit vps3 0 0)) (some vps3)
    (by decide) (by rfl) (by decide) (by rfl) (by decide) (by decide) (by decide) (by rfl)

/-- Reordering a list does not change whether all its members pass a test. -/
theorem all_perm {α : Type} (p : α → Bool) (l1 l2 : List α) (h : l1.Perm l2) :
    l1.all p = l2.all p := by
  rw [Bool.eq_iff_iff, List.all_eq_true, List.all_eq_true]
  constructor
  · intro h1 x hx; exact h1 x (h.mem_iff.mpr hx)
  · intro h1 x hx; exact h1 x (h.mem_iff.mp hx)

/-- The SEI block of a prefix SEI unit under a configured target OLS. -/
theorem seiBlock_sei (cfg : Config) (nalu : NalUnit) (f : Bool) (ht : 0 ≤ cfg.m_targetOlsIdx)
    (hp : nalu.m_nalUnitType = NalUnitType.NAL_UNIT_PREFIX_SEI) :
    seiBlock cfg nalu f = (f && nalu.seis.all (fun sei => seiStep cfg true sei)) := by
  have ht1 : cfg.m_targetOlsIdx ≥ 0 := ht
  simp only [seiBlock, ht1, hp, if_true, foldl_seiStep]

/-- C12: for a prefix SEI unit under a target OLS `>= 0`, the flag after the SEI
loop is the incoming flag and the conjunction of the per-message contributions;
the unit passes SEI gating iff every message passes; reordering the messages
changes nothing in what the iteration does; and one failing message means the
unit is not written. -/
theorem C12_sei_conjunction (w : HLSWriter) (cfg : Config) (st : State) (u : NalUnit)
    (ht : 0 ≤ cfg.m_targetOlsIdx) (hp : u.m_nalUnitType = NalUnitType.NAL_UNIT_PREFIX_SEI) :
    (∀ f, seiBlock cfg u f = (f && u.seis.all (fun sei => seiStep cfg true sei))) ∧
    (seiBlock cfg u true = true ↔ ∀ sei ∈ u.seis, seiStep cfg true sei = true) ∧
    (∀ seis1 : List SEI, seis1.Perm u.seis →
      (decodeUnit w cfg st { u with seis := seis1 }).emitted = (decodeUnit w cfg st u).emitted ∧
      (decodeUnit w cfg st { u with seis := seis1 }).next = (decodeUnit w cfg st u).next) ∧
    ((∃ sei ∈ u.seis, seiStep cfg true sei = false) → (decodeUnit w cfg st u).emitted = []) := by
  have hv : u.m_nalUnitType ≠ NalUnitType.NAL_UNIT_VPS := by rw [hp]; decide
  refine ⟨fun f => seiBlock_sei cfg u f ht hp, ?_, ?_, ?_⟩
  · rw [seiBlock_sei cfg u true ht hp]
    simp
  · intro seis1 hperm
    have hS : seiBlock cfg { u with seis := seis1 } true = seiBlock cfg u true := by
      have e1 := seiBlock_sei cfg { u with seis := seis1 } true ht hp
      rw [seiBlock_sei cfg u true ht hp, e1]
      simp only [Bool.true_and]
      exact all_perm _ _ _ hperm
    have hO : olsBlock cfg st { u with seis := seis1 } true = olsBlock cfg st u true := rfl
    have hT : temporalKeep cfg { u with seis := seis1 } = temporalKeep cfg u := rfl
    have hP : passThrough { u with seis := seis1 } = passThrough u := rfl
    by_cases h0 : u.fifo = []
    · have e1 := decodeUnit_empty w cfg st { u with seis := seis1 } h0
      rw [decodeUnit_empty w cfg st u h0, e1]
      exact ⟨rfl, rfl⟩
    · have e1 := decodeUnit_nonVps w cfg st { u with seis := seis1 } h0 hv
      rw [decodeUnit_nonVps w cfg st u h0 hv, e1, hO, hS, hT, hP]
      exact ⟨rfl, rfl⟩
  · rintro ⟨sei, hmem, hfail⟩
    by_contra hne
    obtain ⟨_, _, _, hsei⟩ := emitted_nonVps_imp w cfg st u hv hne
    rw [seiBlock_sei cfg u true ht hp] at hsei
    simp only [Bool.true_and, List.all_eq_true] at hsei
    rw [hsei sei hmem] at hfail
    exact absurd hfail (by decide)

/-- C12 at a concrete unit: two messages, the buffering period failing under
target OLS 1, in either order. -/
theorem C12_sei_conjunction_witness :
    (decodeUnit demoWriter ⟨1, -1⟩ (nextState State.init (vpsUnit vps3 0 0))
      { seiPair with seis := [bufferingPeriod, nesting1] }).emitted
      = (decodeUnit demoWriter ⟨1, -1⟩ (nextState State.init (vpsUnit vps3 0 0)) seiPair).emitted ∧
    (decodeUnit demoWriter ⟨1, -1⟩ (nextState State.init (vpsUnit vps3 0 0)) seiPair).emitted = [] :=
  ⟨((C12_sei_conjunction demoWriter ⟨1, -1⟩ (nextState State.init (vpsUnit vps3 0 0)) seiPair
      (by decide) (by rfl)).2.2.1 [bufferingPeriod, nesting1] (by decide)).1,
    (C12_sei_conjunction demoWriter ⟨1, -1⟩ (nextState State.init (vpsUnit vps3 0 0)) seiPair
      (by decide) (by rfl)).2.2.2 ⟨bufferingPeriod, by decide, by decide⟩⟩

/-! ## OLS extraction disabled -/

theorem olsBlock_disabled (cfg : Config) (st : State) (nalu : NalUnit) (f : Bool)
    (ht : cfg.m_targetOlsIdx < 0) : olsBlock cfg st nalu f = .ok (f, none) := by
  have h : ¬ cfg.m_targetOlsIdx ≥ 0 := by omega
  simp only [olsBlock, h, if_false]

theorem seiBlock_disabled (cfg : Config) (nalu : NalUnit) (f : Bool)
    (ht : cfg.m_targetOlsIdx < 0) : seiBlock cfg nalu f = f := by
  have h : ¬ cfg.m_targetOlsIdx ≥ 0 := by omega
  simp only [seiBlock, h, if_false]

/-- C13: with the target OLS unset (negative, the sentinel being -1), for every
non-empty unit the OLS block and the SEI block leave the flag as it is, so the
keep decision is the temporal predicate alone: a unit on which the run does not
abort is written exactly when the temporal predicate holds, whatever its layer
id, the VPS seen and its SEI messages; and the only fatal conditions left are
the temporal id checks of `xWriteVPS` and `xWriteSPS`. -/
theorem C13_ols_disabled (w : HLSWriter) (cfg : Config) (pre post : List NalUnit) (u : NalUnit)
    (st : State) (ht : cfg.m_targetOlsIdx < 0)
    (hst : runState w cfg State.init pre = .ok st) (h0 : u.fifo ≠ []) :
    (∀ st1 f, olsBlock cfg st1 u f = .ok (f, none)) ∧
    (∀ f, seiBlock cfg u f = f) ∧
    (∀ e, (decodeUnit w cfg st u).next = .error e →
      e = Fatal.vpsTemporalId ∨ e = Fatal.spsTemporalId) ∧
    (∀ st1, (decodeUnit w cfg st u).next = .ok st1 →
      (written w cfg (pre ++ u :: post) pre.length ↔ temporalKeep cfg u = true)) := by
  refine ⟨fun st1 f => olsBlock_disabled cfg st1 u f ht, fun f => seiBlock_disabled cfg u f ht,
    ?_, ?_⟩
  · intro e he
    by_cases hv : u.m_nalUnitType = NalUnitType.NAL_UNIT_VPS
    · rw [decodeUnit_vps w cfg st u h0 hv, olsBlock_disabled cfg _ u true ht] at he
      simp only at he
      split at he
      · split at he
        · simp only [Except.error.injEq] at he; exact Or.inl he.symm
        · simp at he
      · simp at he
    · rw [decodeUnit_nonVps w cfg st u h0 hv, olsBlock_disabled cfg _ u true ht] at he
      simp only at he
      split at he
      · split at he
        · split at he
          · simp only [Except.error.injEq] at he; exact Or.inr he.symm
          · simp at he
        · simp at he
      · split at he
        · split at he <;> simp at he
        · simp at he
  · intro st1 hok
    unfold written
    rw [emittedAt_after w cfg pre st u post hst]
    by_cases hv : u.m_nalUnitType = NalUnitType.NAL_UNIT_VPS
    · rw [decodeUnit_vps w cfg st u h0 hv, olsBlock_disabled cfg _ u true ht] at hok ⊢
      simp only at hok ⊢
      by_cases hT : temporalKeep cfg u = true
      · simp only [hT, if_true] at hok ⊢
        by_cases hz : u.m_temporalId = 0
        · simp [hz, writeAnnexB_ne_nil]
        · simp [hz] at hok
      · simp [hT]
    · rw [written_iff_nonVps w cfg st st1 u true none h0 hv (olsBlock_disabled cfg st u true ht) hok,
        seiBlock_disabled cfg u true ht]
      simp

/-- C13 at a concrete run: target OLS -1, cutoff 0, after a VPS listing only
layer 0 for its OLS 0, a prefix SEI unit of layer 5 with a buffering period. -/
theorem C13_ols_disabled_witness :
    written demoWriter ⟨-1, 0⟩ ([vpsUnit vps3 0 0] ++ seiUnit [nesting1, bufferingPeriod] 5 0 :: [])
      [vpsUnit vps3 0 0].length ↔
      temporalKeep ⟨-1, 0⟩ (seiUnit [nesting1, bufferingPeriod] 5 0) = true :=
  (C13_ols_disabled demoWriter ⟨-1, 0⟩ [vpsUnit vps3 0 0] []
    (seiUnit [nesting1, bufferingPeriod] 5 0) (nextState State.init (vpsUnit vps3 0 0))
    (by decide) (by rfl) (by decide)).2.2.2
    (nextState (nextState State.init (vpsUnit vps3 0 0)) (seiUnit [nesting1, bufferingPeriod] 5 0))
    (by rfl)

/-! ## Verdict and emission -/

/-- After the iteration the store returns the unit's own record, so the
re-serialization is that of the parsed record. -/
theorem rewritten_nextState (w : HLSWriter) (st : State) (nalu : NalUnit) (h0 : nalu.fifo ≠ []) :
    rewritten w (nextState st nalu).m_parameterSetManager nalu =
      if nalu.m_nalUnitType = NalUnitType.NAL_UNIT_VPS then
        writeAnnexB (w.nalUnitEBSP NalUnitType.NAL_UNIT_VPS nalu.m_nuhLayerId
          nalu.m_temporalId (w.codeVPS nalu.vps))
      else if nalu.m_nalUnitType = NalUnitType.NAL_UNIT_SPS then
        writeAnnexB (w.nalUnitEBSP NalUnitType.NAL_UNIT_SPS nalu.m_nuhLayerId
          nalu.m_temporalId (w.codeSPS nalu.sps))
      else if nalu.m_nalUnitType = NalUnitType.NAL_UNIT_PPS then
        xWritePPS w nalu.pps nalu.m_nuhLayerId nalu.m_temporalId
      else [] := by
  by_cases hv : nalu.m_nalUnitType = NalUnitType.NAL_UNIT_VPS
  · simp [rewritten, nextState, h0, hv, afterVps, getVPS_storeVPS]
  · by_cases hs : nalu.m_nalUnitType = NalUnitType.NAL_UNIT_SPS
    · simp [rewritten, nextState, h0, hs, getSPS_storeSPS]
    · by_cases hp : nalu.m_nalUnitType = NalUnitType.NAL_UNIT_PPS
      · simp [rewritten, nextState, h0, hp, getPPS_storePPS, xWritePPS]
      · simp [rewritten, hv, hs, hp]

/-- Every iteration writes nothing, or the whole re-serialized parameter set,
or the whole framed pass-through unit. -/
theorem emitted_whole (w : HLSWriter) (cfg : Config) (st : State) (nalu : NalUnit) :
    (decodeUnit w cfg st nalu).emitted = [] ∨
    (isParameterSet nalu.m_nalUnitType = true ∧
      (decodeUnit w cfg st nalu).emitted = rewritten w (nextState st nalu).m_parameterSetManager nalu) ∨
    (isParameterSet nalu.m_nalUnitType = false ∧
      (decodeUnit w cfg st nalu).emitted = passThrough nalu) := by
  by_cases h0 : nalu.fifo = []
  · left; rw [decodeUnit_empty w cfg st nalu h0]
  rw [rewritten_nextState w st nalu h0]
  by_cases hv : nalu.m_nalUnitType = NalUnitType.NAL_UNIT_VPS
  · rw [decodeUnit_vps w cfg st nalu h0 hv]
    simp only [hv, isParameterSet, if_true]
    split
    · split
      · left; rfl
      · right; left
        refine ⟨by decide, ?_⟩
        split <;> rfl
    · left
      split <;> rfl
  · rw [decodeUnit_nonVps w cfg st nalu h0 hv]
    split
    · left; rfl
    · by_cases hs : nalu.m_nalUnitType = NalUnitType.NAL_UNIT_SPS
      · simp only [hs, isParameterSet, if_true]
        split
        · split
          · left; rfl
          · right; left; exact ⟨by decide, by simp⟩
        · left; rfl
      · by_cases hp : nalu.m_nalUnitType = NalUnitType.NAL_UNIT_PPS
        · have hps : isParameterSet nalu.m_nalUnitType = true := by simp [isParameterSet, hp]
          simp only [if_neg hs, if_pos hp, if_neg hv]
          split
          · right; left; exact ⟨hps, rfl⟩
          · left; rfl
        · simp only [hv, hs, hp, isParameterSet, if_false]
          split
          · right; right; exact ⟨by simp, rfl⟩
          · left; rfl

/-- A drop verdict means nothing is written. -/
theorem emitted_of_drop (w : HLSWriter) (cfg : Config) (st : State) (nalu : NalUnit)
    (h : keepVerdict cfg st nalu = .ok false) : (decodeUnit w cfg st nalu).emitted = [] := by
  by_cases h0 : nalu.fifo = []
  · rw [decodeUnit_empty w cfg st nalu h0]
  by_cases hv : nalu.m_nalUnitType = NalUnitType.NAL_UNIT_VPS
  · simp only [keepVerdict, olsState, hv, if_true] at h
    cases hO : olsBlock cfg (afterVps st nalu) nalu true with
    | error e => simp [hO] at h
    | ok p =>
      obtain ⟨b, v⟩ := p
      have hb := olsBlock_special cfg _ nalu b v (by simp [isSpecialNalTypes, hv]) hO
      have hsei := seiBlock_other cfg nalu (by rw [hv]; decide)
      simp only [hO, hb, hsei, Bool.and_true, Except.ok.injEq] at h
      rw [decodeUnit_vps w cfg st nalu h0 hv, hO]
      simp [h]
  · by_contra hne
    obtain ⟨v, hO, hT, hsei⟩ := emitted_nonVps_imp w cfg st nalu hv hne
    simp [keepVerdict, olsState, hv, hO, hT, hsei] at h

/-- When the iteration does not abort, the unit is written exactly when the
verdict is keep. -/
theorem written_iff_keep (w : HLSWriter) (cfg : Config) (st st1 : State) (nalu : NalUnit)
    (h0 : nalu.fifo ≠ []) (hok : (decodeUnit w cfg st nalu).next = .ok st1) :
    (decodeUnit w cfg st nalu).emitted ≠ [] ↔ keepVerdict cfg st nalu = .ok true := by
  by_cases hv : nalu.m_nalUnitType = NalUnitType.NAL_UNIT_VPS
  · simp only [keepVerdict, olsState, hv, if_true]
    rw [decodeUnit_vps w cfg st nalu h0 hv] at hok ⊢
    cases hO : olsBlock cfg (afterVps st nalu) nalu true with
    | error e =>
      rw [hO] at hok
      simp only at hok
      split at hok
      · split at hok <;> simp at hok
      · simp at hok
    | ok p =>
      obtain ⟨b, v⟩ := p
      have hb := olsBlock_special cfg _ nalu b v (by simp [isSpecialNalTypes, hv]) hO
      have hsei := seiBlock_other cfg nalu (by rw [hv]; decide)
      rw [hO] at hok
      simp only [hb, hsei, Bool.and_true, Except.ok.injEq] at hok ⊢
      by_cases hT : temporalKeep cfg nalu = true
      · simp only [hT, if_true] at hok ⊢
        by_cases hz : nalu.m_temporalId = 0
        · simp [hz, writeAnnexB_ne_nil]
        · simp [hz] at hok
      · simp [hT]
  · cases hO : olsBlock cfg st nalu true with
    | error e =>
      rw [decodeUnit_nonVps w cfg st nalu h0 hv, hO] at hok
      simp at hok
    | ok p =>
      obtain ⟨b, v⟩ := p
      rw [written_iff_nonVps w cfg st st1 nalu b v h0 hv hO hok]
      simp [keepVerdict, olsState, hv, hO, Bool.and_eq_true, and_assoc]

/-- C14: a non-empty VPS, SPS or PPS unit is emitted at most once and only as
the re-serialization of the record that the store returns under its id: what
the iteration writes is either nothing or exactly those bytes, never those
bytes followed by the captured unit; if the run does not abort on the unit and
the verdict is keep it is exactly those bytes, and with a drop verdict nothing
is written by either path. -/
theorem C14_parameter_set_emitted_once (w : HLSWriter) (cfg : Config) (st : State) (u : NalUnit)
    (h0 : u.fifo ≠ []) (hps : isParameterSet u.m_nalUnitType = true) :
    ((decodeUnit w cfg st u).emitted = [] ∨
      (decodeUnit w cfg st u).emitted = rewritten w (nextState st u).m_parameterSetManager u) ∧
    (decodeUnit w cfg st u).emitted
      ≠ rewritten w (nextState st u).m_parameterSetManager u ++ passThrough u ∧
    (∀ st1, (decodeUnit w cfg st u).next = .ok st1 → keepVerdict cfg st u = .ok true →
      (decodeUnit w cfg st u).emitted = rewritten w (nextState st u).m_parameterSetManager u ∧
      rewritten w (nextState st u).m_parameterSetManager u ≠ []) ∧
    (keepVerdict cfg st u = .ok false → (decodeUnit w cfg st u).emitted = []) := by
  have hw : (decodeUnit w cfg st u).emitted = [] ∨
      (decodeUnit w cfg st u).emitted = rewritten w (nextState st u).m_parameterSetManager u := by
    rcases emitted_whole w cfg st u with h | ⟨_, h⟩ | ⟨h, _⟩
    · exact Or.inl h
    · exact Or.inr h
    · rw [hps] at h; exact absurd h (by decide)
  refine ⟨hw, ?_, ?_, emitted_of_drop w cfg st u⟩
  · intro h
    rcases hw with h1 | h1
    · rw [h1] at h
      have := congrArg List.length h
      simp [passThrough] at this
      omega
    · rw [h1] at h
      have := congrArg List.length h
      simp [passThrough] at this
  · intro st1 hok hk
    have hne := (written_iff_keep w cfg st st1 u h0 hok).mpr hk
    rcases hw with h1 | h1
    · exact absurd h1 hne
    · exact ⟨h1, by rw [← h1]; exact hne⟩

/-- C14 at a concrete iteration: an SPS unit of layer 0 after a VPS, target OLS 0. -/
theorem C14_parameter_set_emitted_once_witness :
    (decodeUnit demoWriter ⟨0, -1⟩ (nextState State.init (vpsUnit vps3 0 0)) (spsUnit 4 0 0)).emitted
      = [0, 0, 0, 1, 0, 0, 4] :=
  ((C14_parameter_set_emitted_once demoWriter ⟨0, -1⟩ (nextState State.init (vpsUnit vps3 0 0))
    (spsUnit 4 0 0) (by decide) (by decide)).2.2.1
    (nextState (nextState State.init (vpsUnit vps3 0 0)) (spsUnit 4 0 0)) (by rfl) (by rfl)).1.trans
    (by decide)

/-- C15: what the iteration writes for a VPS, SPS or PPS unit begins with the
4-byte start code `00 00 00 01`, and neither those bytes nor the outcome of the
iteration depend on the framing statistics of the original unit. -/
theorem C15_rewrite_start_code (w : HLSWriter) (cfg : Config) (st : State) (u : NalUnit)
    (hps : isParameterSet u.m_nalUnitType = true) :
    ((decodeUnit w cfg st u).emitted ≠ [] →
      ∃ nal, (decodeUnit w cfg st u).emitted = [0, 0, 0, 1] ++ nal) ∧
    (∀ stats1 : AnnexBStats,
      (decodeUnit w cfg st { u with stats := stats1 }).emitted = (decodeUnit w cfg st u).emitted ∧
      (decodeUnit w cfg st { u with stats := stats1 }).next = (decodeUnit w cfg st u).next) := by
  constructor
  · intro hne
    have h0 : u.fifo ≠ [] := (emitted_temporalKeep w cfg st u hne).1
    rcases emitted_whole w cfg st u with h | ⟨_, h⟩ | ⟨h, _⟩
    · exact absurd h hne
    · rw [h, rewritten_nextState w st u h0]
      split
      · exact ⟨_, rfl⟩
      · split
        · exact ⟨_, rfl⟩
        · split
          · exact ⟨_, rfl⟩
          · rename_i hv hs hp
            simp [isParameterSet, hv, hs, hp] at hps
    · rw [hps] at h; exact absurd h (by decide)
  · intro stats1
    by_cases h0 : u.fifo = []
    · have e1 := decodeUnit_empty w cfg st { u with stats := stats1 } h0
      rw [decodeUnit_empty w cfg st u h0, e1]
      exact ⟨rfl, rfl⟩
    by_cases hv : u.m_nalUnitType = NalUnitType.NAL_UNIT_VPS
    · have e1 := decodeUnit_vps w cfg st { u with stats := stats1 } h0 hv
      rw [decodeUnit_vps w cfg st u h0 hv, e1]
      exact ⟨rfl, rfl⟩
    · have e1 := decodeUnit_nonVps w cfg st { u with stats := stats1 } h0 hv
      rw [decodeUnit_nonVps w cfg st u h0 hv, e1]
      have hO : olsBlock cfg st { u with stats := stats1 } true = olsBlock cfg st u true := rfl
      rw [hO]
      cases olsBlock cfg st u true with
      | error e => exact ⟨rfl, rfl⟩
      | ok p =>
        obtain ⟨b, v⟩ := p
        by_cases hs : u.m_nalUnitType = NalUnitType.NAL_UNIT_SPS
        · simp only [if_pos hs]
          exact ⟨rfl, rfl⟩
        · by_cases hp : u.m_nalUnitType = NalUnitType.NAL_UNIT_PPS
          · simp only [if_neg hs, if_pos hp]
            exact ⟨rfl, rfl⟩
          · simp [isParameterSet, hv, hs, hp] at hps

/-- C15 at a concrete iteration: a VPS unit framed with 7 leading zero bytes
and a 3-byte start code is written with the 4-byte start code. -/
theorem C15_rewrite_start_code_witness :
    ∃ nal, (decodeUnit demoWriter ⟨0, -1⟩ State.init
      { vpsUnit vps3 0 0 with stats := ⟨7, 0, 3⟩ }).emitted = [0, 0, 0, 1] ++ nal :=
  (C15_rewrite_start_code demoWriter ⟨0, -1⟩ State.init
    { vpsUnit vps3 0 0 with stats := ⟨7, 0, 3⟩ } (by decide)).1 (by decide)

/-- A run over a prefix that does not abort, continued over the rest. -/
theorem decodeLoop_append (w : HLSWriter) (cfg : Config) :
    ∀ (pre rest : List NalUnit) (st st1 : State), runState w cfg st pre = .ok st1 →
      decodeLoop w cfg st (pre ++ rest) =
        ⟨(decodeLoop w cfg st pre).trace ++ (decodeLoop w cfg st1 rest).trace,
          (decodeLoop w cfg st1 rest).fatal⟩ := by
  intro pre
  induction pre with
  | nil =>
    intro rest st st1 h
    simp only [runState, Except.ok.injEq] at h
    subst h
    simp [decodeLoop]
  | cons nalu tl ih =>
    intro rest st st1 h
    unfold runState at h
    split at h
    · simp at h
    · rename_i st2 he
      have e := ih rest st2 st1 h
      simp only [List.cons_append]
      rw [decodeLoop, decodeLoop]
      simp only [he, e, List.cons_append]

/-- The trace of a run over a single unit. -/
theorem decodeLoop_single_trace (w : HLSWriter) (cfg : Config) (st : State) (u : NalUnit) :
    (decodeLoop w cfg st [u]).trace = [(decodeUnit w cfg st u).emitted] := by
  unfold decodeLoop
  split
  · rfl
  · simp [decodeLoop]

/-- The output after one more unit is the output before, then what the
iteration emitted. -/
theorem output_snoc (w : HLSWriter) (cfg : Config) (pre : List NalUnit) (u : NalUnit) (st : State)
    (hst : runState w cfg State.init pre = .ok st) :
    (decode w cfg (pre ++ [u])).output = (decode w cfg pre).output ++ (decodeUnit w cfg st u).emitted := by
  unfold decode Run.output
  rw [decodeLoop_append w cfg pre [u] State.init st hst, decodeLoop_single_trace]
  simp

/-- C17: processing one more unit appends to the output exactly what the
iteration emitted; with a drop verdict that is nothing, so the output after
the unit equals the output before; and in every case what is appended is
nothing, or the whole re-serialized parameter set behind its start code, or the
whole pass-through unit (start code and all captured bytes). -/
theorem C17_drop_writes_nothing (w : HLSWriter) (cfg : Config) (pre : List NalUnit) (u : NalUnit)
    (st : State) (hst : runState w cfg State.init pre = .ok st) :
    (decode w cfg (pre ++ [u])).output
      = (decode w cfg pre).output ++ (decodeUnit w cfg st u).emitted ∧
    (keepVerdict cfg st u = .ok false →
      (decode w cfg (pre ++ [u])).output = (decode w cfg pre).output) ∧
    ((decodeUnit w cfg st u).emitted = [] ∨
      (isParameterSet u.m_nalUnitType = true ∧ (decodeUnit w cfg st u).emitted
        = rewritten w (nextState st u).m_parameterSetManager u) ∨
      (isParameterSet u.m_nalUnitType = false ∧ (decodeUnit w cfg st u).emitted
        = List.replicate (u.stats.m_numLeadingZero8BitsBytes + u.stats.m_numZeroByteBytes
            + u.stats.m_numStartCodePrefixBytes - 1) 0 ++ [1] ++ u.fifo)) := by
  refine ⟨output_snoc w cfg pre u st hst, ?_, emitted_whole w cfg st u⟩
  intro hk
  rw [output_snoc w cfg pre u st hst, emitted_of_drop w cfg st u hk, List.append_nil]

/-- C17 at a concrete run: cutoff 0, a slice of temporal id 2 after a slice of
temporal id 0 leaves the output as it was. -/
theorem C17_drop_writes_nothing_witness :
    (decode demoWriter ⟨-1, 0⟩ ([sliceUnit 0 0] ++ [sliceUnit 0 2])).output
      = (decode demoWriter ⟨-1, 0⟩ [sliceUnit 0 0]).output :=
  (C17_drop_writes_nothing demoWriter ⟨-1, 0⟩ [sliceUnit 0 0] (sliceUnit 0 2)
    (nextState State.init (sliceUnit 0 0)) (by rfl)).2.1 (by rfl)

/-- C18: an empty unit is not fatal: its iteration writes nothing and returns
the running state (active VPS id, store, unit counter) as it was, and the run
goes on with the next unit, so the run over a stream with the empty unit has
the output and the fatal condition of the run over the stream without it, for
every configuration. -/
theorem C18_empty_unit_skipped (w : HLSWriter) (cfg : Config) (pre rest : List NalUnit)
    (u : NalUnit) (st : State) (h0 : u.fifo = [])
    (hst : runState w cfg State.init pre = .ok st) :
    decodeUnit w cfg st u = ⟨[], .ok st⟩ ∧
    runState w cfg State.init (pre ++ [u]) = .ok st ∧
    (decode w cfg (pre ++ u :: rest)).trace
      = (decode w cfg pre).trace ++ [] :: (decodeLoop w cfg st rest).trace ∧
    (decode w cfg (pre ++ u :: rest)).output = (decode w cfg (pre ++ rest)).output ∧
    (decode w cfg (pre ++ u :: rest)).fatal = (decode w cfg (pre ++ rest)).fatal := by
  have hU := decodeUnit_empty w cfg st u h0
  have hL : decodeLoop w cfg st (u :: rest)
      = ⟨[] :: (decodeLoop w cfg st rest).trace, (decodeLoop w cfg st rest).fatal⟩ := by
    rw [decodeLoop, hU]
  have hR : ∀ (l : List NalUnit) (s s1 : State), runState w cfg s l = .ok s1 →
      runState w cfg s (l ++ [u]) = .ok s1 := by
    intro l
    induction l with
    | nil =>
      intro s s1 h
      simp only [runState, Except.ok.injEq] at h
      subst h
      simp [runState, decodeUnit_empty w cfg s u h0]
    | cons a tl ih =>
      intro s s1 h
      unfold runState at h
      split at h
      · simp at h
      · rename_i s2 he
        simp only [List.cons_append, runState, he]
        exact ih s2 s1 h
  refine ⟨hU, hR pre State.init st hst, ?_, ?_, ?_⟩
  · unfold decode
    rw [decodeLoop_append w cfg pre (u :: rest) State.init st hst, hL]
  · unfold decode Run.output
    rw [decodeLoop_append w cfg pre (u :: rest) State.init st hst, hL,
      decodeLoop_append w cfg pre rest State.init st hst]
    simp
  · unfold decode
    rw [decodeLoop_append w cfg pre (u :: rest) State.init st hst, hL,
      decodeLoop_append w cfg pre rest State.init st hst]

/-- C18 at a concrete run: target OLS 1, no VPS seen, an empty unit alone. -/
theorem C18_empty_unit_skipped_witness :
    decodeUnit demoWriter ⟨1, -1⟩ State.init emptyUnit = ⟨[], .ok State.init⟩ ∧
    (decode demoWriter ⟨1, -1⟩ ([] ++ emptyUnit :: [])).fatal = none :=
  ⟨(C18_empty_unit_skipped demoWriter ⟨1, -1⟩ [] [] emptyUnit State.init (by rfl) (by rfl)).1,
    by decide⟩

/-! ## Fatal conditions -/

/-- A run that gets through its units has one trace entry per unit. -/
theorem trace_length_of_ok (w : HLSWriter) (cfg : Config) :
    ∀ (pre : List NalUnit) (st st1 : State), runState w cfg st pre = .ok st1 →
      (decodeLoop w cfg st pre).trace.length = pre.length := by
  intro pre
  induction pre with
  | nil => intro st st1 _; simp [decodeLoop]
  | cons nalu tl ih =>
    intro st st1 h
    unfold runState at h
    split at h
    · simp at h
    · rename_i st2 he
      rw [decodeLoop]
      simp only [he, List.length_cons, ih st2 st1 h]

/-- A run whose unit after the prefix aborts: the trace ends with that unit and
the fatal condition is reported. -/
theorem decode_abort_at (w : HLSWriter) (cfg : Config) (pre post : List NalUnit) (u : NalUnit)
    (st : State) (e : Fatal) (hst : runState w cfg State.init pre = .ok st)
    (he : (decodeUnit w cfg st u).next = .error e) :
    decode w cfg (pre ++ u :: post)
      = ⟨(decode w cfg pre).trace ++ [(decodeUnit w cfg st u).emitted], some e⟩ := by
  unfold decode
  rw [decodeLoop_append w cfg pre (u :: post) State.init st hst]
  have : decodeLoop w cfg st (u :: post) = ⟨[(decodeUnit w cfg st u).emitted], some e⟩ := by
    rw [decodeLoop]
    simp only [he]
  rw [this]

/-- After an abort at the unit following the prefix, no later position has a
trace entry, and the aborting unit's entry is what its iteration emitted. -/
theorem emittedAt_abort (w : HLSWriter) (cfg : Config) (pre post : List NalUnit) (u : NalUnit)
    (st : State) (e : Fatal) (hst : runState w cfg State.init pre = .ok st)
    (he : (decodeUnit w cfg st u).next = .error e) (i : Nat) (hi : pre.length ≤ i) :
    emittedAt w cfg (pre ++ u :: post) i
      = if i = pre.length then (decodeUnit w cfg st u).emitted else [] := by
  have hlen : (decode w cfg pre).trace.length = pre.length :=
    trace_length_of_ok w cfg pre State.init st hst
  unfold emittedAt
  rw [decode_abort_at w cfg pre post u st e hst he, List.getD_eq_getElem?_getD]
  by_cases h : i = pre.length
  · subst h
    simp only [if_true]
    rw [List.getElem?_append_right (by omega)]
    simp [hlen]
  · simp only [h, if_false]
    rw [List.getElem?_eq_none (by simp [hlen]; omega)]
    rfl

/-- C20 (amended): when the VPS that is active as a non-empty unit reaches the
OLS block has `numOutputLayerSets <= m_targetOlsIdx`, the run aborts on the
range check while processing that unit, unless the unit is a VPS unit with a
non-zero temporal id that passes the temporal predicate (then `xWriteVPS`
aborts first). Nothing is written for the unit except, for a VPS unit that
passes the temporal predicate, its re-serialization; no later unit is written. -/
theorem C20_ols_range_fatal (w : HLSWriter) (cfg : Config) (pre post : List NalUnit)
    (u : NalUnit) (st : State) (vps1 : VPS) (hst : runState w cfg State.init pre = .ok st)
    (h0 : u.fifo ≠ []) (hact : activeVps (olsState st u) = some vps1)
    (hr : (vps1.numOutputLayerSets : Int) ≤ cfg.m_targetOlsIdx)
    (hchk : ¬ (u.m_nalUnitType = NalUnitType.NAL_UNIT_VPS ∧ temporalKeep cfg u = true
      ∧ u.m_temporalId ≠ 0)) :
    (decode w cfg (pre ++ u :: post)).fatal = some Fatal.olsRange ∧
    (decode w cfg (pre ++ u :: post)).trace.length = pre.length + 1 ∧
    emittedAt w cfg (pre ++ u :: post) pre.length
      = (if u.m_nalUnitType = NalUnitType.NAL_UNIT_VPS ∧ temporalKeep cfg u = true
          then rewritten w (nextState st u).m_parameterSetManager u else []) ∧
    (∀ i, pre.length < i → ¬ written w cfg (pre ++ u :: post) i) := by
  have ht : 0 ≤ cfg.m_targetOlsIdx := le_trans (Int.ofNat_nonneg _) hr
  have hO : olsBlock cfg (olsState st u) u true = .error Fatal.olsRange := by
    rw [olsBlock_active cfg _ u vps1 ht hact, if_pos hr]
  have hU : decodeUnit w cfg st u
      = ⟨if u.m_nalUnitType = NalUnitType.NAL_UNIT_VPS ∧ temporalKeep cfg u = true
          then rewritten w (nextState st u).m_parameterSetManager u else [],
        .error Fatal.olsRange⟩ := by
    by_cases hv : u.m_nalUnitType = NalUnitType.NAL_UNIT_VPS
    · simp only [olsState, hv, if_true] at hO
      rw [decodeUnit_vps w cfg st u h0 hv, hO, rewritten_nextState w st u h0]
      by_cases hT : temporalKeep cfg u = true
      · have hz : u.m_temporalId = 0 := by
          by_contra hz
          exact hchk ⟨hv, hT, hz⟩
        simp [hv, hT, hz]
      · simp [hv, hT]
    · simp only [olsState, hv, if_false] at hO
      rw [decodeUnit_nonVps w cfg st u h0 hv, hO]
      simp [hv]
  have hE : (decodeUnit w cfg st u).next = .error Fatal.olsRange := by rw [hU]
  have hlen : (decode w cfg pre).trace.length = pre.length :=
    trace_length_of_ok w cfg pre State.init st hst
  refine ⟨?_, ?_, ?_, ?_⟩
  · rw [decode_abort_at w cfg pre post u st _ hst hE]
  · rw [decode_abort_at w cfg pre post u st _ hst hE]
    simp [hlen]
  · rw [emittedAt_abort w cfg pre post u st _ hst hE pre.length (le_refl _), if_pos rfl, hU]
  · intro i hi hw
    apply hw
    rw [emittedAt_abort w cfg pre post u st _ hst hE i (le_of_lt hi), if_neg (by omega)]

/-- C20 as stated fails: the VPS unit declares 3 output layer sets, the target
OLS is 5 and there is no cutoff, but the unit has temporal id 1, so the run
aborts on the temporal id check of `xWriteVPS`, not on the range check, while
processing the first unit for which that VPS is active. -/
theorem C20_counterexample :
    (vps3.numOutputLayerSets : Int) ≤ 5 ∧
    activeVps (olsState State.init (vpsUnit vps3 0 1)) = some vps3 ∧
    (decode demoWriter ⟨5, -1⟩ [vpsUnit vps3 0 1, sliceUnit 0 0]).fatal = some Fatal.vpsTemporalId ∧
    (decode demoWriter ⟨5, -1⟩ [vpsUnit vps3 0 1, sliceUnit 0 0]).fatal ≠ some Fatal.olsRange := by
  decide

/-- C20 (amended) at a concrete run: a VPS unit with 3 output layer sets under
target OLS 3, followed by a slice: the VPS is re-serialized, then the run aborts. -/
theorem C20_ols_range_fatal_witness :
    (decode demoWriter ⟨3, -1⟩ ([] ++ vpsUnit vps3 0 0 :: [sliceUnit 0 0])).fatal
      = some Fatal.olsRange :=
  (C20_ols_range_fatal demoWriter ⟨3, -1⟩ [] [sliceUnit 0 0] (vpsUnit vps3 0 0) State.init vps3
    (by rfl) (by decide) (by decide) (by decide) (by decide)).1

/-! ## Order of the output -/

/-- A list of byte strings joined, split around the entry at position `i`. -/
theorem flatten_split (l : List (List Nat)) :
    ∀ i, l.flatten = (l.take i).flatten ++ l.getD i [] ++ (l.drop (i + 1)).flatten := by
  induction l with
  | nil => intro i; simp
  | cons x xs ih =>
    intro i
    cases i with
    | zero => simp
    | succ j =>
      simp only [List.flatten_cons, List.take_succ_cons, List.getD_cons_succ, List.drop_succ_cons]
      rw [ih j]
      simp [List.append_assoc]

/-- Joining the entries read by position, over at least the length of the list,
gives the joined list. -/
theorem flatten_range (l : List (List Nat)) :
    ∀ n, l.length ≤ n → ((List.range n).map (fun i => l.getD i [])).flatten = l.flatten := by
  induction l using List.reverseRecOn with
  | nil =>
    intro n _
    induction n with
    | zero => rfl
    | succ n ih =>
      rw [List.range_succ, List.map_append, List.flatten_append]
      simp
  | append_singleton xs x ih =>
    intro n hn
    induction n with
    | zero => simp at hn
    | succ n ihn =>
      rw [List.range_succ, List.map_append, List.flatten_append]
      by_cases h : xs.length = n
      · have h1 : ((List.range n).map (fun i => (xs ++ [x]).getD i [])) =
            ((List.range n).map (fun i => xs.getD i [])) := by
          apply List.map_congr_left
          intro i hi
          rw [List.mem_range] at hi
          simp only [List.getD_eq_getElem?_getD]
          rw [List.getElem?_append_left (by omega)]
        rw [h1, ih n (by omega)]
        simp [List.getD_eq_getElem?_getD, ← h]
      · have hlen : (xs ++ [x]).length ≤ n := by
          simp only [List.length_append, List.length_singleton] at hn ⊢
          omega
        rw [ihn hlen]
        simp only [List.map_cons, List.map_nil, List.flatten_cons, List.flatten_nil,
          List.append_nil, List.getD_eq_getElem?_getD]
        rw [List.getElem?_eq_none hlen]
        simp

/-- A run has at most one trace entry per unit. -/
theorem trace_length_le (w : HLSWriter) (cfg : Config) :
    ∀ (units : List NalUnit) (st : State), (decodeLoop w cfg st units).trace.length ≤ units.length := by
  intro units
  induction units with
  | nil => intro st; simp [decodeLoop]
  | cons nalu tl ih =>
    intro st
    rw [decodeLoop]
    split
    · simp
    · simp only [List.length_cons]
      have := ih ‹State›
      omega

/-- C21: the output is the concatenation, in input order, of what the run
emitted for each unit; for positions `i < j` the bytes emitted for unit `i` come
before those emitted for unit `j`; and every trace entry is the emission of the
iteration on the input unit at that position, which is nothing, that unit
re-serialized, or that unit passed through. -/
theorem C21_output_in_input_order (w : HLSWriter) (cfg : Config) (units : List NalUnit) :
    (decode w cfg units).output
      = ((List.range units.length).map (fun i => emittedAt w cfg units i)).flatten ∧
    (∀ i j : Nat, i < j → ∃ X Y Z, (decode w cfg units).output
      = X ++ emittedAt w cfg units i ++ Y ++ emittedAt w cfg units j ++ Z) ∧
    (decode w cfg units).trace.length ≤ units.length ∧
    (∀ (i : Nat) (bs : List Nat), (decode w cfg units).trace[i]? = some bs →
      ∃ u st, units[i]? = some u ∧ bs = (decodeUnit w cfg st u).emitted ∧
        (bs = [] ∨ bs = rewritten w (nextState st u).m_parameterSetManager u
          ∨ bs = passThrough u)) := by
  have hlen : (decode w cfg units).trace.length ≤ units.length :=
    trace_length_le w cfg units State.init
  refine ⟨?_, ?_, hlen, ?_⟩
  · unfold Run.output emittedAt
    exact (flatten_range _ _ hlen).symm
  · intro i j hij
    unfold Run.output emittedAt
    generalize (decode w cfg units).trace = l
    have h1 := flatten_split l i
    have h2 := flatten_split (l.drop (i + 1)) (j - i - 1)
    have h3 : (l.drop (i + 1)).getD (j - i - 1) [] = l.getD j [] := by
      simp only [List.getD_eq_getElem?_getD, List.getElem?_drop]
      congr 2
      omega
    rw [h3] at h2
    refine ⟨(l.take i).flatten, ((l.drop (i + 1)).take (j - i - 1)).flatten,
      ((l.drop (i + 1)).drop (j - i - 1 + 1)).flatten, ?_⟩
    rw [h1, h2]
    simp [List.append_assoc]
  · intro i bs h
    obtain ⟨u, st, hu, _, hb⟩ := trace_getElem_some w cfg units State.init i bs h
    refine ⟨u, st, hu, hb, ?_⟩
    rw [hb]
    rcases emitted_whole w cfg st u with h1 | ⟨_, h1⟩ | ⟨_, h1⟩
    · exact Or.inl h1
    · exact Or.inr (Or.inl h1)
    · exact Or.inr (Or.inr h1)

/-- C21 at a concrete run: a VPS, a dropped slice of layer 2 and a slice of
layer 0 under target OLS 0; the output is the VPS re-serialized, then the slice. -/
theorem C21_output_in_input_order_witness :
    (decode demoWriter ⟨0, -1⟩ [vpsUnit vps3 0 0, sliceUnit 2 0, sliceUnit 0 0]).output
      = [0, 0, 0, 1, 0, 0, 1] ++ [] ++ [0, 0, 1, 0, 1, 128] :=
  (C21_output_in_input_order demoWriter ⟨0, -1⟩
    [vpsUnit vps3 0 0, sliceUnit 2 0, sliceUnit 0 0]).1.trans (by decide)

/-! ## Pass-through of a whole stream -/

/-- A run that gets through a concatenation gets through its first part. -/
theorem runState_append (w : HLSWriter) (cfg : Config) :
    ∀ (a b : List NalUnit) (st0 st : State), runState w cfg st0 (a ++ b) = .ok st →
      ∃ s1, runState w cfg st0 a = .ok s1 ∧ runState w cfg s1 b = .ok st := by
  intro a
  induction a with
  | nil => intro b st0 st h; exact ⟨st0, rfl, by simpa using h⟩
  | cons x xs ih =>
    intro b st0 st h
    simp only [List.cons_append] at h
    unfold runState at h
    split at h
    · simp at h
    · rename_i s2 he
      obtain ⟨s1, h1, h2⟩ := ih b s2 st h
      refine ⟨s1, ?_, h2⟩
      unfold runState
      simp only [he, h1]

theorem hasVps_append (a b : List NalUnit) : hasVps (a ++ b) ↔ hasVps a ∨ hasVps b := by
  unfold hasVps
  constructor
  · rintro ⟨v, hv, h⟩
    rcases List.mem_append.mp hv with h1 | h1
    · exact Or.inl ⟨v, h1, h⟩
    · exact Or.inr ⟨v, h1, h⟩
  · rintro (⟨v, hv, h⟩ | ⟨v, hv, h⟩)
    · exact ⟨v, List.mem_append_left _ hv, h⟩
    · exact ⟨v, List.mem_append_right _ hv, h⟩

/-- The active VPS id is unset exactly as long as no VPS unit has been processed. -/
theorem vpsId_unset_iff (w : HLSWriter) (cfg : Config) (pre : List NalUnit) (st : State)
    (hst : runState w cfg State.init pre = .ok st) : st.m_vpsId = -1 ↔ ¬ hasVps pre := by
  constructor
  · intro h hv
    have hs := activeVps_isSome w cfg pre State.init st hst (Or.inr hv)
    simp [activeVps, h] at hs
  · intro h
    rw [runState_vpsId w cfg pre State.init st hst h]
    rfl

/-- C23: after any prefix that the run gets through, `m_vpsId` is -1 exactly
when the prefix holds no non-empty VPS unit; it then equals the id of the last
non-empty VPS unit of the prefix; and once set it stays set over every longer
prefix, for every configuration. -/
theorem C23_active_vps_id (w : HLSWriter) (cfg : Config) (pre : List NalUnit) (st : State)
    (hst : runState w cfg State.init pre = .ok st) :
    (st.m_vpsId = -1 ↔ ¬ hasVps pre) ∧
    (∀ (pre1 post1 : List NalUnit) (v : NalUnit), pre = pre1 ++ v :: post1 → v.fifo ≠ [] →
      v.m_nalUnitType = NalUnitType.NAL_UNIT_VPS → ¬ hasVps post1 →
      st.m_vpsId = (v.vps.vpsId : Int)) ∧
    (∀ (more : List NalUnit) (st2 : State), runState w cfg State.init (pre ++ more) = .ok st2 →
      st.m_vpsId ≠ -1 → st2.m_vpsId ≠ -1) := by
  refine ⟨vpsId_unset_iff w cfg pre st hst, ?_, ?_⟩
  · intro pre1 post1 v hpre h0 hv hno
    subst hpre
    obtain ⟨s1, _, h2⟩ := runState_append w cfg pre1 (v :: post1) State.init st hst
    unfold runState at h2
    split at h2
    · simp at h2
    · rename_i s2 he
      have e := next_eq_nextState w cfg s1 s2 v he
      subst e
      rw [runState_vpsId w cfg post1 _ st h2 hno]
      simp [nextState, h0, hv, afterVps]
  · intro more st2 h2 hset
    have h1 := (vpsId_unset_iff w cfg pre st hst).not.mp hset
    have h3 : hasVps (pre ++ more) := (hasVps_append pre more).mpr (Or.inl (not_not.mp h1))
    exact (vpsId_unset_iff w cfg (pre ++ more) st2 h2).not.mpr (not_not.mpr h3)

/-- C23 at a concrete run: target OLS unset, cutoff 0; a VPS with id 1, then a
VPS with id 2 and temporal id 1 that the cutoff drops, then a slice. -/
theorem C23_active_vps_id_witness :
    (nextState (nextState (nextState State.init (vpsUnit vps3 0 0)) (vpsUnit vps2 0 1))
      (sliceUnit 0 0)).m_vpsId = 2 :=
  (C23_active_vps_id demoWriter ⟨-1, 0⟩ [vpsUnit vps3 0 0, vpsUnit vps2 0 1, sliceUnit 0 0]
    (nextState (nextState (nextState State.init (vpsUnit vps3 0 0)) (vpsUnit vps2 0 1))
      (sliceUnit 0 0)) (by rfl)).2.1 [vpsUnit vps3 0 0] [sliceUnit 0 0] (vpsUnit vps2 0 1)
    (by rfl) (by decide) (by rfl) (by decide)

/-! ## Refinement of the reference -/

theorem refSeiMessage_eq (cfg : Config) (sei : SEI) :
    refSeiMessage cfg sei = seiStep cfg true sei := by
  simp only [refSeiMessage, seiStep, Bool.true_and]
  by_cases hn : sei.payloadType = PayloadType.SCALABLE_NESTING
  · by_cases hf : sei.m_nestingOlsFlag = true <;> simp [hn, hf]
  · simp [hn]

theorem refSei_eq (cfg : Config) (nalu : NalUnit) : refSei cfg nalu = seiBlock cfg nalu true := by
  simp only [refSei, seiBlock]
  by_cases ht : cfg.m_targetOlsIdx ≥ 0
  · by_cases hp : nalu.m_nalUnitType = NalUnitType.NAL_UNIT_PREFIX_SEI
    · simp only [ht, hp, and_self, if_true, foldl_seiStep, Bool.true_and]
      congr 1
      funext sei
      exact refSeiMessage_eq cfg sei
    · simp [ht, hp]
  · simp [ht]

/-- In a state where a set `m_vpsId` designates a stored VPS, the OLS block is
the reference membership predicate. -/
theorem olsBlock_eq_ref (cfg : Config) (st : State) (nalu : NalUnit)
    (hinv : (olsState st nalu).m_vpsId ≠ -1 → (activeVps (olsState st nalu)).isSome = true) :
    refOlsMembership cfg st nalu =
      match olsBlock cfg (olsState st nalu) nalu true with
      | .error e => .error e
      | .ok (b, _) => .ok b := by
  unfold refOlsMembership
  by_cases ht : cfg.m_targetOlsIdx < 0
  · rw [olsBlock_disabled cfg _ nalu true ht]
    simp [ht]
  · have ht0 : 0 ≤ cfg.m_targetOlsIdx := by omega
    simp only [ht, if_false]
    by_cases hs : (olsState st nalu).m_vpsId = -1
    · have ha : activeVps (olsState st nalu) = none := by simp [activeVps, hs]
      rw [ha, olsBlock_noVps cfg _ nalu ht0 hs]
      by_cases hz : cfg.m_targetOlsIdx = 0
      · simp [hz, VPS.setLayerIdInOls, VPS.setNumLayersInOls, VPS.getLayerIdsInOls, writeAt]
      · simp [hz]
    · obtain ⟨vps, ha⟩ := Option.isSome_iff_exists.mp (hinv hs)
      rw [ha, olsBlock_active cfg _ nalu vps ht0 ha]
      simp only
      split <;> rfl

/-- A state that a run has reached designates a stored VPS whenever `m_vpsId` is set. -/
theorem olsState_inv (w : HLSWriter) (cfg : Config) (pre : List NalUnit) (st : State)
    (nalu : NalUnit) (hst : runState w cfg State.init pre = .ok st) :
    (olsState st nalu).m_vpsId ≠ -1 → (activeVps (olsState st nalu)).isSome = true := by
  intro hs
  by_cases hv : nalu.m_nalUnitType = NalUnitType.NAL_UNIT_VPS
  · have h : ((nalu.vps.vpsId : Int) = -1) = False := by
      simp only [eq_iff_iff, iff_false]; omega
    simp [olsState, hv, activeVps, afterVps, h, getVPS_storeVPS]
  · simp only [olsState, hv, if_false] at hs ⊢
    have h1 := (vpsId_unset_iff w cfg pre st hst).not.mp hs
    exact activeVps_isSome w cfg pre State.init st hst (Or.inr (not_not.mp h1))

/-- C24: for every non-empty unit that the run reaches and on which it does not
abort, the bytes emitted are those of the evaluate-all-then-decide reference:
`keep` is the conjunction of the temporal, OLS membership and SEI predicates;
nothing is emitted when `keep` is false, the re-serialized record for a VPS,
SPS or PPS, the pass-through framing and payload otherwise. -/
theorem C24_refines_reference (w : HLSWriter) (cfg : Config) (pre : List NalUnit) (u : NalUnit)
    (st st1 : State) (hst : runState w cfg State.init pre = .ok st) (h0 : u.fifo ≠ [])
    (hok : (decodeUnit w cfg st u).next = .ok st1) :
    referenceEmit w cfg st u = .ok (decodeUnit w cfg st u).emitted := by
  have hR := olsBlock_eq_ref cfg st u (olsState_inv w cfg pre st u hst)
  have hK := written_iff_keep w cfg st st1 u h0 hok
  have hD := emitted_of_drop w cfg st u
  have hT : refTemporal cfg u = temporalKeep cfg u := rfl
  simp only [keepVerdict] at hK hD
  cases hO : olsBlock cfg (olsState st u) u true with
  | error e =>
    rw [hO] at hK
    by_cases hne : (decodeUnit w cfg st u).emitted = []
    · exfalso
      by_cases hv : u.m_nalUnitType = NalUnitType.NAL_UNIT_VPS
      · simp only [olsState, hv, if_true] at hO
        rw [decodeUnit_vps w cfg st u h0 hv, hO] at hok
        simp only at hok
        split at hok
        · split at hok <;> simp at hok
        · simp at hok
      · simp only [olsState, hv, if_false] at hO
        rw [decodeUnit_nonVps w cfg st u h0 hv, hO] at hok
        simp at hok
    · exact absurd (hK.mp hne) (by simp)
  | ok p =>
    obtain ⟨b, v⟩ := p
    rw [hO] at hK hD hR
    simp only at hK hD hR
    simp only [referenceEmit, hR, hT, refSei_eq]
    congr 1
    by_cases hk : (temporalKeep cfg u && b && seiBlock cfg u true) = true
    · have hne := hK.mpr (by rw [hk])
      simp only [hk, if_true]
      rcases emitted_whole w cfg st u with h1 | ⟨hp, h1⟩ | ⟨hp, h1⟩
      · exact absurd h1 hne
      · simp [hp, h1]
      · simp [hp, h1]
    · simp only [hk, if_false]
      simp only [Bool.not_eq_true] at hk
      exact (hD (by rw [hk])).symm

/-- C24 at a concrete run: after a VPS, a PPS unit of layer 1 under target OLS 1. -/
theorem C24_refines_reference_witness :
    referenceEmit demoWriter ⟨1, -1⟩ (nextState State.init (vpsUnit vps3 0 0))
      (plainUnit NalUnitType.NAL_UNIT_PPS 1 0)
      = .ok (decodeUnit demoWriter ⟨1, -1⟩ (nextState State.init (vpsUnit vps3 0 0))
        (plainUnit NalUnitType.NAL_UNIT_PPS 1 0)).emitted :=
  C24_refines_reference demoWriter ⟨1, -1⟩ [vpsUnit vps3 0 0]
    (plainUnit NalUnitType.NAL_UNIT_PPS 1 0) (nextState State.init (vpsUnit vps3 0 0))
    (nextState (nextState State.init (vpsUnit vps3 0 0)) (plainUnit NalUnitType.NAL_UNIT_PPS 1 0))
    (by rfl) (by decide) (by rfl)

/-! ## The VPS used by the OLS block -/

/-- Units that are not VPS units leave the active VPS as it is. -/
theorem runState_activeVps (w : HLSWriter) (cfg : Config) :
    ∀ (mid : List NalUnit) (s st : State), runState w cfg s mid = .ok st → ¬ hasVps mid →
      activeVps st = activeVps s := by
  intro mid
  induction mid with
  | nil =>
    intro s st h _
    simp only [runState, Except.ok.injEq] at h
    rw [h]
  | cons x xs ih =>
    intro s st h hno
    unfold runState at h
    split at h
    · simp at h
    · rename_i s2 he
      have e := next_eq_nextState w cfg s s2 x he
      subst e
      have hno1 : ¬ hasVps xs := fun ⟨v, hv, hv1⟩ => hno ⟨v, List.mem_cons_of_mem _ hv, hv1⟩
      rw [ih _ st h hno1]
      apply activeVps_nextState_other
      by_cases h0 : x.fifo = []
      · exact Or.inl h0
      · exact Or.inr (fun hh => hno ⟨x, List.mem_cons_self _ _, h0, hh⟩)

/-- The active VPS when a VPS unit reaches the OLS block is the one it carries. -/
theorem activeVps_olsState_vps (s : State) (x : NalUnit)
    (hx : x.m_nalUnitType = NalUnitType.NAL_UNIT_VPS) :
    activeVps (olsState s x) = some x.vps := by
  have h : ((x.vps.vpsId : Int) = -1) = False := by
    simp only [eq_iff_iff, iff_false]; omega
  simp [olsState, hx, activeVps, afterVps, h, getVPS_storeVPS]

/-- C25: under a target OLS `>= 0`, after a non-empty VPS unit `v` (and units
that are not VPS units) the active VPS is the record `v` carried, and the OLS
block of every later unit range-checks and filters against that record's
`numOutputLayerSets` and layer list; a VPS unit itself is range-checked against
the record it carries, whatever VPS was active before it. -/
theorem C25_ols_uses_current_vps (w : HLSWriter) (cfg : Config) (pre mid : List NalUnit)
    (v : NalUnit) (st : State) (ht : 0 ≤ cfg.m_targetOlsIdx)
    (hst : runState w cfg State.init (pre ++ v :: mid) = .ok st)
    (h0 : v.fifo ≠ []) (hv : v.m_nalUnitType = NalUnitType.NAL_UNIT_VPS) (hno : ¬ hasVps mid) :
    activeVps st = some v.vps ∧
    (∀ u : NalUnit, u.m_nalUnitType ≠ NalUnitType.NAL_UNIT_VPS →
      olsBlock cfg st u true =
        if (v.vps.numOutputLayerSets : Int) ≤ cfg.m_targetOlsIdx then .error Fatal.olsRange
        else .ok (isSpecialNalTypes u.m_nalUnitType
          || decide (u.m_nuhLayerId ∈ v.vps.getLayerIdsInOls cfg.m_targetOlsIdx.toNat), some v.vps)) ∧
    (∀ (s : State) (x : NalUnit), x.m_nalUnitType = NalUnitType.NAL_UNIT_VPS →
      olsBlock cfg (olsState s x) x true =
        if (x.vps.numOutputLayerSets : Int) ≤ cfg.m_targetOlsIdx then .error Fatal.olsRange
        else .ok (true, some x.vps)) := by
  have ha : activeVps st = some v.vps := by
    obtain ⟨s1, _, h2⟩ := runState_append w cfg pre (v :: mid) State.init st hst
    unfold runState at h2
    split at h2
    · simp at h2
    · rename_i s2 he
      have e := next_eq_nextState w cfg s1 s2 v he
      subst e
      rw [runState_activeVps w cfg mid _ st h2 hno]
      exact activeVps_nextState_vps s1 v h0 hv
  refine ⟨ha, ?_, ?_⟩
  · intro u _
    exact olsBlock_active cfg st u v.vps ht ha
  · intro s x hx
    rw [olsBlock_active cfg _ x x.vps ht (activeVps_olsState_vps s x hx)]
    simp [isSpecialNalTypes, hx]

/-- C25 at a concrete run: target OLS 0; a VPS listing layer 0, then a VPS with
the same id listing layer 1 instead: the later slice of layer 1 is tested
against the second record. -/
theorem C25_ols_uses_current_vps_witness :
    olsBlock ⟨0, -1⟩ (nextState (nextState State.init (vpsUnit vps3 0 0)) (vpsUnit vps3b 0 0))
      (sliceUnit 1 0) true = .ok (true, some vps3b) :=
  ((C25_ols_uses_current_vps demoWriter ⟨0, -1⟩ [vpsUnit vps3 0 0] [] (vpsUnit vps3b 0 0)
    (nextState (nextState State.init (vpsUnit vps3 0 0)) (vpsUnit vps3b 0 0)) (by decide)
    (by rfl) (by decide) (by rfl) (by decide)).2.1 (sliceUnit 1 0) (by decide)).trans (by rfl)

/-- C26: a non-empty VPS unit with temporal id 0 that passes the temporal
predicate and declares `numOutputLayerSets <= m_targetOlsIdx` is re-serialized
to the output, and then the range check aborts the run: the output of the
aborted run is the output before the unit followed by the re-serialized VPS. -/
theorem C26_vps_written_before_range_abort (w : HLSWriter) (cfg : Config)
    (pre post : List NalUnit) (v : NalUnit) (st : State)
    (hst : runState w cfg State.init pre = .ok st) (h0 : v.fifo ≠ [])
    (hv : v.m_nalUnitType = NalUnitType.NAL_UNIT_VPS) (hz : v.m_temporalId = 0)
    (hT : temporalKeep cfg v = true)
    (hr : (v.vps.numOutputLayerSets : Int) ≤ cfg.m_targetOlsIdx) :
    (decode w cfg (pre ++ v :: post)).fatal = some Fatal.olsRange ∧
    (decode w cfg (pre ++ v :: post)).output
      = (decode w cfg pre).output ++ writeAnnexB (w.nalUnitEBSP NalUnitType.NAL_UNIT_VPS
          v.m_nuhLayerId v.m_temporalId (w.codeVPS v.vps)) ∧
    written w cfg (pre ++ v :: post) pre.length := by
  have ht : 0 ≤ cfg.m_targetOlsIdx := le_trans (Int.ofNat_nonneg _) hr
  have hO : olsBlock cfg (afterVps st v) v true = .error Fatal.olsRange := by
    have ha := activeVps_olsState_vps st v hv
    simp only [olsState, hv, if_true] at ha
    rw [olsBlock_active cfg _ v v.vps ht ha, if_pos hr]
  have hU : decodeUnit w cfg st v
      = ⟨writeAnnexB (w.nalUnitEBSP NalUnitType.NAL_UNIT_VPS v.m_nuhLayerId v.m_temporalId
          (w.codeVPS v.vps)), .error Fatal.olsRange⟩ := by
    rw [decodeUnit_vps w cfg st v h0 hv, hO]
    simp [hT, hz]
  have hE : (decodeUnit w cfg st v).next = .error Fatal.olsRange := by rw [hU]
  refine ⟨?_, ?_, ?_⟩
  · rw [decode_abort_at w cfg pre post v st _ hst hE]
  · rw [decode_abort_at w cfg pre post v st _ hst hE, hU]
    simp [Run.output]
  · unfold written
    rw [emittedAt_abort w cfg pre post v st _ hst hE pre.length (le_refl _), if_pos rfl, hU]
    exact writeAnnexB_ne_nil _

/-- C26 at a concrete run: a VPS unit with 3 output layer sets under target OLS 3. -/
theorem C26_vps_written_before_range_abort_witness :
    (decode demoWriter ⟨3, -1⟩ ([] ++ vpsUnit vps3 0 0 :: [sliceUnit 0 0])).fatal
      = some Fatal.olsRange ∧
    (decode demoWriter ⟨3, -1⟩ ([] ++ vpsUnit vps3 0 0 :: [sliceUnit 0 0])).output
      = (decode demoWriter ⟨3, -1⟩ []).output ++ writeAnnexB (demoWriter.nalUnitEBSP
          NalUnitType.NAL_UNIT_VPS (vpsUnit vps3 0 0).m_nuhLayerId (vpsUnit vps3 0 0).m_temporalId
          (demoWriter.codeVPS (vpsUnit vps3 0 0).vps)) ∧
    written demoWriter ⟨3, -1⟩ ([] ++ vpsUnit vps3 0 0 :: [sliceUnit 0 0]) ([] : List NalUnit).length :=
  C26_vps_written_before_range_abort demoWriter ⟨3, -1⟩ [] [sliceUnit 0 0] (vpsUnit vps3 0 0)
    State.init (by rfl) (by decide) (by rfl) (by rfl) (by decide) (by decide)

/-! ## State and verdict -/

/-- C27: the running state after a unit on which the run does not abort is the
same under any other configuration on which the run does not abort either, so
it does not depend on the keep verdict; a non-empty VPS, SPS or PPS unit is
then found in the store under its id, and a VPS unit has set `m_vpsId` to its
id, kept or dropped. -/
theorem C27_state_independent_of_verdict (w : HLSWriter) (cfg : Config) (st st1 : State)
    (u : NalUnit) (hok : (decodeUnit w cfg st u).next = .ok st1) :
    (∀ (cfg2 : Config) (st2 : State), (decodeUnit w cfg2 st u).next = .ok st2 → st2 = st1) ∧
    (u.fifo ≠ [] → u.m_nalUnitType = NalUnitType.NAL_UNIT_VPS →
      st1.m_vpsId = (u.vps.vpsId : Int) ∧
      st1.m_parameterSetManager.getVPS u.vps.vpsId = some u.vps) ∧
    (u.fifo ≠ [] → u.m_nalUnitType = NalUnitType.NAL_UNIT_SPS →
      st1.m_vpsId = st.m_vpsId ∧ st1.m_parameterSetManager.getSPS u.sps.spsId = some u.sps) ∧
    (u.fifo ≠ [] → u.m_nalUnitType = NalUnitType.NAL_UNIT_PPS →
      st1.m_vpsId = st.m_vpsId ∧ st1.m_parameterSetManager.getPPS u.pps.ppsId = some u.pps) := by
  have e := next_eq_nextState w cfg st st1 u hok
  subst e
  refine ⟨?_, ?_, ?_, ?_⟩
  · intro cfg2 st2 h2
    exact next_eq_nextState w cfg2 st st2 u h2
  · intro h0 hv
    simp [nextState, h0, hv, afterVps, getVPS_storeVPS]
  · intro h0 hs
    simp [nextState, h0, hs, getSPS_storeSPS]
  · intro h0 hp
    simp [nextState, h0, hp, getPPS_storePPS]

/-- C27 at a concrete iteration: cutoff 0 drops a VPS unit of temporal id 1,
which is stored and made active all the same. -/
theorem C27_state_independent_of_verdict_witness :
    (decodeUnit demoWriter ⟨-1, 0⟩ State.init (vpsUnit vps3 0 1)).emitted = [] ∧
    (nextState State.init (vpsUnit vps3 0 1)).m_vpsId = ((vpsUnit vps3 0 1).vps.vpsId : Int) ∧
    (nextState State.init (vpsUnit vps3 0 1)).m_parameterSetManager.getVPS
      (vpsUnit vps3 0 1).vps.vpsId = some (vpsUnit vps3 0 1).vps :=
  ⟨by decide,
    (C27_state_independent_of_verdict demoWriter ⟨-1, 0⟩ State.init
      (nextState State.init (vpsUnit vps3 0 1)) (vpsUnit vps3 0 1) (by rfl)).2.1
      (by decide) (by rfl)⟩

/-! ## Temporal id check of the parameter set writers -/

/-- The state after one more unit is what its iteration returns. -/
theorem runState_snoc (w : HLSWriter) (cfg : Config) (u : NalUnit) :
    ∀ (pre : List NalUnit) (st0 st : State), runState w cfg st0 pre = .ok st →
      runState w cfg st0 (pre ++ [u]) = (decodeUnit w cfg st u).next := by
  intro pre
  induction pre with
  | nil =>
    intro st0 st h
    simp only [runState, Except.ok.injEq] at h
    subst h
    simp only [List.nil_append, runState]
    split <;> simp_all
  | cons a tl ih =>
    intro st0 st h
    unfold runState at h
    split at h
    · simp at h
    · rename_i s2 he
      simp only [List.cons_append, runState, he]
      exact ih s2 st h

/-- The fatal conditions that the OLS block can raise in a state that a run has
reached. -/
theorem olsBlock_error_kind (cfg : Config) (st : State) (nalu : NalUnit) (e : Fatal)
    (hinv : (olsState st nalu).m_vpsId ≠ -1 → (activeVps (olsState st nalu)).isSome = true)
    (h : olsBlock cfg (olsState st nalu) nalu true = .error e) :
    e = Fatal.onlyOneOls ∨ e = Fatal.olsRange := by
  by_cases ht : cfg.m_targetOlsIdx < 0
  · rw [olsBlock_disabled cfg _ nalu true ht] at h
    simp at h
  · have ht0 : 0 ≤ cfg.m_targetOlsIdx := by omega
    by_cases hs : (olsState st nalu).m_vpsId = -1
    · rw [olsBlock_noVps cfg _ nalu ht0 hs] at h
      split at h
      · simp only [Except.error.injEq] at h; exact Or.inl h.symm
      · simp at h
    · obtain ⟨vps, ha⟩ := Option.isSome_iff_exists.mp (hinv hs)
      rw [olsBlock_active cfg _ nalu vps ht0 ha] at h
      split at h
      · simp only [Except.error.injEq] at h; exact Or.inr h.symm
      · simp at h

/-- A VPS or SPS unit with a non-zero temporal id for which the writer is
called aborts the iteration on the writer's temporal id check, nothing written. -/
theorem decodeUnit_reachesWriter (w : HLSWriter) (cfg : Config) (st : State) (u : NalUnit)
    (h0 : u.fifo ≠ []) (htid : u.m_temporalId ≠ 0) (hK : reachesWriter cfg st u) :
    decodeUnit w cfg st u = ⟨[], .error (if u.m_nalUnitType = NalUnitType.NAL_UNIT_VPS
      then Fatal.vpsTemporalId else Fatal.spsTemporalId)⟩ := by
  rcases hK with ⟨hv, hT⟩ | ⟨hs, hT, v, hO⟩
  · rw [decodeUnit_vps w cfg st u h0 hv]
    simp [hT, htid, hv]
  · have hv : u.m_nalUnitType ≠ NalUnitType.NAL_UNIT_VPS := by rw [hs]; decide
    rw [decodeUnit_nonVps w cfg st u h0 hv, hO]
    simp [hT, htid, hs]

/-- A VPS or SPS unit for which the writer is not called: nothing is written,
and the iteration aborts exactly when its OLS block does. -/
theorem decodeUnit_writer_skipped (w : HLSWriter) (cfg : Config) (st : State) (u : NalUnit)
    (h0 : u.fifo ≠ [])
    (hty : u.m_nalUnitType = NalUnitType.NAL_UNIT_VPS ∨ u.m_nalUnitType = NalUnitType.NAL_UNIT_SPS)
    (hK : ¬ reachesWriter cfg st u) :
    decodeUnit w cfg st u =
      match olsBlock cfg (olsState st u) u true with
      | .error e => ⟨[], .error e⟩
      | .ok _ => ⟨[], .ok (nextState st u)⟩ := by
  rcases hty with hv | hs
  · have hT : ¬ temporalKeep cfg u = true := fun hT => hK (Or.inl ⟨hv, hT⟩)
    rw [decodeUnit_vps w cfg st u h0 hv, if_neg hT]
    simp only [olsState, hv, if_true, nextState, h0, if_false]
  · have hv : u.m_nalUnitType ≠ NalUnitType.NAL_UNIT_VPS := by rw [hs]; decide
    have hne : ¬ NalUnitType.NAL_UNIT_SPS = NalUnitType.NAL_UNIT_VPS := by decide
    rw [decodeUnit_nonVps w cfg st u h0 hv]
    simp only [olsState, nextState, h0, hs, if_neg hne, if_true, if_false]
    cases hO : olsBlock cfg st u true with
    | error e => rfl
    | ok p =>
      obtain ⟨b, v⟩ := p
      have hf : ¬ (temporalKeep cfg u && b) = true := by
        intro hf
        simp only [Bool.and_eq_true] at hf
        apply hK
        refine Or.inr ⟨hs, hf.1, v, ?_⟩
        rw [hO, hf.2]
      dsimp only
      rw [if_neg hf]

/-- C19 (amended): for a non-empty VPS or SPS unit with a non-zero temporal id
that the run reaches, the temporal id check is fatal exactly when the writer is
called, i.e. when a VPS unit passes the temporal predicate or an SPS unit passes
the temporal predicate and the OLS block. Then the run aborts in `xWriteVPS` or
`xWriteSPS`, the trace ends at that unit, and neither that unit nor any unit
after it is written. Otherwise nothing is written for the unit and the temporal
id check does not run: the iteration aborts exactly when its OLS block does
(only-one-OLS or range error), and if that block passes the run goes on to the
next unit. -/
theorem C19_kept_bad_temporalId_fatal (w : HLSWriter) (cfg : Config) (pre post : List NalUnit)
    (u : NalUnit) (st : State) (hst : runState w cfg State.init pre = .ok st)
    (h0 : u.fifo ≠ []) (htid : u.m_temporalId ≠ 0)
    (hty : u.m_nalUnitType = NalUnitType.NAL_UNIT_VPS
      ∨ u.m_nalUnitType = NalUnitType.NAL_UNIT_SPS) :
    ((decodeUnit w cfg st u).next
        = .error (if u.m_nalUnitType = NalUnitType.NAL_UNIT_VPS then Fatal.vpsTemporalId
            else Fatal.spsTemporalId) ↔ reachesWriter cfg st u) ∧
    (reachesWriter cfg st u →
      (decode w cfg (pre ++ u :: post)).fatal
        = some (if u.m_nalUnitType = NalUnitType.NAL_UNIT_VPS then Fatal.vpsTemporalId
            else Fatal.spsTemporalId) ∧
      (decode w cfg (pre ++ u :: post)).trace.length = pre.length + 1 ∧
      (∀ i, pre.length ≤ i → ¬ written w cfg (pre ++ u :: post) i)) ∧
    (¬ reachesWriter cfg st u →
      ¬ written w cfg (pre ++ u :: post) pre.length ∧
      (∀ e, (decodeUnit w cfg st u).next = .error e ↔
        olsBlock cfg (olsState st u) u true = .error e) ∧
      (∀ e, (decodeUnit w cfg st u).next = .error e →
        e = Fatal.onlyOneOls ∨ e = Fatal.olsRange) ∧
      (∀ b v, olsBlock cfg (olsState st u) u true = .ok (b, v) →
        runState w cfg State.init (pre ++ [u]) = .ok (nextState st u))) := by
  have hinv := olsState_inv w cfg pre st u hst
  have hskip : ¬ reachesWriter cfg st u →
      (decodeUnit w cfg st u).emitted = [] ∧
      (∀ e, (decodeUnit w cfg st u).next = .error e ↔
        olsBlock cfg (olsState st u) u true = .error e) ∧
      (∀ b v, olsBlock cfg (olsState st u) u true = .ok (b, v) →
        (decodeUnit w cfg st u).next = .ok (nextState st u)) := by
    intro hK
    rw [decodeUnit_writer_skipped w cfg st u h0 hty hK]
    cases hO : olsBlock cfg (olsState st u) u true with
    | error e1 => exact ⟨rfl, fun e => by simp, fun b v h => by simp at h⟩
    | ok p => exact ⟨rfl, fun e => by simp, fun b v _ => rfl⟩
  refine ⟨?_, ?_, ?_⟩
  · constructor
    · intro hE
      by_contra hK
      obtain ⟨_, h2, _⟩ := hskip hK
      rcases olsBlock_error_kind cfg st u _ hinv ((h2 _).mp hE) with h | h
      · split at h <;> exact absurd h (by decide)
      · split at h <;> exact absurd h (by decide)
    · intro hK
      rw [decodeUnit_reachesWriter w cfg st u h0 htid hK]
  · intro hK
    have hU := decodeUnit_reachesWriter w cfg st u h0 htid hK
    have hE : (decodeUnit w cfg st u).next
        = .error (if u.m_nalUnitType = NalUnitType.NAL_UNIT_VPS
          then Fatal.vpsTemporalId else Fatal.spsTemporalId) := by rw [hU]
    have hlen : (decode w cfg pre).trace.length = pre.length :=
      trace_length_of_ok w cfg pre State.init st hst
    refine ⟨?_, ?_, ?_⟩
    · rw [decode_abort_at w cfg pre post u st _ hst hE]
    · rw [decode_abort_at w cfg pre post u st _ hst hE]
      simp [hlen]
    · intro i hi hw
      apply hw
      rw [emittedAt_abort w cfg pre post u st _ hst hE i hi, hU]
      simp
  · intro hK
    obtain ⟨h1, h2, h3⟩ := hskip hK
    refine ⟨?_, h2, ?_, ?_⟩
    · intro hw
      apply hw
      rw [emittedAt_after w cfg pre st u post hst, h1]
    · intro e he
      exact olsBlock_error_kind cfg st u e hinv ((h2 e).mp he)
    · intro b v hO
      rw [runState_snoc w cfg u pre State.init st hst]
      exact h3 b v hO

/-- C19 as stated fails: at cutoff 0 an SPS unit of temporal id 1 is dropped
before `xWriteSPS` is reached, the run does not abort and the slice after it is
written; likewise under target OLS 0 with no cutoff an SPS unit of temporal id
1 in layer 2, outside the OLS, is dropped without abort. -/
theorem C19_counterexample :
    ((spsUnit 0 0 1).m_temporalId ≠ 0 ∧
      (decode demoWriter ⟨-1, 0⟩ [spsUnit 0 0 1, sliceUnit 0 0]).fatal = none ∧
      written demoWriter ⟨-1, 0⟩ [spsUnit 0 0 1, sliceUnit 0 0] 1) ∧
    ((spsUnit 0 2 1).m_temporalId ≠ 0 ∧
      (decode demoWriter ⟨0, -1⟩ [vpsUnit vps3 0 0, spsUnit 0 2 1, sliceUnit 0 0]).fatal = none ∧
      written demoWriter ⟨0, -1⟩ [vpsUnit vps3 0 0, spsUnit 0 2 1, sliceUnit 0 0] 2) := by
  decide

/-- C19 (amended) at concrete runs: with no cutoff an SPS unit of temporal id 1
between two slices aborts the run on the temporal id check; at cutoff 0 under
target OLS 5 a VPS unit of temporal id 1 with three output layer sets is
dropped, and the fatal condition its iteration can end in is an OLS one. -/
theorem C19_kept_bad_temporalId_fatal_witness :
    ((decode demoWriter ⟨-1, -1⟩ ([sliceUnit 0 0] ++ spsUnit 0 0 1 :: [sliceUnit 0 0])).fatal
        = some Fatal.spsTemporalId ∧
      (decode demoWriter ⟨-1, -1⟩ ([sliceUnit 0 0] ++ spsUnit 0 0 1 :: [sliceUnit 0 0])).trace.length
        = [sliceUnit 0 0].length + 1 ∧
      (∀ i, [sliceUnit 0 0].length ≤ i →
        ¬ written demoWriter ⟨-1, -1⟩ ([sliceUnit 0 0] ++ spsUnit 0 0 1 :: [sliceUnit 0 0]) i)) ∧
    ((decodeUnit demoWriter ⟨5, 0⟩ State.init (vpsUnit vps3 0 1)).next = .error Fatal.olsRange ∧
      ∀ e, (decodeUnit demoWriter ⟨5, 0⟩ State.init (vpsUnit vps3 0 1)).next = .error e →
        e = Fatal.onlyOneOls ∨ e = Fatal.olsRange) :=
  ⟨(C19_kept_bad_temporalId_fatal demoWriter ⟨-1, -1⟩ [sliceUnit 0 0] [sliceUnit 0 0]
      (spsUnit 0 0 1) (nextState State.init (sliceUnit 0 0)) (by rfl) (by decide) (by decide)
      (Or.inr (by rfl))).2.1 (Or.inr ⟨by rfl, by decide, none, by rfl⟩),
    by rfl,
    ((C19_kept_bad_temporalId_fatal demoWriter ⟨5, 0⟩ [] [] (vpsUnit vps3 0 1) State.init
      (by rfl) (by decide) (by decide) (Or.inl (by rfl))).2.2
      (by
        rintro (⟨_, hT⟩ | ⟨hs, _⟩)
        · exact absurd hT (by decide)
        · exact absurd hs (by decide))).2.2.1⟩

end BitstreamExtractor

namespace Picture

/-! ## Slice lossless flags -/

/-- The loop with all indices in range: it succeeds, keeps the length, and sets
exactly the listed entries. -/
theorem markLossless_ok (numSlices : Nat) :
    ∀ (l : List Nat) (arr : List Bool), (∀ idx ∈ l, idx < numSlices) →
      ∃ out, markLossless numSlices l arr = .ok out ∧ out.length = arr.length ∧
        ∀ j, out[j]? = if j ∈ l ∧ j < arr.length then some true else arr[j]? := by
  intro l
  induction l with
  | nil => intro arr _; exact ⟨arr, rfl, rfl, by simp⟩
  | cons idx rest ih =>
    intro arr h
    have hidx : ¬ idx ≥ numSlices := by
      have := h idx (List.mem_cons_self _ _)
      omega
    obtain ⟨out, h1, h2, h3⟩ := ih (arr.set idx true) (fun i hi => h i (List.mem_cons_of_mem _ hi))
    refine ⟨out, by simp only [markLossless, hidx, if_false, h1], by simpa using h2, ?_⟩
    intro j
    rw [h3 j, List.getElem?_set, List.length_set]
    by_cases hl : j < arr.length
    · by_cases hj : j ∈ rest
      · simp [hj, hl]
      · by_cases he : idx = j
        · subst he
          simp [hj, hl]
        · have he1 : ¬ j = idx := fun h => he h.symm
          simp [hj, he, he1]
    · have hn : arr[j]? = none := List.getElem?_eq_none (by omega)
      by_cases he : idx = j
      · subst he
        simp [hl, hn]
      · simp [hl, hn, he]

/-- The loop with an index out of range fails. -/
theorem markLossless_error (numSlices : Nat) :
    ∀ (l : List Nat) (arr : List Bool), (∃ idx ∈ l, numSlices ≤ idx) →
      markLossless numSlices l arr = .error CheckFailure.indexOutOfBound := by
  intro l
  induction l with
  | nil => intro arr h; simp at h
  | cons idx rest ih =>
    intro arr h
    by_cases hidx : idx ≥ numSlices
    · simp [markLossless, hidx]
    · simp only [markLossless, hidx, if_false]
      apply ih
      obtain ⟨i, hi, hi1⟩ := h
      rcases List.mem_cons.mp hi with h1 | h1
      · subst h1; exact absurd hi1 hidx
      · exact ⟨i, h1, hi1⟩

/-- Behaviour on an index list of fewer than 65536 entries, where the 16-bit
element count equals the size of the list: with
`mixedLossyLossless` false the array has `numSlices` entries, all true; with it
true, a non-empty list and every index below `numSlices`, the array has
`numSlices` entries and entry `j` is true iff `j` occurs in the list; with it
true and the list empty or holding an index at or above `numSlices`, the call
fails a `CHECK`. -/
theorem fill_lossless_array_short (numSlices : Nat) (sliceLosslessIndexArray : List Nat)
    (mixedLossyLossless : Bool) (hlen : sliceLosslessIndexArray.length < 65536) :
    (mixedLossyLossless = false →
      fillSliceLossyLosslessArray numSlices sliceLosslessIndexArray mixedLossyLossless
        = .ok (List.replicate numSlices true)) ∧
    (mixedLossyLossless = true → sliceLosslessIndexArray ≠ [] →
      (∀ idx ∈ sliceLosslessIndexArray, idx < numSlices) →
      ∃ arr, fillSliceLossyLosslessArray numSlices sliceLosslessIndexArray mixedLossyLossless
          = .ok arr ∧ arr.length = numSlices ∧
        ∀ j, j < numSlices → (arr[j]? = some true ↔ j ∈ sliceLosslessIndexArray)) ∧
    (mixedLossyLossless = true →
      (sliceLosslessIndexArray = [] ∨ ∃ idx ∈ sliceLosslessIndexArray, numSlices ≤ idx) →
      ∃ e, fillSliceLossyLosslessArray numSlices sliceLosslessIndexArray mixedLossyLossless
        = .error e) := by
  have hmod : sliceLosslessIndexArray.length % 65536 = sliceLosslessIndexArray.length :=
    Nat.mod_eq_of_lt hlen
  refine ⟨?_, ?_, ?_⟩
  · intro hm
    simp [fillSliceLossyLosslessArray, hm]
  · intro hm hne hall
    have hpos : sliceLosslessIndexArray.length ≠ 0 := by
      intro h; exact hne (List.length_eq_zero.mp h)
    obtain ⟨out, h1, h2, h3⟩ :=
      markLossless_ok numSlices sliceLosslessIndexArray (List.replicate numSlices false) hall
    rw [List.length_replicate] at h2
    refine ⟨out, ?_, h2, ?_⟩
    · simp only [fillSliceLossyLosslessArray, hm, hmod, hpos, if_true, if_false, List.take_length,
        h1, h2, lt_irrefl]
    · intro j hj
      rw [h3 j, List.length_replicate]
      by_cases hmem : j ∈ sliceLosslessIndexArray
      · simp [hmem, hj]
      · simp [hmem, List.getElem?_replicate, hj]
  · intro hm h
    rcases h with h | h
    · subst h
      exact ⟨CheckFailure.emptyLosslessArray, by simp [fillSliceLossyLosslessArray, hm]⟩
    · have hpos : sliceLosslessIndexArray.length ≠ 0 := by
        obtain ⟨idx, hidx, _⟩ := h
        intro h0
        rw [List.length_eq_zero.mp h0] at hidx
        simp at hidx
      refine ⟨CheckFailure.indexOutOfBound, ?_⟩
      simp only [fillSliceLossyLosslessArray, hm, hmod, hpos, if_true, if_false, List.take_length,
        markLossless_error numSlices sliceLosslessIndexArray _ h]

/-- A list of zeros whose size is a multiple of 65536 counts as empty. -/
theorem fill_count_truncated (n : Nat) (hn : n % 65536 = 0) :
    fillSliceLossyLosslessArray 1 (List.replicate n 0) true
      = .error CheckFailure.emptyLosslessArray := by
  simp [fillSliceLossyLosslessArray, hn]

/-- Behind a non-zero multiple of 65536 zeros only the first entry is visited. -/
theorem fill_count_truncated_one (n : Nat) (hn : n % 65536 = 0) (hpos : 0 < n) :
    fillSliceLossyLosslessArray 1 (List.replicate n 0 ++ [5]) true = .ok [true] := by
  have h1 : (List.replicate n 0 ++ [5]).length % 65536 = 1 := by
    simp only [List.length_append, List.length_replicate, List.length_singleton]
    omega
  have h2 : (List.replicate n 0 ++ [5]).take 1 = [0] := by
    obtain ⟨m, rfl⟩ : ∃ m, n = m + 1 := ⟨n - 1, by omega⟩
    simp [List.replicate_succ]
  simp only [fillSliceLossyLosslessArray, h1, h2]
  rfl

/-- C28: the code falls short of its own assertions on lists whose size does
not fit `uint16_t`. With `mixedLossyLossless` true and one slice, a list of
65536 entries 0 is non-empty with every index below `numSlices`, yet the
truncated element count is 0 and the "sliceLosslessArray is empty" `CHECK`
fails; the same list followed by the entry 5 holds an index at or above
`numSlices`, yet the truncated count is 1, only the first entry is visited, the
bound `CHECK` is skipped for the entry 5 and the call succeeds. -/
theorem C28_uint16_count_truncation :
    (List.replicate 65536 0 ≠ [] ∧ (∀ idx ∈ List.replicate 65536 0, idx < 1) ∧
      fillSliceLossyLosslessArray 1 (List.replicate 65536 0) true
        = .error CheckFailure.emptyLosslessArray) ∧
    ((∃ idx ∈ List.replicate 65536 0 ++ [5], 1 ≤ idx) ∧
      fillSliceLossyLosslessArray 1 (List.replicate 65536 0 ++ [5]) true = .ok [true]) := by
  refine ⟨⟨?_, ?_, fill_count_truncated 65536 (by decide)⟩,
    ⟨⟨5, List.mem_append_right _ (List.mem_singleton.mpr rfl), by decide⟩,
      fill_count_truncated_one 65536 (by decide) (by decide)⟩⟩
  · intro h
    have h1 := congrArg List.length h
    rw [List.length_replicate] at h1
    exact absurd h1 (by decide)
  · intro idx h
    rw [List.eq_of_mem_replicate h]
    decide

/-! ## Film grain padding -/

/-- Setting the six low bits rounds up to the last value of the block of 64. -/
theorem or_63 (n : Nat) : n ||| 63 = 64 * (n / 64) + 63 := by
  have h1 : n % 64 ||| 63 = 63 := by
    have hlt : n % 64 < 64 := Nat.mod_lt _ (by decide)
    generalize n % 64 = r at hlt
    interval_cases r <;> rfl
  have h2 : 2 ^ 6 * (n / 64) + n % 64 = 2 ^ 6 * (n / 64) ||| n % 64 :=
    Nat.mul_add_lt_is_or (Nat.mod_lt _ (by decide)) _
  have h3 : 2 ^ 6 * (n / 64) + 63 = 2 ^ 6 * (n / 64) ||| 63 :=
    Nat.mul_add_lt_is_or (by decide) _
  have h4 : n = 2 ^ 6 * (n / 64) + n % 64 := by
    have := Nat.div_add_mod n 64
    omega
  calc n ||| 63 = (2 ^ 6 * (n / 64) ||| n % 64) ||| 63 := by rw [← h2, ← h4]
    _ = 2 ^ 6 * (n / 64) ||| (n % 64 ||| 63) := Nat.or_assoc _ _ _
    _ = 2 ^ 6 * (n / 64) ||| 63 := by rw [h1]
    _ = 64 * (n / 64) + 63 := by rw [← h3]; norm_num

/-- The padding in closed form, over the positive range of `int`. -/
theorem fgsPadding_eq (x : Int) (h1 : 1 ≤ x) (h2 : x ≤ 2147483647) :
    fgsPadding x = 63 - (x - 1) % 64 := by
  obtain ⟨n, hn⟩ := Int.eq_ofNat_of_zero_le (by omega : 0 ≤ x - 1)
  have hw : wrapInt32 (x - 1) = (n : Int) := by
    rw [← hn]; unfold wrapInt32; omega
  have hor : Int.lor (n : Int) 63 = ((n ||| 63 : Nat) : Int) := rfl
  unfold fgsPadding
  rw [hw, hor, or_63]
  have hx : x = (n : Int) + 1 := by omega
  subst hx
  unfold wrapInt32
  push_cast
  omega

/-- C29: for every width and height from 1 up (within `int`), each padding
`p = ((x - 1) | 0x3F) + 1 - x` satisfies `0 <= p <= 63` and `x + p` is the
smallest multiple of 64 that is at least `x`; and `m_padValue` is the larger of
the width padding and the height padding. -/
theorem C29_fgs_padding (width height : Int) (hw : 1 ≤ width) (hwi : width ≤ 2147483647)
    (hh : 1 ≤ height) (hhi : height ≤ 2147483647) :
    (0 ≤ fgsPadding width ∧ fgsPadding width ≤ 63 ∧ 64 ∣ width + fgsPadding width ∧
      ∀ m : Int, 64 ∣ m → width ≤ m → width + fgsPadding width ≤ m) ∧
    (0 ≤ fgsPadding height ∧ fgsPadding height ≤ 63 ∧ 64 ∣ height + fgsPadding height ∧
      ∀ m : Int, 64 ∣ m → height ≤ m → height + fgsPadding height ≤ m) ∧
    padValue width height = max (fgsPadding width) (fgsPadding height) := by
  have key : ∀ x : Int, 1 ≤ x → x ≤ 2147483647 →
      (0 ≤ fgsPadding x ∧ fgsPadding x ≤ 63 ∧ 64 ∣ x + fgsPadding x ∧
        ∀ m : Int, 64 ∣ m → x ≤ m → x + fgsPadding x ≤ m) := by
    intro x h1 h2
    rw [fgsPadding_eq x h1 h2]
    refine ⟨by omega, by omega, by omega, ?_⟩
    intro m hm hxm
    omega
  refine ⟨key width hw hwi, key height hh hhi, ?_⟩
  unfold padValue
  simp only
  split
  · rename_i h; rw [max_eq_left (le_of_lt h)]
  · rename_i h; rw [max_eq_right (not_lt.mp h)]

/-- C29 at a concrete picture: 1920 by 1080 needs no width padding and 8 rows. -/
theorem C29_fgs_padding_witness :
    fgsPadding 1920 = 0 ∧ fgsPadding 1080 = 8 ∧ padValue 1920 1080 = 8 ∧
    padValue 1920 1080 = max (fgsPadding 1920) (fgsPadding 1080) :=
  ⟨by decide, by decide, by decide,
    (C29_fgs_padding 1920 1080 (by decide) (by decide) (by decide) (by decide)).2.2⟩

/-! ## Downsampling filters -/

theorem wrapInt32_add_wrap (a b : Int) :
    wrapInt32 (wrapInt32 a + wrapInt32 b) = wrapInt32 (a + b) := by
  unfold wrapInt32; omega

theorem wrapInt32_zero_add_wrap (b : Int) : wrapInt32 (0 + wrapInt32 b) = wrapInt32 b := by
  unfold wrapInt32; omega

theorem wrapInt32_of_range (a : Int) (h1 : -2147483648 ≤ a) (h2 : a ≤ 2147483647) :
    wrapInt32 a = a := by
  unfold wrapInt32; omega

/-- The 12 taps of a 12-entry row add up to the sum of the row. -/
theorem taps_eq_sum (f : List Int) (hlen : f.length = 12) :
    f.getD 0 0 + f.getD 1 0 + f.getD 2 0 + f.getD 3 0 + f.getD 4 0 + f.getD 5 0 + f.getD 6 0 + f.getD 7 0 + f.getD 8 0 + f.getD 9 0 + f.getD 10 0 + f.getD 11 0 = f.sum := by
  rcases f with _ | ⟨a0, _ | ⟨a1, _ | ⟨a2, _ | ⟨a3, _ | ⟨a4, _ | ⟨a5, _ | ⟨a6, _ | ⟨a7, _ | ⟨a8, _ | ⟨a9, _ | ⟨a10, _ | ⟨a11, _ | ⟨b, rest⟩⟩⟩⟩⟩⟩⟩⟩⟩⟩⟩⟩⟩
  all_goals first
    | (simp at hlen; done)
    | (simp only [List.getD_cons_zero, List.getD_cons_succ, List.sum_cons, List.sum_nil]; ring)

/-- Either pass over constant samples gives the tap sum times the sample, in `int`. -/
theorem filterSum_const (f : List Int) (v integer size : Int) :
    filterSum f (fun _ => v) integer size = wrapInt32 ((f.getD 0 0 + f.getD 1 0 + f.getD 2 0 + f.getD 3 0 + f.getD 4 0 + f.getD 5 0 + f.getD 6 0 + f.getD 7 0 + f.getD 8 0 + f.getD 9 0 + f.getD 10 0 + f.getD 11 0) * v) := by
  have hr : List.range 12 = [0, 1, 2, 3, 4, 5, 6, 7, 8, 9, 10, 11] := by decide
  unfold filterSum
  rw [hr]
  simp only [List.foldl, wrapInt32_zero_add_wrap, wrapInt32_add_wrap]
  congr 1
  ring

/-- Every row of the table has 12 taps that sum to 128. -/
theorem table_rows :
    DownsamplingFilterSRC.length = 8 ∧
    ∀ d ∈ DownsamplingFilterSRC, d.length = 16 ∧ ∀ f ∈ d, f.length = 12 ∧ f.sum = 128 := by
  decide

theorem filterRow_sum (filterIdx frac : Nat) (h1 : filterIdx < 8) (h2 : frac < 16) :
    (filterRow filterIdx frac).length = 12 ∧ (filterRow filterIdx frac).sum = 128 := by
  obtain ⟨hl, hall⟩ := table_rows
  have hi : filterIdx < DownsamplingFilterSRC.length := by rw [hl]; exact h1
  have hd := hall (DownsamplingFilterSRC[filterIdx]) (List.getElem_mem hi)
  have hj : frac < (DownsamplingFilterSRC[filterIdx]).length := by rw [hd.1]; exact h2
  have hf := hd.2 ((DownsamplingFilterSRC[filterIdx])[frac]) (List.getElem_mem hj)
  have e : filterRow filterIdx frac = (DownsamplingFilterSRC[filterIdx])[frac] := by
    unfold filterRow
    rw [List.getD_eq_getElem _ _ hi, List.getD_eq_getElem _ _ hj]
  rw [e]
  exact hf

/-- C30: every one of the 8 x 16 rows of `DownsamplingFilterSRC` has 12 taps
that sum to 128; hence, when downsampling a constant picture of value `c`
(with `0 <= c <= maxVal`, bit depth at most 17), each pass has gain 128 and
the normalisation by `log2Norm = 14` returns `c`, for every filter, every
fractional phase and every position. -/
theorem C30_rows_sum_128 :
    (DownsamplingFilterSRC.length = 8 ∧
      ∀ d ∈ DownsamplingFilterSRC, d.length = 16 ∧ ∀ f ∈ d, f.length = 12 ∧ f.sum = 128) ∧
    (∀ (horFilter verFilter fracX fracY : Nat)
        (c maxVal orgWidth orgHeight integerX integerY : Int),
      horFilter < 8 → verFilter < 8 → fracX < 16 → fracY < 16 →
      0 ≤ c → c ≤ maxVal → maxVal ≤ 131071 →
      sampleRateConvSample (filterRow horFilter fracX) (filterRow verFilter fracY)
        (fun _ _ => c) orgWidth orgHeight integerX integerY maxVal = c) := by
  refine ⟨table_rows, ?_⟩
  intro horFilter verFilter fracX fracY c maxVal orgWidth orgHeight integerX integerY
    h1 h2 h3 h4 hc0 hc1 hm
  obtain ⟨hl1, hs1⟩ := filterRow_sum horFilter fracX h1 h3
  obtain ⟨hl2, hs2⟩ := filterRow_sum verFilter fracY h2 h4
  unfold sampleRateConvSample
  simp only
  rw [filterSum_const (filterRow horFilter fracX) c integerX orgWidth,
    taps_eq_sum _ hl1, hs1]
  rw [filterSum_const (filterRow verFilter fracY) _ integerY orgHeight,
    taps_eq_sum _ hl2, hs2]
  rw [wrapInt32_of_range (128 * c) (by omega) (by omega),
    wrapInt32_of_range (128 * (128 * c)) (by omega) (by omega),
    wrapInt32_of_range (128 * (128 * c) + 8192) (by omega) (by omega),
    Int.shiftRight_eq_div_pow]
  have e : (128 * (128 * c) + 8192) / (((2 ^ 14 : Nat)) : Int) = c := by
    norm_num
    omega
  rw [e]
  omega

/-- C30 at a concrete sample: filter set D = 2, phases 3 and 14, a 10-bit
picture of constant value 512. -/
theorem C30_rows_sum_128_witness :
    sampleRateConvSample (filterRow 2 3) (filterRow 2 14) (fun _ _ => 512) 1920 1080 7 1079 1023
      = 512 :=
  C30_rows_sum_128.2 2 2 3 14 512 1023 1920 1080 7 1079 (by decide) (by decide) (by decide)
    (by decide) (by decide) (by decide) (by decide)

end Picture
